import Mathlib

/-!
# MindRecord sharded reader (`mindrecord/io/shard_reader.cc`)

A shallow embedding of `ShardReader`: the task planner, the row-mode and
block-mode streaming engines and the label resolver, followed by the
properties proved about them.

Conventions of the embedding.

* C++ `int` / `uint64_t` values are `Int` / `Nat`; where the source narrows or
  can wrap, the wrap is explicit (`toInt32`, `u64`).
* A function whose C++ body can run into undefined behaviour (indexing past the
  end of a vector, building a `std::string` from a null pointer) or throw
  (`std::stoull`) returns `Option _`; `none` stands for that outcome. The
  `MSRStatus` of the source is part of the value.
* Threads are modelled by explicit interleaving: a step function on the reader
  state and a schedule (list of actions).
* What the repository declares outside this file (`ShardHeader`, `Page`,
  `ShardTask`, the operators, the constants of `shard_utils.h`) and the external
  libraries (SQLite, the file system, MessagePack) are records of the
  operations the reader calls on them.
-/

namespace mindrecord

/-! ## Machine integers -/

/-- Conversion to `uint64_t`. -/
def u64 (n : Int) : Nat := (n % 2 ^ 64).toNat

/-- Conversion to a 32-bit signed `int` (`static_cast<int>`). -/
def toInt32 (z : Int) : Int := (z + 2 ^ 31) % 2 ^ 32 - 2 ^ 31

/-- Conversion to `uint32_t`. -/
def u32 (n : Int) : Nat := (n % 2 ^ 32).toNat

/-! ## Status, JSON values -/

inductive MSRStatus where
  | SUCCESS
  | FAILED
  | ILLEGAL_COLUMN_LIST
  deriving DecidableEq, Repr

/-- The `nlohmann::json` values the reader handles. An object keeps its members
sorted by key, as the `std::map` behind it does. -/
inductive Json where
  | null : Json
  | int : Int → Json
  | number_float : Nat → Json
  | str : String → Json
  | object : List (String × Json) → Json

/-- Key order of `std::map<std::string, _>`: lexicographic on the characters. -/
def strLt (a b : String) : Bool := decide (a.toList < b.toList)

/-- Insert-or-assign into the sorted member list of an object. -/
def insertMember (k : String) (v : Json) : List (String × Json) → List (String × Json)
  | [] => [(k, v)]
  | (k1, v1) :: rest =>
    if k = k1 then (k, v) :: rest
    else if strLt k k1 then (k, v) :: (k1, v1) :: rest
    else (k1, v1) :: insertMember k v rest

/-- The member found by `j.find(key)`; `none` is `j.end()` (also for a value that is no object). -/
def Json.find (j : Json) (key : String) : Option Json :=
  match j with
  | Json.object members => (members.find? (fun kv => kv.1 == key)).map Prod.snd
  | _ => none

/-- Assignment `j[key] = v`: a null value becomes an object first. On a value that
is neither null nor an object nlohmann throws; no modelled path does that and the
value is returned as it is. -/
def Json.set (j : Json) (key : String) (v : Json) : Json :=
  match j with
  | Json.null => Json.object [(key, v)]
  | Json.object members => Json.object (insertMember key v members)
  | other => other

/-! ## Constants of `shard_utils.h` -/

/-- The constants the reader uses whose values are given by a header outside this
file (the spec names them as tunable configuration constants); they are parameters
of the model. -/
structure Constants where
  kMaxShardCount : Int
  kMinConsumerCount : Int
  kMaxConsumerCount : Int
  kNumBatchInMap : Int
  kNumPageInBuffer : Int
  kMaxFieldCount : Int
  kPageTypeBlob : String

/-- Modelled from the spec: the length prefix of a record, `kInt64Len = 8`. -/
def kInt64Len : Nat := 8

/-- Modelled from the spec: `kNumberFieldTypeSet` is int32, int64, float32, float64. -/
def kNumberFieldTypeSet : List String := ["int32", "int64", "float32", "float64"]

/-! ## The shard header (page directory, schemas) -/

/-- Modelled from the spec: a page of the page directory, with the accessors the reader calls. -/
structure Page where
  page_id : Int
  page_type : String
  page_type_id : Int
  start_row_id : Nat
  end_row_id : Nat
  page_size : Nat
  deriving DecidableEq

instance : Inhabited Page := ⟨⟨0, "", 0, 0, 0, 0⟩⟩

/-- Modelled from the spec: a schema, as the reader reads it: the members of its
`"schema"` object (field name and declared `"type"`) and its blob fields. -/
structure Schema where
  schema : List (String × String)
  blob_fields : List String

/-- Modelled from the spec: the `ShardHeader` the reader consumes: `shard_count`,
`page_size`, `header_size`, the page directory (`pages[shard][page_id]`, from which
`GetLastPageId` and `GetPage` read), `GetPageByGroupId`, the schemas, the indexed
fields `(schema_id, name)` and the shard file paths. -/
structure ShardHeader where
  shard_count : Int
  page_size : Nat
  header_size : Nat
  pages : List (List Page)
  page_by_group : Int → Int → Option Page
  schemas : List Schema
  fields : List (Nat × String)
  shard_addresses : List String

instance : Inhabited ShardHeader := ⟨⟨0, 0, 0, [], fun _ _ => none, [], [], []⟩⟩

/-- Modelled from the spec: the pages of shard `s` in page-id order (no pages for a
shard outside the directory). -/
def ShardHeader.pagesOf (h : ShardHeader) (s : Nat) : List Page := h.pages.getD s []

/-- Modelled from the spec: the pages of the shard with the `int` id `shard_id`. -/
def ShardHeader.shardPages (h : ShardHeader) (shard_id : Int) : List Page :=
  if shard_id < 0 then [] else h.pagesOf shard_id.toNat

/-- Modelled from the spec: `last_page_id(shard)`, which is `-1` when the shard has no
page (as the comment at its call in `ReadRowGroupSummary` says). -/
def ShardHeader.GetLastPageId (h : ShardHeader) (shard_id : Int) : Int :=
  ((h.shardPages shard_id).length : Int) - 1

/-- Modelled from the spec: `page(shard, page_id)`. -/
def ShardHeader.GetPage (h : ShardHeader) (shard_id : Int) (page_id : Nat) : Page :=
  (h.shardPages shard_id).getD page_id default

/-- Modelled from the spec: `page_by_group(group, shard)`, called as
`GetPageByGroupId(group_id, shard_id)`; `none` is a non-success status. -/
def ShardHeader.GetPageByGroupId (h : ShardHeader) (group_id shard_id : Int) : Option Page :=
  h.page_by_group group_id shard_id

/-! ## The task list -/

/-- A task `((shard_id, group_id), address, labels)`. -/
abbrev Task := (Int × Int) × List Nat × Json

/-- Modelled from the spec: `ShardTask`, an ordered task list with a permutation. -/
structure ShardTask where
  task_list_ : List Task
  permutation_ : List Int

instance : Inhabited ShardTask := ⟨⟨[], []⟩⟩

/-- Modelled from the spec: `insert` appends. -/
def ShardTask.InsertTask (t : ShardTask) (shard_id group_id : Int) (address : List Nat)
    (labels : Json) : ShardTask :=
  { t with task_list_ := t.task_list_ ++ [((shard_id, group_id), address, labels)] }

/-- Modelled from the spec: `size()` is the number of tasks. -/
def ShardTask.Size (t : ShardTask) : Nat := t.task_list_.length

/-- Modelled from the spec: `size_of_rows()` is the sum of `address[0]` across tasks. -/
def ShardTask.SizeOfRows (t : ShardTask) : Nat :=
  (t.task_list_.map (fun task => task.2.1.headD 0)).sum

/-- Modelled from the spec: `make_perm()` sets the permutation to `[0..size)`. -/
def ShardTask.MakePerm (t : ShardTask) : ShardTask :=
  { t with permutation_ := (List.range t.task_list_.length).map (fun i => (i : Int)) }

/-- Modelled from the spec: `get(index)`; `none` outside the list. -/
def ShardTask.get_task_by_id (t : ShardTask) (id : Int) : Option Task :=
  if id < 0 then none else t.task_list_[id.toNat]?

/-- Modelled from the spec: the read `permutation_[i]` of the permutation; `none`
outside the vector. -/
def ShardTask.perm_at (t : ShardTask) (i : Int) : Option Int :=
  if i < 0 then none else t.permutation_[i.toNat]?

/-! ## Operators -/

/-- Modelled from the spec: what the dynamic casts of the reader tell of an operator:
a category operator (with its categories), a shuffle operator, or another one. -/
inductive OperatorKind where
  | category (categories : List (String × String))
  | shuffle
  | other

/-- Modelled from the spec: a `ShardOperator`, whose contract is to transform a task
list in place and return a status. -/
structure ShardOperator where
  kind : OperatorKind
  apply : ShardTask → MSRStatus × ShardTask

def ShardOperator.isCategory (op : ShardOperator) : Bool :=
  match op.kind with
  | OperatorKind.category _ => true
  | _ => false

def ShardOperator.isShuffle (op : ShardOperator) : Bool :=
  match op.kind with
  | OperatorKind.shuffle => true
  | _ => false

/-! ## Files -/

/-- A `std::fstream` opened for reading: the bytes of the file and whether the
stream is still usable. A failed seek or read leaves the stream closed with its
fail bit set, so that every later operation on it fails. -/
structure fstream where
  content : List Nat
  good : Bool

/-- The call `seekg(offset)` followed by `read(len)`: the bytes, or `none` when the stream
is not usable or the file ends before `offset + len`. -/
def fstream.read_at (fs : fstream) (offset len : Nat) : Option (List Nat) :=
  if fs.good ∧ offset + len ≤ fs.content.length then some ((fs.content.drop offset).take len)
  else none

/-- The construction `std::vector<uint8_t>(len)`: it throws (`none`) when `len`
exceeds the largest vector size, `2^63 - 1`. -/
def allocBytes (len : Nat) : Option Unit := if 2 ^ 63 ≤ len then none else some ()

/-- The stream after the close that follows a failed seek or read. -/
def fstream.closed (fs : fstream) : fstream := { fs with good := false }

/-! ## The environment: file system, SQLite, codecs -/

/-- What the reader calls outside the repository. -/
structure Env where
  /-- Path validation of `IsLegalFile`. -/
  IsLegalFile : String → Bool
  /-- Header parsing `ShardHeader::Build`; `none` is `FAILED`. -/
  Build : String → Option ShardHeader
  /-- Basename of a path (`GetFileName(file).second`). -/
  GetFileName : String → String
  /-- Whether `sqlite3_open_v2` opens the database at the path read-only. -/
  sqlite3_open : String → Bool
  /-- Rows of `sqlite3_exec(db, sql)`, cells possibly NULL; `none` when `rc != SQLITE_OK`. -/
  exec : String → String → Option (List (List (Option String)))
  /-- Rows of the prepared statement `sql` with `:criteria` bound; `none` when prepare or bind fails. -/
  exec_bind : String → String → String → Option (List (List (Option String)))
  /-- Content of the file at a path, `none` when it cannot be opened. -/
  file : String → Option (List Nat)
  /-- The decoder `json::from_msgpack`. -/
  from_msgpack : List Nat → Json
  /-- The values the extraction `iss >> num` of `StringToNum<float>` and of
  `StringToNum<double>` stores once the stream sentry has succeeded. -/
  StringToNum_float : String → Json
  StringToNum_double : String → Json
  /-- Value of `GetMaxThreadNum()`. -/
  GetMaxThreadNum : Int
  /-- The round-robin combination `ShardTask::Combine`. -/
  Combine : List ShardTask → ShardTask
  /-- Name generation `ShardIndexGenerator::GenerateFieldName((schema_id, column))`; `none` is a failure. -/
  GenerateFieldName : Nat → String → Option String

/-- Opening a shard file: the stream is good when the file can be opened. -/
def Env.open_file (E : Env) (path : String) : fstream :=
  match E.file path with
  | some bytes => ⟨bytes, true⟩
  | none => ⟨[], false⟩

/-! ## Reader state -/

/-- A batch: the `(blob bytes, labels)` pairs of one result. -/
abbrev Batch := List (List Nat × Json)

/-- The fields of `ShardReader`. -/
structure ShardReader where
  task_id_ : Int
  deliver_id_ : Int
  shard_count_ : Int
  n_consumer_ : Int
  page_size_ : Nat
  header_size_ : Nat
  num_rows_ : Int
  row_id_ : Int
  num_blocks_ : Int
  block_reader_ : Bool
  shard_header_ : ShardHeader
  nlp_ : Bool
  all_in_index_ : Bool
  interrupt_ : Bool
  selected_columns_ : List String
  column_schema_id_ : List (String × Nat)
  operators_ : List ShardOperator
  tasks_ : ShardTask
  file_paths_ : List String
  database_paths_ : List String
  file_streams_ : List fstream
  file_streams_random_ : List (List fstream)
  delivery_map_ : List (Int × Batch)
  delivery_block_ : List (Option (List (List Nat) × List Json))
  delivery_block_set_ : List Int
  buf_ : List (List Nat)

/-- The constructor `ShardReader()`. Its body sets the counters and `block_reader_`;
the vectors and maps start empty. The flags `nlp_`, `all_in_index_` and `interrupt_`
keep the value of their declaration, which is in a header outside this file:
`interrupt_` is false (a reader that starts interrupted delivers nothing) and
`all_in_index_` is true (`CheckIfColumnInIndex` only ever clears the flag, so the
index path exists only from an initial true). The null header pointer is an empty
header; no path of the model reads it before `Init`. -/
def ShardReader.new : ShardReader :=
  { task_id_ := 0, deliver_id_ := 0, shard_count_ := 0, n_consumer_ := 0, page_size_ := 0,
    header_size_ := 0, num_rows_ := 0, row_id_ := 0, num_blocks_ := 0, block_reader_ := false,
    shard_header_ := default, nlp_ := false, all_in_index_ := true, interrupt_ := false,
    selected_columns_ := [], column_schema_id_ := [], operators_ := [], tasks_ := default,
    file_paths_ := [], database_paths_ := [], file_streams_ := [], file_streams_random_ := [],
    delivery_map_ := [], delivery_block_ := [], delivery_block_set_ := [], buf_ := [] }

/-! ## Index queries -/

/-- The callback `SelectCallback`: appends one row built from the cells. NULL cells are replaced
by the empty string when `0 < num_fields <= kMaxFieldCount`; a NULL cell that is
left makes the string construction undefined. -/
def SelectCallback (K : Constants) (records : List (List String))
    (p_fields : List (Option String)) : Option (List (List String)) :=
  let num_fields : Int := p_fields.length
  let cells : List (Option String) :=
    if 0 < num_fields ∧ num_fields ≤ K.kMaxFieldCount then
      p_fields.map (fun c => some (c.getD ""))
    else p_fields
  if cells.all Option.isSome then some (records ++ [cells.map (fun c => c.getD "")]) else none

/-- Rows collected by `sqlite3_exec(db, sql, SelectCallback, &records)` into an empty
vector. Outer `none`: undefined behaviour in the callback; inner `none`: `rc != SQLITE_OK`. -/
def sqlite3_exec (E : Env) (K : Constants) (db sql : String) :
    Option (Option (List (List String))) :=
  match E.exec db sql with
  | none => some none
  | some rows => (rows.foldlM (SelectCallback K) []).map some

/-! ## `ReadRowGroupSummary` -/

/-- A summary entry `(shard_id, page_type_id, start_row_id, row_count)` of type
`tuple<int, int, int, uint64_t>`. -/
abbrev SummaryEntry := Int × Int × Int × Nat

/-- The loop over the page ids of one shard. `none` is the early
`return std::vector<...>()` taken at a BLOB page with `start_row_id > end_row_id`. -/
def ReadRowGroupSummary.pageLoop (K : Constants) (h : ShardHeader) (shard_id : Int) :
    List Nat → List SummaryEntry → Option (List SummaryEntry)
  | [], acc => some acc
  | page_id :: rest, acc =>
    let page := h.GetPage shard_id page_id
    if page.page_type ≠ K.kPageTypeBlob then ReadRowGroupSummary.pageLoop K h shard_id rest acc
    else if page.start_row_id > page.end_row_id then none
    else
      let number_of_rows := page.end_row_id - page.start_row_id
      ReadRowGroupSummary.pageLoop K h shard_id rest
        (acc ++ [(shard_id, page.page_type_id, toInt32 page.start_row_id, number_of_rows)])

/-- The loop over the shard ids. -/
def ReadRowGroupSummary.shardLoop (K : Constants) (h : ShardHeader) :
    List Nat → List SummaryEntry → Option (List SummaryEntry)
  | [], acc => some acc
  | shard_id :: rest, acc =>
    let last_page_id := h.GetLastPageId shard_id
    if toInt32 last_page_id = -1 then ReadRowGroupSummary.shardLoop K h rest acc
    else
      match ReadRowGroupSummary.pageLoop K h shard_id (List.range (u64 last_page_id + 1)) acc with
      | none => none
      | some acc1 => ReadRowGroupSummary.shardLoop K h rest acc1

/-- The function `ShardReader::ReadRowGroupSummary`. -/
def ReadRowGroupSummary (K : Constants) (h : ShardHeader) : List SummaryEntry :=
  let shard_count := h.shard_count
  if shard_count ≤ 0 then []
  else if shard_count ≤ K.kMaxShardCount then
    match ReadRowGroupSummary.shardLoop K h (List.range shard_count.toNat) [] with
    | none => []
    | some row_group_summary => row_group_summary
  else []

/-! ## `Init`, `CheckColumnList`, `get_blob_fields`, `Open` -/

/-- The loop of `Init` over the shard files: opens each index database and checks
its `SHARD_NAME`. Returns the status and the handles pushed so far. -/
def Init.openLoop (E : Env) (K : Constants) :
    List String → List String → Option (MSRStatus × List String)
  | [], dbs => some (MSRStatus.SUCCESS, dbs)
  | file :: rest, dbs =>
    let db := file ++ ".db"
    if ¬ E.sqlite3_open db then some (MSRStatus.FAILED, dbs)
    else
      match sqlite3_exec E K db "select NAME from SHARD_NAME;" with
      | none => none
      | some none => some (MSRStatus.FAILED, dbs)
      | some (some name) =>
        let shardName := E.GetFileName file
        match name with
        | [] => some (MSRStatus.FAILED, dbs)
        | row0 :: _ =>
          match row0 with
          | [] => none
          | cell :: _ =>
            if cell ≠ shardName then some (MSRStatus.FAILED, dbs)
            else Init.openLoop E K rest (dbs ++ [db])

/-- The function `ShardReader::Init`. -/
def Init (E : Env) (K : Constants) (r : ShardReader) (file_path : String) :
    Option (MSRStatus × ShardReader) :=
  if ¬ E.IsLegalFile file_path then some (MSRStatus.FAILED, r)
  else
    match E.Build file_path with
    | none => some (MSRStatus.FAILED, r)
    | some sh =>
      let r1 := { r with shard_header_ := sh, header_size_ := sh.header_size,
                         page_size_ := sh.page_size, file_paths_ := sh.shard_addresses }
      match Init.openLoop E K r1.file_paths_ r1.database_paths_ with
      | none => none
      | some (MSRStatus.SUCCESS, dbs) =>
        let row_group_summary := ReadRowGroupSummary K sh
        let num_rows := row_group_summary.foldl (fun n rg => toInt32 (n + rg.2.2.2)) 0
        some (MSRStatus.SUCCESS, { r1 with database_paths_ := dbs, num_rows_ := num_rows })
      | some (_, dbs) => some (MSRStatus.FAILED, { r1 with database_paths_ := dbs })

/-- The flags `inSchema` after the loops of `CheckColumnList`: flag `i` is set when
some schema has `selected_columns[i]` as a key of its `"schema"` object. -/
def CheckColumnList.inSchema (schemas : List Schema) (selected_columns : List String) : List Int :=
  schemas.foldl
    (fun inSchema p =>
      (List.zip selected_columns inSchema).map
        (fun ci => if (p.schema.find? (fun kv => kv.1 == ci.1)).isSome then 1 else ci.2))
    (List.replicate selected_columns.length 0)

/-- The function `ShardReader::CheckColumnList`. -/
def CheckColumnList (r : ShardReader) (selected_columns : List String) : MSRStatus :=
  let inSchema := CheckColumnList.inSchema r.shard_header_.schemas selected_columns
  if inSchema.any (fun x => x == 0) then MSRStatus.FAILED else MSRStatus.SUCCESS

/-- The function `ShardReader::CheckNlp`. -/
def CheckNlp (r : ShardReader) : ShardReader := { r with nlp_ := false }

/-- The blob fields returned by `get_blob_fields()`: those of the first schema. -/
def get_blob_fields (r : ShardReader) : List String :=
  match r.shard_header_.schemas with
  | [] => []
  | p :: _ => p.blob_fields

/-- The loop of `Open()` over the shard files. -/
def Open.singleLoop (E : Env) : List String → List fstream → MSRStatus × List fstream
  | [], acc => (MSRStatus.SUCCESS, acc)
  | file :: rest, acc =>
    let fs := E.open_file file
    if ¬ fs.good then (MSRStatus.FAILED, acc) else Open.singleLoop E rest (acc ++ [fs])

/-- The overload `ShardReader::Open()`: one stream per shard file; `file_streams_` is cleared first. -/
def Open.single (E : Env) (r : ShardReader) : MSRStatus × ShardReader :=
  let res := Open.singleLoop E r.file_paths_ []
  (res.1, { r with file_streams_ := res.2 })

/-- The inner loop of `Open(int)`: one more stream of `file` for each consumer `j`. -/
def Open.perConsumer (E : Env) (file : String) :
    List Nat → List (List fstream) → MSRStatus × List (List fstream)
  | [], grid => (MSRStatus.SUCCESS, grid)
  | j :: rest, grid =>
    let fs := E.open_file file
    if ¬ fs.good then (MSRStatus.FAILED, grid)
    else Open.perConsumer E file rest (grid.modify (fun row => row ++ [fs]) j)

/-- The outer loop of `Open(int)` over the shard files. -/
def Open.randomLoop (E : Env) (n_consumer : Int) :
    List String → List (List fstream) → MSRStatus × List (List fstream)
  | [], grid => (MSRStatus.SUCCESS, grid)
  | file :: rest, grid =>
    match Open.perConsumer E file (List.range n_consumer.toNat) grid with
    | (MSRStatus.SUCCESS, grid1) => Open.randomLoop E n_consumer rest grid1
    | (st, grid1) => (st, grid1)

/-- The overload `ShardReader::Open(int n_consumer)`: `n_consumer` streams per shard
file, stored as `file_streams_random_[consumer][shard]`. -/
def Open.random (E : Env) (r : ShardReader) (n_consumer : Int) : MSRStatus × ShardReader :=
  let res := Open.randomLoop E n_consumer r.file_paths_ (List.replicate n_consumer.toNat [])
  (res.1, { r with file_streams_random_ := res.2 })

/-- The non-NLP branch of `Open`: pushes onto `selected_columns_` every selected
column that equals no blob field. -/
def Open.strip (blob_fields : List String) : List String → List String → List String
  | [], acc => acc
  | c :: rest, acc =>
    if ¬ blob_fields.any (fun item => c == item) then Open.strip blob_fields rest (acc ++ [c])
    else Open.strip blob_fields rest acc

/-- The part of `Open` that stores the selected columns: `CheckNlp`, then the
whole list under NLP mode and the list without the blob fields otherwise. -/
def Open.selectColumns (r : ShardReader) (selected_columns : List String) : ShardReader :=
  let r2 := CheckNlp r
  if r2.nlp_ then { r2 with selected_columns_ := selected_columns }
  else { r2 with selected_columns_ :=
           Open.strip (get_blob_fields r2) selected_columns r2.selected_columns_ }

/-- The part of `Open` after the column check: stores the arguments and opens the
shard files, one stream per shard under block mode, `n_consumer` per shard otherwise. -/
def Open.streams (E : Env) (K : Constants) (r : ShardReader) (n_consumer : Int)
    (operators : List ShardOperator) (block_reader : Bool) : MSRStatus × ShardReader :=
  let r4 := { r with shard_count_ := (r.file_paths_.length : Int), n_consumer_ := n_consumer,
                     operators_ := operators }
  if block_reader then
    let opened := Open.single E { r4 with block_reader_ := true }
    if opened.1 = MSRStatus.FAILED then (MSRStatus.FAILED, opened.2)
    else
      (MSRStatus.SUCCESS,
        { opened.2 with delivery_block_ := List.replicate K.kNumPageInBuffer.toNat none,
                        buf_ := List.replicate K.kNumPageInBuffer.toNat
                                  (List.replicate opened.2.page_size_ 0) })
  else
    let opened := Open.random E { r4 with block_reader_ := false } n_consumer
    if opened.1 = MSRStatus.FAILED then (MSRStatus.FAILED, opened.2)
    else (MSRStatus.SUCCESS, opened.2)

/-- The clamp of `n_consumer` in `Open`. -/
def Open.clamp (E : Env) (K : Constants) (n_consumer : Int) : Int :=
  let thread_limit := E.GetMaxThreadNum
  let n1 := if n_consumer > thread_limit then thread_limit else n_consumer
  if n1 < K.kMinConsumerCount then K.kMinConsumerCount else n1

/-- The function `ShardReader::Open(file_path, n_consumer, selected_columns, operators, block_reader)`. -/
def Open (E : Env) (K : Constants) (r : ShardReader) (file_path : String) (n_consumer : Int)
    (selected_columns : List String) (operators : List ShardOperator) (block_reader : Bool) :
    Option (MSRStatus × ShardReader) :=
  match Init E K r file_path with
  | none => none
  | some (MSRStatus.SUCCESS, r1) =>
    let n2 := Open.clamp E K n_consumer
    let r3 := Open.selectColumns r1 selected_columns
    if CheckColumnList r3 r3.selected_columns_ = MSRStatus.FAILED then
      some (MSRStatus.ILLEGAL_COLUMN_LIST, r3)
    else some (Open.streams E K r3 n2 operators block_reader)
  | some (_, r1) => some (MSRStatus.FAILED, r1)

/-! ## Number parsing -/

/-- The characters `isspace` accepts. -/
def isSpace (c : Char) : Bool := c.toNat = 32 || (9 ≤ c.toNat && c.toNat ≤ 13)

/-- Value of a run of decimal digits. -/
def digitsValue (ds : List Char) : Nat := ds.foldl (fun n c => 10 * n + (c.toNat - 48)) 0

/-- The start of a string as `strtol` and `num_get` read a decimal number: leading
white space, an optional sign, then the longest run of digits. Gives the sign
(true for minus) and the magnitude; `none` when no digit follows. -/
def parseSigned (s : String) : Option (Bool × Nat) :=
  let body := s.toList.dropWhile isSpace
  let signed : Bool × List Char :=
    match body with
    | c :: rest => if c.toNat = 45 then (true, rest) else if c.toNat = 43 then (false, rest) else (false, body)
    | [] => (false, [])
  let ds := signed.2.takeWhile Char.isDigit
  if ds.isEmpty then none else some (signed.1, digitsValue ds)

/-- The call `std::stoull`: `none` when it throws (no digits, or a magnitude that does
not fit 64 bits); a minus sign negates in `uint64_t`. -/
def stoull (s : String) : Option Nat :=
  match parseSigned s with
  | none => none
  | some (neg, m) =>
    if 2 ^ 64 ≤ m then none else some (if neg then (2 ^ 64 - m) % 2 ^ 64 else m)

/-- The call `std::stoi`: `none` when it throws (no digits, or a value outside `int`). -/
def stoi (s : String) : Option Int :=
  match parseSigned s with
  | none => none
  | some (neg, m) =>
    let v : Int := if neg then -(m : Int) else (m : Int)
    if v < -(2 ^ 31) ∨ 2 ^ 31 - 1 < v then none else some v

/-- Whether the sentry of the extraction `iss >> num` succeeds: a character is left
after the leading white space. On an empty or all-blank string the sentry fails and
nothing is stored. -/
def hasToken (s : String) : Bool := !(s.toList.dropWhile isSpace).isEmpty

/-- The value `num_get` stores in a signed integer of `bits` bits once the sentry has
succeeded: 0 on a string with no number, the nearest bound on overflow. -/
def numGet_int (bits : Nat) (s : String) : Int :=
  match parseSigned s with
  | none => 0
  | some (neg, m) =>
    let v : Int := if neg then -(m : Int) else (m : Int)
    if v < -(2 ^ (bits - 1)) then -(2 ^ (bits - 1))
    else if 2 ^ (bits - 1) - 1 < v then 2 ^ (bits - 1) - 1
    else v

/-- The template `StringToNum<Type>` at a signed integer type of `bits` bits
(`Type num; iss >> num; return num;`). When the sentry fails, `num` is never written
and what is returned is the value of an uninitialised local: `none`. Otherwise the
value the extraction stored is returned, whether the extraction failed or not. -/
def StringToNum_int (bits : Nat) (s : String) : Option Int :=
  if hasToken s then some (numGet_int bits s) else none

/-- The template `StringToNum<Type>` at `float` and `double`, with `get` the value the
extraction stores once the sentry has succeeded; `none` as for the integer types. -/
def StringToNum_real (get : String → Json) (s : String) : Option Json :=
  if hasToken s then some (get s) else none

/-! ## Columns -/

/-- The function `ShardReader::GetAllColumns`. -/
def GetAllColumns (r : ShardReader) : List String :=
  if r.nlp_ then
    r.selected_columns_.flatMap (fun c =>
      r.shard_header_.schemas.flatMap (fun p =>
        (p.schema.filter (fun kv => kv.1 == c)).map (fun _ => c)))
  else r.selected_columns_

/-- Assignment `m[key] = v` on the `std::map` `column_schema_id_`. -/
def mapAssign (m : List (String × Nat)) (key : String) (v : Nat) : List (String × Nat) :=
  if m.any (fun kv => kv.1 == key) then m.map (fun kv => if kv.1 == key then (key, v) else kv)
  else m ++ [(key, v)]

def mapFind (m : List (String × Nat)) (key : String) : Option Nat :=
  (m.find? (fun kv => kv.1 == key)).map Prod.snd

/-- The read `column_schema_id_[key]`: a missing key is inserted with value 0. -/
def mapIndex (m : List (String × Nat)) (key : String) : Nat × List (String × Nat) :=
  match mapFind m key with
  | some v => (v, m)
  | none => (0, m ++ [(key, 0)])

/-- The function `ShardReader::CheckIfColumnInIndex`. -/
def CheckIfColumnInIndex (r : ShardReader) (columns : List String) : ShardReader :=
  if columns.isEmpty then { r with all_in_index_ := false }
  else
    let ids := r.shard_header_.fields.foldl (fun m field => mapAssign m field.2 field.1)
      r.column_schema_id_
    let r1 := { r with column_schema_id_ := ids }
    if columns.any (fun col => (mapFind ids col).isNone) then { r1 with all_in_index_ := false }
    else r1

/-! ## Labels of the rows of a shard (`ConvertLabelToJson`) -/

/-- The declared `"type"` of a column in the first schema (`get_schemas()[0]`);
outer `none`: there is no first schema. -/
def schemaType (r : ShardReader) (column : String) : Option (Option String) :=
  match r.shard_header_.schemas with
  | [] => none
  | p :: _ => some ((p.schema.find? (fun kv => kv.1 == column)).map Prod.snd)

/-- The typed cast of one indexed cell, by the declared type of its column; `none`
when `StringToNum` returns an uninitialised value. -/
def castCell (E : Env) (ty : Option String) (cell : String) : Option Json :=
  if ty = some "int32" then (StringToNum_int 32 cell).map Json.int
  else if ty = some "int64" then (StringToNum_int 64 cell).map Json.int
  else if ty = some "float32" then StringToNum_real E.StringToNum_float cell
  else if ty = some "float64" then StringToNum_real E.StringToNum_double cell
  else some (Json.str cell)

/-- The loop `for j < columns.size()` that builds `construct_json` from the cells
`row[j + first]`. -/
def constructJson (E : Env) (r : ShardReader) (row : List String) (first : Nat) :
    List (String × Nat) → Json → Option Json
  | [], acc => some acc
  | (col, j) :: rest, acc =>
    match schemaType r col, row[j + first]? with
    | some ty, some cell =>
      match castCell E ty cell with
      | some v => constructJson E r row first rest (acc.set col v)
      | none => none
    | _, _ => none

/-- Columns paired with their positions. -/
def enumColumns (columns : List String) : List (String × Nat) :=
  List.zip columns (List.range columns.length)

/-- The projection loop `for col in columns: if found, tmp[col] = label_json[col]`. -/
def projectColumns (label_json : Json) : List String → Json → Json
  | [], tmp => tmp
  | col :: rest, tmp =>
    match label_json.find col with
    | some v => projectColumns label_json rest (tmp.set col v)
    | none => projectColumns label_json rest tmp

/-- The label part of the loop body of `ConvertLabelToJson` for one row. Outer
`none`: a cell that does not parse or an index past the row; inner `none`: the
seek or read of the raw label failed (the `return FAILED`). -/
def ConvertLabelToJson.label (E : Env) (r : ShardReader) (fs : fstream) (columns : List String)
    (row : List String) : Option (Option Json) :=
  if ¬ r.all_in_index_ then
    match row[3]? >>= stoi, row[4]? >>= stoull, row[5]? >>= stoull with
    | some raw_page_id, some raw_start, some label_end =>
      let label_start := (raw_start + kInt64Len) % 2 ^ 64
      let len := (label_end + 2 ^ 64 - label_start) % 2 ^ 64
      let pos := (r.page_size_ * u64 raw_page_id + r.header_size_ + label_start) % 2 ^ 64
      match allocBytes len, fs.read_at pos len with
      | none, _ => none
      | some _, none => some none
      | some _, some label_raw =>
        let label_json := E.from_msgpack label_raw
        let tmp :=
          if ¬ columns.isEmpty then projectColumns label_json columns Json.null
          else label_json
        some (some tmp)
    | _, _, _ => none
  else (constructJson E r row 3 (enumColumns columns) Json.null).map some

/-- The offsets part of the loop body of `ConvertLabelToJson` for one row: the vector
`(shard_id, group_id, offset_start, offset_end)`; `none` when a cell does not parse. -/
def ConvertLabelToJson.offsets (shard_id : Int) (row : List String) : Option (List Nat) :=
  match row[0]? >>= stoull, row[1]? >>= stoull, row[2]? >>= stoull with
  | some group_id, some start, some offset_end =>
    some [u64 shard_id, group_id, (start + kInt64Len) % 2 ^ 64, offset_end]
  | _, _, _ => none

/-- The loop of `ConvertLabelToJson` over the rows `labels` of one shard, on the slots
`offsets[shard_id]` and `column_values[shard_id]` and the stream `fs`. The status is
`FAILED` at the first row whose raw label cannot be read; the slots keep what was
appended before (the offsets of that row included). -/
def ConvertLabelToJson (E : Env) (r : ShardReader) (fs : fstream) (shard_id : Int)
    (columns : List String) :
    List (List String) → List (List Nat) → List Json →
      Option (MSRStatus × List (List Nat) × List Json)
  | [], offsets, column_values => some (MSRStatus.SUCCESS, offsets, column_values)
  | row :: rest, offsets, column_values =>
    match ConvertLabelToJson.offsets shard_id row with
    | none => none
    | some o =>
      match ConvertLabelToJson.label E r fs columns row with
      | none => none
      | some none => some (MSRStatus.FAILED, offsets ++ [o], column_values)
      | some (some tmp) =>
        ConvertLabelToJson E r fs shard_id columns rest (offsets ++ [o]) (column_values ++ [tmp])

/-- The function `ShardReader::ReadAllRowsInShard`, on the slots of its shard (empty
when the thread starts). -/
def ReadAllRowsInShard (E : Env) (K : Constants) (r : ShardReader) (shard_id : Nat)
    (sql : String) (columns : List String) :
    Option (MSRStatus × List (List Nat) × List Json) :=
  match r.database_paths_[shard_id]?, r.file_paths_[shard_id]? with
  | some db, some file_name =>
    match sqlite3_exec E K db sql with
    | none => none
    | some none => some (MSRStatus.FAILED, [], [])
    | some (some labels) =>
      let fs : fstream := if ¬ r.all_in_index_ then E.open_file file_name else ⟨[], false⟩
      if ¬ r.all_in_index_ ∧ ¬ fs.good then some (MSRStatus.FAILED, [], [])
      else ConvertLabelToJson E r fs shard_id columns labels [] []
  | _, _ => none

/-- The field list of the query of `ReadAllRowGroup` when every column is indexed;
the text is `none` when `GenerateFieldName` fails. Returns with it the id map after
the reads `column_schema_id_[columns[i]]`. -/
def ReadAllRowGroup.fields (E : Env) :
    List String → String → List (String × Nat) → Option String × List (String × Nat)
  | [], fields, ids => (some fields, ids)
  | col :: rest, fields, ids =>
    let id := mapIndex ids col
    match E.GenerateFieldName id.1 col with
    | none => (none, id.2)
    | some name => ReadAllRowGroup.fields E rest (fields ++ "," ++ name) id.2

/-- The threads of `ReadAllRowGroup`, one per shard, each on its own slot; the
status a thread returns is dropped. -/
def ReadAllRowGroup.threads (E : Env) (K : Constants) (r : ShardReader) (sql : String)
    (columns : List String) :
    List Nat → Option (List (List (List Nat)) × List (List Json))
  | [] => some ([], [])
  | x :: rest =>
    match ReadAllRowsInShard E K r x sql columns, ReadAllRowGroup.threads E K r sql columns rest with
    | some (_, offsets, column_values), some (os, cs) => some (offsets :: os, column_values :: cs)
    | _, _ => none

/-- The query text of `ReadAllRowGroup` (`none` when `GenerateFieldName` fails) and the
id map after it has been built. -/
def ReadAllRowGroup.sql (E : Env) (r : ShardReader) (columns : List String) :
    Option String × List (String × Nat) :=
  let fields := "ROW_GROUP_ID, PAGE_OFFSET_BLOB, PAGE_OFFSET_BLOB_END"
  let built : Option String × List (String × Nat) :=
    if r.all_in_index_ then ReadAllRowGroup.fields E columns fields r.column_schema_id_
    else (some (fields ++ ", PAGE_ID_RAW, PAGE_OFFSET_RAW, PAGE_OFFSET_RAW_END "),
          r.column_schema_id_)
  (built.1.map (fun fields1 => "SELECT " ++ fields1 ++ " FROM INDEXES ORDER BY ROW_ID ;"), built.2)

/-- The function `ShardReader::ReadAllRowGroup`: status, `offsets[shard]`,
`column_values[shard]`, and the reader (its id map may have grown). -/
def ReadAllRowGroup (E : Env) (K : Constants) (r : ShardReader) (columns : List String) :
    Option (MSRStatus × List (List (List Nat)) × List (List Json) × ShardReader) :=
  let empty_offsets : List (List (List Nat)) := List.replicate r.shard_count_.toNat []
  let empty_values : List (List Json) := List.replicate r.shard_count_.toNat []
  let built := ReadAllRowGroup.sql E r columns
  let r1 := { r with column_schema_id_ := built.2 }
  match built.1 with
  | none => some (MSRStatus.FAILED, empty_offsets, empty_values, r1)
  | some sql =>
    match ReadAllRowGroup.threads E K r1 sql columns (List.range r.shard_count_.toNat) with
    | none => none
    | some (offsets, column_values) => some (MSRStatus.SUCCESS, offsets, column_values, r1)

/-! ## Page queries: offsets and labels of the rows of one BLOB page -/

/-- A criteria `(field, value)`; the empty field means no criteria. -/
abbrev Criteria := String × String

/-- The conversion loop of `GetImageOffset`: one pair
`[PAGE_OFFSET_BLOB + kInt64Len, PAGE_OFFSET_BLOB_END]` per row. -/
def GetImageOffset.convert : List (List String) → Option (List (List Nat))
  | [] => some []
  | image_offset :: rest =>
    match image_offset[0]? >>= stoull, image_offset[1]? >>= stoull,
        GetImageOffset.convert rest with
    | some a, some b, some res => some ([(a + kInt64Len) % 2 ^ 64, b] :: res)
    | _, _, _ => none

/-- The SQL text of `GetImageOffset`, with the id map after the read
`column_schema_id_[criteria.first]`; `none` when the declared type of the criteria
field cannot be read from the first schema. -/
def GetImageOffset.sql (r : ShardReader) (page_id : Int) (criteria : Criteria) :
    Option (String × List (String × Nat)) :=
  let sql := "SELECT PAGE_OFFSET_BLOB, PAGE_OFFSET_BLOB_END FROM INDEXES WHERE PAGE_ID_BLOB = " ++
    toString page_id
  if ¬ criteria.1.isEmpty then
    match schemaType r criteria.1 with
    | some (some ty) =>
      let id := mapIndex r.column_schema_id_ criteria.1
      if kNumberFieldTypeSet.contains ty then
        some (sql ++ " AND " ++ criteria.1 ++ "_" ++ toString id.1 ++ " = " ++ criteria.2 ++ ";",
              id.2)
      else
        some (sql ++ " AND " ++ criteria.1 ++ "_" ++ toString id.1 ++ " = " ++ "\x27" ++
                criteria.2 ++ "\x27" ++ ";", id.2)
    | _ => none
  else some (sql ++ ";", r.column_schema_id_)

/-- The function `ShardReader::GetImageOffset`: the offset pairs (empty when the
query fails) and the reader with the id map after the call. -/
def GetImageOffset (E : Env) (K : Constants) (r : ShardReader) (page_id shard_id : Int)
    (criteria : Criteria) : Option (List (List Nat) × ShardReader) :=
  match (if shard_id < 0 then none else r.database_paths_[shard_id.toNat]?),
      GetImageOffset.sql r page_id criteria with
  | some db, some (sql, ids) =>
    let r1 := { r with column_schema_id_ := ids }
    match sqlite3_exec E K db sql with
    | none => none
    | some none => some ([], r1)
    | some (some image_offsets) => (GetImageOffset.convert image_offsets).map (fun res => (res, r1))
  | _, _ => none

/-- The function `ShardReader::QueryWithCriteria`: the rows appended to `labels`;
inner `none` is `FAILED`, outer `none` a NULL cell turned into a string. -/
def QueryWithCriteria (E : Env) (db sql criteria : String) (labels : List (List String)) :
    Option (Option (List (List String))) :=
  match E.exec_bind db sql criteria with
  | none => some none
  | some rows =>
    if rows.all (fun row => row.all Option.isSome) then
      some (some (labels ++ rows.map (fun row => row.map (fun c => c.getD ""))))
    else none

/-- The read loop of `GetLabelsFromBinaryFile` over the rows
`(PAGE_ID_RAW, PAGE_OFFSET_RAW, PAGE_OFFSET_RAW_END)`. -/
def GetLabelsFromBinaryFile.loop (E : Env) (r : ShardReader) (fs : fstream)
    (columns : List String) : List (List String) → Option (MSRStatus × List Json)
  | [] => some (MSRStatus.SUCCESS, [])
  | labelOffset :: rest =>
    match labelOffset[1]? >>= stoull, labelOffset[2]? >>= stoull, labelOffset[0]? >>= stoi with
    | some raw_start, some label_end, some raw_page_id =>
      let label_start := (raw_start + kInt64Len) % 2 ^ 64
      let len := (label_end + 2 ^ 64 - label_start) % 2 ^ 64
      let pos := (r.page_size_ * u64 raw_page_id + r.header_size_ + label_start) % 2 ^ 64
      match allocBytes len, fs.read_at pos len with
      | none, _ => none
      | some _, none => some (MSRStatus.FAILED, [])
      | some _, some label_raw =>
        let label_json := E.from_msgpack label_raw
        let tmp := projectColumns label_json columns label_json
        match GetLabelsFromBinaryFile.loop E r fs columns rest with
        | none => none
        | some (MSRStatus.SUCCESS, res) => some (MSRStatus.SUCCESS, tmp :: res)
        | some (_, _) => some (MSRStatus.FAILED, [])
    | _, _, _ => none

/-- The function `ShardReader::GetLabelsFromBinaryFile`. -/
def GetLabelsFromBinaryFile (E : Env) (r : ShardReader) (shard_id : Int)
    (columns : List String) (label_offsets : List (List String)) :
    Option (MSRStatus × List Json) :=
  match (if shard_id < 0 then none else r.file_paths_[shard_id.toNat]?) with
  | none => none
  | some file_name =>
    let fs := E.open_file file_name
    if ¬ fs.good then some (MSRStatus.FAILED, [])
    else GetLabelsFromBinaryFile.loop E r fs columns label_offsets

/-- The function `ShardReader::GetLabelsFromPage`. -/
def GetLabelsFromPage (E : Env) (K : Constants) (r : ShardReader) (page_id shard_id : Int)
    (columns : List String) (criteria : Criteria) :
    Option ((MSRStatus × List Json) × ShardReader) :=
  match (if shard_id < 0 then none else r.database_paths_[shard_id.toNat]?) with
  | none => none
  | some db =>
    let sql := "SELECT PAGE_ID_RAW, PAGE_OFFSET_RAW,PAGE_OFFSET_RAW_END FROM INDEXES WHERE PAGE_ID_BLOB = " ++
      toString page_id
    if ¬ criteria.1.isEmpty then
      let id := mapIndex r.column_schema_id_ criteria.1
      let r1 := { r with column_schema_id_ := id.2 }
      let sql1 := sql ++ " AND " ++ criteria.1 ++ "_" ++ toString id.1 ++ " = :criteria"
      match QueryWithCriteria E db sql1 criteria.2 [] with
      | none => none
      | some none => some ((MSRStatus.FAILED, []), r1)
      | some (some label_offsets) =>
        (GetLabelsFromBinaryFile E r1 shard_id columns label_offsets).map (fun res => (res, r1))
    else
      match sqlite3_exec E K db (sql ++ ";") with
      | none => none
      | some none => some ((MSRStatus.FAILED, []), r)
      | some (some label_offsets) =>
        (GetLabelsFromBinaryFile E r shard_id columns label_offsets).map (fun res => (res, r))

/-- The field list of the query of `GetLabels`, with the id map after the reads
`column_schema_id_[columns[i]]`. -/
def GetLabels.fields : List (String × Nat) → String → List (String × Nat) →
    String × List (String × Nat)
  | [], fields, ids => (fields, ids)
  | (col, i) :: rest, fields, ids =>
    let id := mapIndex ids col
    let fields1 := if 0 < i then fields ++ "," else fields
    GetLabels.fields rest (fields1 ++ col ++ "_" ++ toString id.1) id.2

/-- The loop of `GetLabels` that casts the rows of the index to labels. -/
def GetLabels.convert (E : Env) (r : ShardReader) (columns : List String) :
    List (List String) → Option (List Json)
  | [] => some []
  | row :: rest =>
    match constructJson E r row 0 (enumColumns columns) Json.null, GetLabels.convert E r columns rest with
    | some construct_json, some ret => some (construct_json :: ret)
    | _, _ => none

/-- The function `ShardReader::GetLabels`. -/
def GetLabels (E : Env) (K : Constants) (r : ShardReader) (page_id shard_id : Int)
    (columns : List String) (criteria : Criteria) :
    Option ((MSRStatus × List Json) × ShardReader) :=
  if r.all_in_index_ then
    match (if shard_id < 0 then none else r.database_paths_[shard_id.toNat]?) with
    | none => none
    | some db =>
      let built := GetLabels.fields (enumColumns columns) "" r.column_schema_id_
      let fields := if built.1.isEmpty then "*" else built.1
      let sql := "SELECT " ++ fields ++ " FROM INDEXES WHERE PAGE_ID_BLOB = " ++ toString page_id
      let queried : Option (Option (List (List String)) × List (String × Nat)) :=
        if ¬ criteria.1.isEmpty then
          let id := mapIndex built.2 criteria.1
          let sql1 := sql ++ " AND " ++ criteria.1 ++ "_" ++ toString id.1 ++ " = " ++ ":criteria"
          (QueryWithCriteria E db sql1 criteria.2 []).map (fun res => (res, id.2))
        else (sqlite3_exec E K db (sql ++ ";")).map (fun res => (res, built.2))
      match queried with
      | none => none
      | some (none, ids) => some ((MSRStatus.FAILED, []), { r with column_schema_id_ := ids })
      | some (some labels, ids) =>
        let r1 := { r with column_schema_id_ := ids }
        (GetLabels.convert E r1 columns labels).map (fun ret => ((MSRStatus.SUCCESS, ret), r1))
  else GetLabelsFromPage E K r page_id shard_id columns criteria

/-- A row-group brief `(status, file_name, page_length, page_offset, offsets, labels)`. -/
abbrev ROW_GROUP_BRIEF := MSRStatus × String × Int × Nat × List (List Nat) × List Json

def ROW_GROUP_BRIEF.failed : ROW_GROUP_BRIEF := (MSRStatus.FAILED, "", 0, 0, [], [])

/-- The function `ShardReader::ReadRowGroupBrief`. -/
def ReadRowGroupBrief (E : Env) (K : Constants) (r : ShardReader) (group_id shard_id : Int)
    (columns : List String) : Option (ROW_GROUP_BRIEF × ShardReader) :=
  match r.shard_header_.GetPageByGroupId group_id shard_id with
  | none => some (ROW_GROUP_BRIEF.failed, r)
  | some page =>
    match (if shard_id < 0 then none else r.file_paths_[shard_id.toNat]?) with
    | none => none
    | some file_name =>
      let page_length := page.page_size
      let page_offset := (r.page_size_ * u64 page.page_id + r.header_size_) % 2 ^ 64
      match GetImageOffset E K r page.page_id shard_id ("", "") with
      | none => none
      | some (image_offset, r1) =>
        match GetLabels E K r1 page.page_id shard_id columns ("", "") with
        | none => none
        | some ((MSRStatus.SUCCESS, labels), r2) =>
          some ((MSRStatus.SUCCESS, file_name, toInt32 page_length, page_offset, image_offset,
                 labels), r2)
        | some (_, r2) => some (ROW_GROUP_BRIEF.failed, r2)

/-- The function `ShardReader::ReadRowGroupCriteria`. -/
def ReadRowGroupCriteria (E : Env) (K : Constants) (r : ShardReader) (group_id shard_id : Int)
    (criteria : Criteria) (columns : List String) : Option (ROW_GROUP_BRIEF × ShardReader) :=
  match r.shard_header_.GetPageByGroupId group_id shard_id with
  | none => some (ROW_GROUP_BRIEF.failed, r)
  | some page =>
    if CheckColumnList r [criteria.1] = MSRStatus.FAILED then some (ROW_GROUP_BRIEF.failed, r)
    else
      match (if shard_id < 0 then none else r.file_paths_[shard_id.toNat]?) with
      | none => none
      | some file_name =>
        let page_length := page.page_size
        let page_offset := (r.page_size_ * u64 page.page_id + r.header_size_) % 2 ^ 64
        match GetImageOffset E K r page.page_id shard_id criteria with
        | none => none
        | some (image_offset, r1) =>
          match GetLabels E K r1 page.page_id shard_id columns criteria with
          | none => none
          | some ((MSRStatus.SUCCESS, labels), r2) =>
            some ((MSRStatus.SUCCESS, file_name, toInt32 page_length, page_offset, image_offset,
                   labels), r2)
          | some (_, r2) => some (ROW_GROUP_BRIEF.failed, r2)

/-! ## Task planning -/

/-- The inner loop of `CreateTasksByRow` over the rows of one shard. -/
def CreateTasksByRow.rowLoop (offsets_s : List (List Nat)) (local_s : List Json) :
    List Nat → ShardTask → Option ShardTask
  | [], tasks => some tasks
  | i :: rest, tasks =>
    match offsets_s[i]?, local_s[i]? with
    | some o, some labels =>
      match (o[0]? : Option Nat), (o[1]? : Option Nat), (o[2]? : Option Nat),
          (o[3]? : Option Nat) with
      | some shard, some group, some blob_start, some blob_end =>
        CreateTasksByRow.rowLoop offsets_s local_s rest
          (tasks.InsertTask (toInt32 shard) (toInt32 group) [blob_start, blob_end] labels)
      | _, _, _, _ => none
    | _, _ => none

/-- The outer loop of `CreateTasksByRow` over the shard ids. -/
def CreateTasksByRow.shardLoop (offsets : List (List (List Nat))) (local_columns : List (List Json)) :
    List Nat → ShardTask → Option ShardTask
  | [], tasks => some tasks
  | shard_id :: rest, tasks =>
    match offsets[shard_id]?, local_columns[shard_id]? with
    | some offsets_s, some local_s =>
      match CreateTasksByRow.rowLoop offsets_s local_s (List.range offsets_s.length) tasks with
      | none => none
      | some tasks1 => CreateTasksByRow.shardLoop offsets local_columns rest tasks1
    | _, _ => none

/-- The function `ShardReader::CreateTasksByRow`. -/
def CreateTasksByRow (E : Env) (K : Constants) (r : ShardReader)
    (_row_group_summary : List SummaryEntry) (_operators : List ShardOperator) :
    Option (MSRStatus × ShardReader) :=
  let columns := GetAllColumns r
  let r1 := CheckIfColumnInIndex r columns
  match ReadAllRowGroup E K r1 columns with
  | none => none
  | some (MSRStatus.SUCCESS, offsets, local_columns, r2) =>
    if r2.shard_count_ ≤ K.kMaxShardCount then
      match CreateTasksByRow.shardLoop offsets local_columns (List.range r2.shard_count_.toNat)
          r2.tasks_ with
      | none => none
      | some tasks => some (MSRStatus.SUCCESS, { r2 with tasks_ := tasks })
    else some (MSRStatus.FAILED, r2)
  | some (_, _, _, r2) => some (MSRStatus.FAILED, r2)

/-- The function `ShardReader::CreateTasksByBlock`. -/
def CreateTasksByBlock (r : ShardReader) (row_group_summary : List SummaryEntry)
    (_operators : List ShardOperator) : MSRStatus × ShardReader :=
  let columns := GetAllColumns r
  let r1 := CheckIfColumnInIndex r columns
  let tasks := row_group_summary.foldl
    (fun tasks rg => tasks.InsertTask rg.1 rg.2.1 [rg.2.2.2] Json.null) r1.tasks_
  (MSRStatus.SUCCESS, { r1 with tasks_ := tasks })

/-- The index of the last category operator, `-1` when there is none. -/
def CreateTasksByCategory.find (operators : List ShardOperator) : Int :=
  (List.zip operators (List.range operators.length)).foldl
    (fun category_operator oi => if oi.1.isCategory then (oi.2 : Int) else category_operator) (-1)

/-- The loop `for iStart < number_of_rows` of `CreateTasksByCategory`. -/
def CreateTasksByCategory.rowLoop (shard_id group_id : Int) (offsets : List (List Nat))
    (labels : List Json) : List Nat → ShardTask → Option ShardTask
  | [], tasks => some tasks
  | iStart :: rest, tasks =>
    match offsets[iStart]?, labels[iStart]? with
    | some o, some l =>
      CreateTasksByCategory.rowLoop shard_id group_id offsets labels rest
        (tasks.InsertTask shard_id group_id o l)
    | _, _ => none

/-- The loop of `CreateTasksByCategory` over the summary, for one category. The
task list is `none` when `ReadRowGroupCriteria` fails (the `return -2`). -/
def CreateTasksByCategory.groupLoop (E : Env) (K : Constants) (criteria : Criteria)
    (columns : List String) :
    List SummaryEntry → ShardReader → ShardTask → Option (Option ShardTask × ShardReader)
  | [], r, tasks => some (some tasks, r)
  | rg :: rest, r, tasks =>
    let shard_id := rg.1
    let group_id := rg.2.1
    match ReadRowGroupCriteria E K r group_id shard_id criteria columns with
    | none => none
    | some ((MSRStatus.SUCCESS, _, _, _, offsets, labels), r1) =>
      match CreateTasksByCategory.rowLoop shard_id group_id offsets labels
          (List.range offsets.length) tasks with
      | none => none
      | some tasks1 => CreateTasksByCategory.groupLoop E K criteria columns rest r1 tasks1
    | some (_, r1) => some (none, r1)

/-- The loop of `CreateTasksByCategory` over the categories. -/
def CreateTasksByCategory.categoryLoop (E : Env) (K : Constants)
    (row_group_summary : List SummaryEntry) (columns : List String) :
    List Criteria → ShardReader → Option (Option (List ShardTask) × ShardReader)
  | [], r => some (some [], r)
  | category :: rest, r =>
    match CreateTasksByCategory.groupLoop E K category columns row_group_summary r default with
    | none => none
    | some (none, r1) => some (none, r1)
    | some (some tasks, r1) =>
      match CreateTasksByCategory.categoryLoop E K row_group_summary columns rest r1 with
      | none => none
      | some (none, r2) => some (none, r2)
      | some (some more, r2) => some (some (tasks :: more), r2)

/-- The function `ShardReader::CreateTasksByCategory`: the index of the category
operator, `-1` without one, `-2` on failure. -/
def CreateTasksByCategory (E : Env) (K : Constants) (r : ShardReader)
    (row_group_summary : List SummaryEntry) (operators : List ShardOperator) :
    Option (Int × ShardReader) :=
  let columns := GetAllColumns r
  let r1 := CheckIfColumnInIndex r columns
  let category_operator := CreateTasksByCategory.find operators
  if category_operator = -1 then some (category_operator, r1)
  else
    match (operators[category_operator.toNat]?).map (fun op => op.kind) with
    | some (OperatorKind.category categories) =>
      match CreateTasksByCategory.categoryLoop E K row_group_summary columns categories r1 with
      | none => none
      | some (none, r2) => some (-2, r2)
      | some (some categoryTasks, r2) =>
        some (category_operator, { r2 with tasks_ := E.Combine categoryTasks })
    | _ => none

/-- The operator loop of `CreateTasks`: category operators, and shuffle operators
under block mode, are skipped; the first failure ends the loop. -/
def CreateTasks.applyOperators (block_reader : Bool) :
    List ShardOperator → ShardTask → MSRStatus × ShardTask
  | [], tasks => (MSRStatus.SUCCESS, tasks)
  | op :: rest, tasks =>
    if op.isCategory then CreateTasks.applyOperators block_reader rest tasks
    else if block_reader && op.isShuffle then CreateTasks.applyOperators block_reader rest tasks
    else
      match op.apply tasks with
      | (MSRStatus.SUCCESS, tasks1) => CreateTasks.applyOperators block_reader rest tasks1
      | (_, tasks1) => (MSRStatus.FAILED, tasks1)

/-- The first part of `CreateTasks`, which builds the list: the reader after it, and
whether `CreateTasks` returns `FAILED` there. The status of `CreateTasksByBlock`
and of `CreateTasksByRow` is not looked at. -/
def CreateTasks.build (E : Env) (K : Constants) (r : ShardReader)
    (row_group_summary : List SummaryEntry) (operators : List ShardOperator) :
    Option (Bool × ShardReader) :=
  if r.block_reader_ then
    some (false, (CreateTasksByBlock r row_group_summary operators).2)
  else
    match CreateTasksByCategory E K r row_group_summary operators with
    | none => none
    | some (category_operator, r1) =>
      let after_row : Option ShardReader :=
        if category_operator = -1 then
          (CreateTasksByRow E K r1 row_group_summary operators).map (fun res => res.2)
        else some r1
      after_row.map (fun r2 => (decide (category_operator = -2), r2))

/-- The end of `CreateTasks`: fills an empty permutation and sets the counters. The
fields `num_rows_` and `num_blocks_` are of type `int`: the assignment converts the
size to a 32-bit signed value. -/
def CreateTasks.finish (r : ShardReader) : ShardReader :=
  let tasks1 := if r.tasks_.permutation_.isEmpty then r.tasks_.MakePerm else r.tasks_
  { r with tasks_ := tasks1,
           num_rows_ :=
             toInt32 (if r.block_reader_ then (tasks1.SizeOfRows : Int) else (tasks1.Size : Int)),
           num_blocks_ := if r.block_reader_ then toInt32 (tasks1.Size : Int) else 0 }

/-- The function `ShardReader::CreateTasks`. -/
def CreateTasks (E : Env) (K : Constants) (r : ShardReader)
    (row_group_summary : List SummaryEntry) (operators : List ShardOperator) :
    Option (MSRStatus × ShardReader) :=
  match CreateTasks.build E K r row_group_summary operators with
  | none => none
  | some (true, r1) => some (MSRStatus.FAILED, r1)
  | some (false, r1) =>
    match CreateTasks.applyOperators r1.block_reader_ operators r1.tasks_ with
    | (MSRStatus.SUCCESS, tasks) =>
      some (MSRStatus.SUCCESS, CreateTasks.finish { r1 with tasks_ := tasks })
    | (_, tasks) => some (MSRStatus.FAILED, { r1 with tasks_ := tasks })

/-- The comparator `ResortRowGroups`: by `(group_id, shard_id)`. -/
def ResortRowGroups (a b : SummaryEntry) : Bool :=
  decide (a.2.1 < b.2.1) || (decide (a.2.1 = b.2.1) && decide (a.1 < b.1))

/-- Insertion of an entry before the first entry it precedes. -/
def sortInsert (a : SummaryEntry) : List SummaryEntry → List SummaryEntry
  | [] => [a]
  | b :: rest => if ResortRowGroups b a || !ResortRowGroups a b then b :: sortInsert a rest
                 else a :: b :: rest

/-- The call `std::sort(..., ResortRowGroups)`. The standard leaves the relative
order of equivalent entries open; here they keep their order. -/
def sortRowGroups (l : List SummaryEntry) : List SummaryEntry :=
  l.foldl (fun sorted a => sortInsert a sorted) []

/-! ## Reading one task (`ConsumerOneTask`) -/

/-- The call `merge.update(other)` of nlohmann: a null `merge` becomes an empty
object first; `none` when it throws (one of the two is no object). -/
def Json.update (merge other : Json) : Option Json :=
  let base := match merge with
    | Json.null => Json.object []
    | j => j
  match base, other with
  | Json.object _, Json.object members =>
    some (members.foldl (fun acc kv => acc.set kv.1 kv.2) base)
  | _, _ => none

/-- The stream `file_streams_random_[consumer_id][shard_id]`. -/
def ShardReader.randomStream (r : ShardReader) (consumer_id : Nat) (shard_id : Int) :
    Option fstream :=
  if shard_id < 0 then none
  else r.file_streams_random_[consumer_id]? >>= fun row => row[shard_id.toNat]?

/-- The reader after `file_streams_random_[consumer_id][shard_id]->close()`. -/
def ShardReader.closeRandomStream (r : ShardReader) (consumer_id : Nat) (shard_id : Int) :
    ShardReader :=
  let grid := r.file_streams_random_.modify
    (fun row => row.modify fstream.closed shard_id.toNat) consumer_id
  { r with file_streams_random_ := grid }

/-- The function `ShardReader::ConsumerOneTask`: status and batch, and the reader
(a failed seek or read closes the stream it used). -/
def ConsumerOneTask (E : Env) (r : ShardReader) (task_id : Int) (consumer_id : Nat) :
    Option ((MSRStatus × Batch) × ShardReader) :=
  if task_id ≥ (r.tasks_.Size : Int) then some ((MSRStatus.FAILED, []), r)
  else
    match r.tasks_.perm_at task_id >>= r.tasks_.get_task_by_id with
    | none => none
    | some task =>
      let shard_id := task.1.1
      let group_id := task.1.2
      let addr := task.2.1
      match r.shard_header_.GetPageByGroupId group_id shard_id with
      | none => some ((MSRStatus.FAILED, []), r)
      | some page =>
        match (addr[0]? : Option Nat), (addr[1]? : Option Nat) with
        | some addr0, some addr1 =>
          let len := (addr1 + 2 ^ 64 - addr0) % 2 ^ 64
          let file_offset := (r.header_size_ + r.page_size_ * u64 page.page_id + addr0) % 2 ^ 64
          match allocBytes len, r.randomStream consumer_id shard_id with
          | some _, some fs =>
            match fs.read_at file_offset len with
            | none => some ((MSRStatus.FAILED, []), r.closeRandomStream consumer_id shard_id)
            | some images =>
              if r.nlp_ then
                let blob_fields := E.from_msgpack images
                let merge :=
                  if r.selected_columns_.length > 0 then
                    projectColumns blob_fields r.selected_columns_ Json.null
                  else blob_fields
                let label_json := task.2.2
                match label_json with
                | Json.null => some ((MSRStatus.SUCCESS, [([], merge)]), r)
                | _ =>
                  (merge.update label_json).map (fun merged =>
                    ((MSRStatus.SUCCESS, [([], merged)]), r))
              else some ((MSRStatus.SUCCESS, [(images, task.2.2)]), r)
          | _, _ => none
        | _, _ => none

/-! ## The streaming engine -/

/-- Where a worker thread stands in its loop. -/
inductive Worker where
  /-- At the top of the loop, about to fetch a task id. -/
  | idle
  /-- Row mode: holds the batch of `task_id`, at the wait before the insertion. -/
  | holding (task_id : Int) (batch : Batch)
  /-- Block mode: fetched an id past the last block, at the wait for a reset. -/
  | parked
  /-- Block mode: holds the brief of `task_id`, at the wait for a free page slot. -/
  | ready (task_id : Int) (brief : ROW_GROUP_BRIEF) (shard_id : Int)
  /-- Block mode: passed the wait, about to fill slot `task_id % kNumPageInBuffer`. -/
  | claimed (task_id : Int) (brief : ROW_GROUP_BRIEF) (shard_id : Int)
  /-- Block mode: filled its slot, about to insert `task_id` into `delivery_block_set_`. -/
  | loaded (task_id : Int)
  /-- Returned from the thread function. -/
  | exited (status : MSRStatus)

/-- The reader with its worker threads. -/
structure Engine where
  r : ShardReader
  workers : List Worker

/-- What the scheduler can run next: a step of worker `w`, or a call by the consumer. -/
inductive Action where
  | work (w : Nat)
  | getNext
  | reset
  | finish

def Engine.setWorker (e : Engine) (w : Nat) (s : Worker) (r : ShardReader) : Engine :=
  { r := r, workers := e.workers.set w s }

/-- Assignment `delivery_map_[task_id] = batch`. -/
def mapInsert (m : List (Int × Batch)) (task_id : Int) (batch : Batch) : List (Int × Batch) :=
  (task_id, batch) :: m.filter (fun kv => kv.1 ≠ task_id)

def mapLookup (m : List (Int × Batch)) (task_id : Int) : Option Batch :=
  (m.find? (fun kv => kv.1 == task_id)).map Prod.snd

def mapErase (m : List (Int × Batch)) (task_id : Int) : List (Int × Batch) :=
  m.filter (fun kv => kv.1 ≠ task_id)

/-- One step of a `ConsumerByRow` thread. From `idle`: fetch-and-increment
`task_id_`, leave when the id is past the list, else run `ConsumerOneTask`. From
`holding`: under `mtx_delivery_`, leave on interrupt, insert the batch once
`task_id <= deliver_id_ + kNumBatchInMap`, and stay put until then. -/
def ConsumerByRow.step (E : Env) (K : Constants) (e : Engine) (w : Nat) : Option Engine :=
  match e.workers[w]? with
  | some Worker.idle =>
    let task_id := e.r.task_id_
    let r1 := { e.r with task_id_ := e.r.task_id_ + 1 }
    if task_id ≥ (r1.tasks_.Size : Int) then
      some (e.setWorker w (Worker.exited MSRStatus.FAILED) r1)
    else
      match ConsumerOneTask E r1 task_id w with
      | none => none
      | some ((MSRStatus.SUCCESS, batch), r2) => some (e.setWorker w (Worker.holding task_id batch) r2)
      | some (_, r2) => some (e.setWorker w (Worker.exited MSRStatus.FAILED) r2)
  | some (Worker.holding task_id batch) =>
    if e.r.interrupt_ then some (e.setWorker w (Worker.exited MSRStatus.SUCCESS) e.r)
    else if task_id ≤ e.r.deliver_id_ + K.kNumBatchInMap then
      some (e.setWorker w Worker.idle
        { e.r with delivery_map_ := mapInsert e.r.delivery_map_ task_id batch })
    else some e
  | _ => some e

/-- The function `ShardReader::ReadBlob`: reads `page_length` bytes at `page_offset`
of shard `shard_id` into the start of `buf_[buf_id]`. -/
def ReadBlob (r : ShardReader) (shard_id : Int) (page_offset : Nat) (page_length : Int)
    (buf_id : Nat) : Option (MSRStatus × ShardReader) :=
  match (if shard_id < 0 then none else r.file_streams_[shard_id.toNat]?), r.buf_[buf_id]? with
  | some fs, some page =>
    let closed := { r with file_streams_ := r.file_streams_.modify fstream.closed shard_id.toNat }
    if page_length < 0 then some (MSRStatus.FAILED, closed)
    else if page.length < page_length.toNat then none
    else
      match fs.read_at page_offset page_length.toNat with
      | none => some (MSRStatus.FAILED, closed)
      | some bytes =>
        some (MSRStatus.SUCCESS,
          { r with buf_ := r.buf_.set buf_id (bytes ++ page.drop page_length.toNat) })
  | _, _ => none

/-- One step of a `ConsumerByBlock` thread. -/
def ConsumerByBlock.step (E : Env) (K : Constants) (e : Engine) (w : Nat) : Option Engine :=
  match e.workers[w]? with
  | some Worker.idle =>
    let task_id := e.r.task_id_
    let r1 := { e.r with task_id_ := e.r.task_id_ + 1 }
    if task_id ≥ r1.num_blocks_ then some (e.setWorker w Worker.parked r1)
    else
      match r1.tasks_.perm_at task_id >>= r1.tasks_.get_task_by_id with
      | none => none
      | some task =>
        let shard_id := task.1.1
        let group_id := task.1.2
        match ReadRowGroupBrief E K r1 group_id shard_id r1.selected_columns_ with
        | none => none
        | some ((MSRStatus.SUCCESS, rest), r2) =>
          some (e.setWorker w (Worker.ready task_id (MSRStatus.SUCCESS, rest) shard_id) r2)
        | some (_, r2) => some (e.setWorker w (Worker.exited MSRStatus.FAILED) r2)
  | some Worker.parked =>
    if e.r.interrupt_ then some (e.setWorker w (Worker.exited MSRStatus.SUCCESS) e.r)
    else if e.r.task_id_ < e.r.num_blocks_ then some (e.setWorker w Worker.idle e.r)
    else some e
  | some (Worker.ready task_id brief shard_id) =>
    if e.r.interrupt_ then some (e.setWorker w (Worker.exited MSRStatus.SUCCESS) e.r)
    else if task_id < e.r.deliver_id_ + K.kNumPageInBuffer then
      some (e.setWorker w (Worker.claimed task_id brief shard_id) e.r)
    else some e
  | some (Worker.claimed task_id brief shard_id) =>
    let buf_id := (task_id % K.kNumPageInBuffer).toNat
    if e.r.delivery_block_.length ≤ buf_id then none
    else
      let r1 := { e.r with delivery_block_ :=
                    e.r.delivery_block_.set buf_id (some (brief.2.2.2.2.1, brief.2.2.2.2.2)) }
      match ReadBlob r1 shard_id brief.2.2.2.1 brief.2.2.1 buf_id with
      | none => none
      | some (MSRStatus.SUCCESS, r2) => some (e.setWorker w (Worker.loaded task_id) r2)
      | some (_, r2) => some (e.setWorker w (Worker.exited MSRStatus.FAILED) r2)
  | some (Worker.loaded task_id) =>
    some (e.setWorker w Worker.idle
      { e.r with delivery_block_set_ :=
          if e.r.delivery_block_set_.contains task_id then e.r.delivery_block_set_
          else task_id :: e.r.delivery_block_set_ })
  | _ => some e

/-- The function `ShardReader::GetRowFromBuffer`: the row sliced from the page
buffer, and the reader after its label has been moved out of the block. -/
def GetRowFromBuffer (r : ShardReader) (buf_id : Nat) (rowId : Int) :
    Option (Batch × ShardReader) :=
  if rowId < 0 then none
  else
    match r.buf_[buf_id]?, r.delivery_block_[buf_id]? with
    | some blob_page, some (some (offsets, labels)) =>
      match offsets[rowId.toNat]?, labels[rowId.toNat]? with
      | some addr, some label =>
        match (addr[0]? : Option Nat), (addr[1]? : Option Nat) with
        | some addr_start, some addr_end =>
          if addr_start ≤ addr_end ∧ addr_end ≤ blob_page.length then
            let images := (blob_page.drop addr_start).take (addr_end - addr_start)
            some ([(images, label)],
              { r with delivery_block_ :=
                  r.delivery_block_.set buf_id (some (offsets, labels.set rowId.toNat Json.null)) })
          else none
        | _, _ => none
      | _, _ => none
    | _, _ => none

/-- The result of a call by the consumer: the vector returned, or `none` while the
call is still waiting on `cv_iterator_`. -/
abbrev Returned := Option Batch

/-- The function `ShardReader::GetBlockNext`. -/
def GetBlockNext (K : Constants) (r : ShardReader) : Option (Returned × ShardReader) :=
  if r.deliver_id_ ≥ r.num_blocks_ then some (some [], r)
  else if r.row_id_ = 0 ∧ r.interrupt_ then some (some [], r)
  else if r.row_id_ = 0 ∧ ¬ r.delivery_block_set_.contains r.deliver_id_ then some (none, r)
  else
    let buf_id := (r.deliver_id_ % K.kNumPageInBuffer).toNat
    match GetRowFromBuffer r buf_id r.row_id_ with
    | none => none
    | some (res, r1) =>
      let row_id := r1.row_id_ + 1
      match r1.delivery_block_[buf_id]? with
      | some (some (offsets, _)) =>
        if row_id = (offsets.length : Int) then
          some (some res,
            { r1 with row_id_ := 0,
                      delivery_block_set_ := r1.delivery_block_set_.filter (fun t => t ≠ r1.deliver_id_),
                      deliver_id_ := r1.deliver_id_ + 1 })
        else some (some res, { r1 with row_id_ := row_id })
      | _ => none

/-- The function `ShardReader::GetNext`. -/
def GetNext (K : Constants) (r : ShardReader) : Option (Returned × ShardReader) :=
  if r.interrupt_ then some (some [], r)
  else if r.block_reader_ then GetBlockNext K r
  else if r.deliver_id_ ≥ (r.tasks_.Size : Int) then some (some [], r)
  else
    match mapLookup r.delivery_map_ r.deliver_id_ with
    | none => some (none, r)
    | some res =>
      some (some res,
        { r with delivery_map_ := mapErase r.delivery_map_ r.deliver_id_,
                 deliver_id_ := r.deliver_id_ + 1 })

/-- The function `ShardReader::GetNextById(const int64_t &task_id, const int32_t
&consumer_id)`. The call `ConsumerOneTask(task_id, consumer_id)` converts its
arguments to the parameter types `int` and `uint32_t`. -/
def GetNextById (E : Env) (K : Constants) (r : ShardReader) (task_id : Int) (consumer_id : Int) :
    Option (Returned × ShardReader) :=
  if r.interrupt_ then some (some [], r)
  else if r.block_reader_ then GetBlockNext K r
  else
    match ConsumerOneTask E r (toInt32 task_id) (u32 consumer_id) with
    | none => none
    | some ((MSRStatus.SUCCESS, batch), r1) => some (some batch, r1)
    | some (_, r1) => some (some [], r1)

/-- The function `ShardReader::Reset`. -/
def Reset (r : ShardReader) : ShardReader := { r with task_id_ := 0, deliver_id_ := 0 }

/-- The function `ShardReader::Finish`, without the join of the worker threads. -/
def Finish (r : ShardReader) : ShardReader := { r with interrupt_ := true }

/-- One scheduled action: the engine after it and, for a consumer call that
returns, the vector returned. -/
def Engine.step (E : Env) (K : Constants) (e : Engine) : Action → Option (Engine × Returned)
  | Action.work w =>
    (if e.r.block_reader_ then ConsumerByBlock.step E K e w else ConsumerByRow.step E K e w).map
      (fun e1 => (e1, none))
  | Action.getNext => (GetNext K e.r).map (fun res => ({ e with r := res.2 }, res.1))
  | Action.reset => some ({ e with r := Reset e.r }, none)
  | Action.finish => some ({ e with r := Finish e.r }, none)

/-- A schedule run from `e`: the final engine and the vectors the consumer calls
returned, in order. -/
def Engine.run (E : Env) (K : Constants) : Engine → List Action → Option (Engine × List Batch)
  | e, [] => some (e, [])
  | e, a :: rest =>
    match Engine.step E K e a with
    | none => none
    | some (e1, out) =>
      match Engine.run E K e1 rest with
      | none => none
      | some (e2, outs) => some (e2, out.toList ++ outs)

/-- The function `ShardReader::Launch`: plans the tasks and, unless `isSimpleReader`,
starts `n_consumer_` worker threads. -/
def Launch (E : Env) (K : Constants) (r : ShardReader) (isSimpleReader : Bool) :
    Option (MSRStatus × Engine) :=
  let row_group_summary := sortRowGroups (ReadRowGroupSummary K r.shard_header_)
  match CreateTasks E K r row_group_summary r.operators_ with
  | none => none
  | some (MSRStatus.SUCCESS, r1) =>
    if isSimpleReader then some (MSRStatus.SUCCESS, ⟨r1, []⟩)
    else if r1.n_consumer_ < 0 then none
    else if r1.n_consumer_ ≤ 0 ∨ r1.n_consumer_ > K.kMaxConsumerCount then
      some (MSRStatus.FAILED, ⟨r1, []⟩)
    else some (MSRStatus.SUCCESS, ⟨r1, List.replicate r1.n_consumer_.toNat Worker.idle⟩)
  | some (_, r1) => some (MSRStatus.FAILED, ⟨{ r1 with interrupt_ := true }, []⟩)

/-! ## Specification-side descriptions -/

/-- Whether a column is a key of the `"schema"` object of a schema. -/
def Schema.hasKey (p : Schema) (c : String) : Bool :=
  (p.schema.find? (fun kv => kv.1 == c)).isSome

/-- Whether a page is a BLOB page. -/
def Page.isBlob (K : Constants) (p : Page) : Bool := p.page_type == K.kPageTypeBlob

/-- The summary entry of a BLOB page, as the code stores it: the start row id
narrowed to `int`. -/
def Page.entry (shard_id : Int) (p : Page) : SummaryEntry :=
  (shard_id, p.page_type_id, toInt32 p.start_row_id, p.end_row_id - p.start_row_id)

/-- The entries of the BLOB pages of one shard, in page-id order. -/
def blobEntries (K : Constants) (shard_id : Int) (pages : List Page) : List SummaryEntry :=
  (pages.filter (Page.isBlob K)).map (Page.entry shard_id)

/-- Every BLOB page of the list has `start_row_id <= end_row_id`. -/
def blobRangesValid (K : Constants) (pages : List Page) : Bool :=
  pages.all (fun p => !p.isBlob K || decide (p.start_row_id ≤ p.end_row_id))

/-- The summary by ascending shard id and then ascending page id: one entry per
BLOB page, none for another page. -/
def expectedSummary (K : Constants) (h : ShardHeader) : List SummaryEntry :=
  (List.range h.pages.length).flatMap (fun s => blobEntries K (s : Int) (h.pagesOf s))

/-- The entry `(shard_id, page_type_id, start_row_id, end_row_id - start_row_id)` read
literally, over the integers. -/
def Page.plainEntry (shard_id : Int) (p : Page) : Int × Int × Int × Int :=
  (shard_id, p.page_type_id, (p.start_row_id : Int), (p.end_row_id : Int) - (p.start_row_id : Int))

/-- A configuration of the constants, used by the examples. -/
def exampleConstants : Constants :=
  { kMaxShardCount := 1000, kMinConsumerCount := 1, kMaxConsumerCount := 128,
    kNumBatchInMap := 1000, kNumPageInBuffer := 16, kMaxFieldCount := 100,
    kPageTypeBlob := "BLOB_DATA" }

/-- A page directory of one shard whose only page is a BLOB page with
`start_row_id = 5 > end_row_id = 3`. -/
def invertedPageHeader : ShardHeader :=
  { shard_count := 1, page_size := 64, header_size := 16,
    pages := [[⟨0, "BLOB_DATA", 0, 5, 3, 0⟩]],
    page_by_group := fun _ _ => none, schemas := [], fields := [], shard_addresses := ["a.mr"] }

/-- A page directory of two shards: shard 0 holds a RAW page and a BLOB page of
rows 0..3, shard 1 a BLOB page of rows 0..2. -/
def twoShardHeader : ShardHeader :=
  { shard_count := 2, page_size := 64, header_size := 16,
    pages := [[⟨0, "RAW_DATA", 0, 0, 3, 40⟩, ⟨1, "BLOB_DATA", 0, 0, 3, 30⟩],
              [⟨0, "BLOB_DATA", 0, 0, 2, 20⟩]],
    page_by_group := fun _ _ => none, schemas := [], fields := [],
    shard_addresses := ["a.mr", "b.mr"] }

/-- The reader as the shard threads of row-mode planning see it: after
`CheckIfColumnInIndex` on the columns and after the query text has been built. -/
def planningReader (E : Env) (r : ShardReader) : ShardReader :=
  let r1 := CheckIfColumnInIndex r (GetAllColumns r)
  { r1 with column_schema_id_ := (ReadAllRowGroup.sql E r1 (GetAllColumns r)).2 }

/-- The query text row-mode planning sends to every shard. -/
def planningQuery (E : Env) (r : ShardReader) : Option String :=
  (ReadAllRowGroup.sql E (CheckIfColumnInIndex r (GetAllColumns r)) (GetAllColumns r)).1

/-- What row-mode planning takes from one row of the index: its `ROW_GROUP_ID`,
`PAGE_OFFSET_BLOB`, `PAGE_OFFSET_BLOB_END`, and the labels resolved for it. -/
structure IndexRow where
  ROW_GROUP_ID : Nat
  PAGE_OFFSET_BLOB : Nat
  PAGE_OFFSET_BLOB_END : Nat
  labels : Json

/-- The row `row` of the query result reads as `v`: its first three cells parse to
the numbers of `v` (a group id that fits `int`, a blob offset whose skip of the
length prefix fits `uint64_t`) and its labels resolve to those of `v`. -/
def RowReads (E : Env) (r : ShardReader) (fs : fstream) (columns : List String)
    (row : List String) (v : IndexRow) : Prop :=
  (row[0]? >>= stoull) = some v.ROW_GROUP_ID ∧ v.ROW_GROUP_ID < 2 ^ 31 ∧
  (row[1]? >>= stoull) = some v.PAGE_OFFSET_BLOB ∧ v.PAGE_OFFSET_BLOB + kInt64Len < 2 ^ 64 ∧
  (row[2]? >>= stoull) = some v.PAGE_OFFSET_BLOB_END ∧
  ConvertLabelToJson.label E r fs columns row = some (some v.labels)

/-- Shard `s` answers the planning query `sql` with rows that read as `view`: its
database handle and file path exist, the query succeeds, and the shard file opens
when labels are read from it. -/
def ShardReadsAs (E : Env) (K : Constants) (r : ShardReader) (columns : List String)
    (sql : String) (s : Nat) (view : List IndexRow) : Prop :=
  ∃ db file rows, r.database_paths_[s]? = some db ∧ r.file_paths_[s]? = some file ∧
    sqlite3_exec E K db sql = some (some rows) ∧
    (r.all_in_index_ = false → (E.open_file file).good = true) ∧
    List.Forall₂
      (RowReads E r (if ¬ r.all_in_index_ then E.open_file file else ⟨[], false⟩) columns)
      rows view

/-- The offsets vector stored for an index row of shard `s`. -/
def IndexRow.offsets (s : Nat) (v : IndexRow) : List Nat :=
  [s, v.ROW_GROUP_ID, v.PAGE_OFFSET_BLOB + kInt64Len, v.PAGE_OFFSET_BLOB_END]

/-- The row task of an index row of shard `s`:
`((s, ROW_GROUP_ID), [PAGE_OFFSET_BLOB + kInt64Len, PAGE_OFFSET_BLOB_END], labels)`. -/
def IndexRow.task (s : Nat) (v : IndexRow) : Task :=
  (((s : Int), (v.ROW_GROUP_ID : Int)),
    [v.PAGE_OFFSET_BLOB + kInt64Len, v.PAGE_OFFSET_BLOB_END], v.labels)

/-- The default row-mode plan over `n` shards: the row tasks of shard 0, then of
shard 1, and so on, each shard in the order of its rows. -/
def defaultPlan (n : Nat) (view : Nat → List IndexRow) : List Task :=
  (List.range n).flatMap (fun s => (view s).map (IndexRow.task s))

/-- Row-mode planning on reader `r` reads the index of shard `s` as `view s`, for
every shard: the query text is built and every shard answers it. -/
def PlanReads (E : Env) (K : Constants) (r : ShardReader) (view : Nat → List IndexRow) : Prop :=
  ∃ sql, planningQuery E r = some sql ∧
    ∀ s < r.shard_count_.toNat,
      ShardReadsAs E K (planningReader E r) (GetAllColumns r) sql s (view s)

/-! ## An example dataset

One shard file `a.mr` with an 8-byte header and two 32-byte pages. Page 0 is a
BLOB page holding one record with payload `A`; page 1 is a RAW page holding the
MessagePack record of the row, the map of `l` to 1 and `text` to `a`. Column `l`
is indexed, column `text` is not. -/

/-- Decoder of a MessagePack fixstr (`0xa0 + length`, then the characters). -/
def msgpackStr : List Nat → Option (String × List Nat)
  | [] => none
  | b :: rest =>
    if 160 ≤ b ∧ b ≤ 191 ∧ b - 160 ≤ rest.length then
      some (String.mk ((rest.take (b - 160)).map Char.ofNat), rest.drop (b - 160))
    else none

/-- Decoder of a scalar member value: a positive fixint or a fixstr. -/
def msgpackScalar : List Nat → Option (Json × List Nat)
  | [] => none
  | b :: rest =>
    if b ≤ 127 then some (Json.int b, rest)
    else (msgpackStr (b :: rest)).map (fun sr => (Json.str sr.1, sr.2))

/-- Decoder of `n` members of a map. -/
def msgpackMembers : Nat → List Nat → Json → Option Json
  | 0, _, acc => some acc
  | n + 1, bytes, acc =>
    match msgpackStr bytes with
    | none => none
    | some (key, rest) =>
      match msgpackScalar rest with
      | none => none
      | some (v, rest1) => msgpackMembers n rest1 (acc.set key v)

/-- The decoder `json::from_msgpack` on the fragment the example uses: a fixmap
(`0x80 + size`) with fixstr keys and scalar values. Other input gives null. -/
def exampleFromMsgpack : List Nat → Json
  | [] => Json.null
  | b :: rest =>
    if 128 ≤ b ∧ b ≤ 143 then (msgpackMembers (b - 128) rest (Json.object [])).getD Json.null
    else Json.null

/-- The MessagePack bytes of the example record. -/
def exampleRecord : List Nat := [130, 161, 108, 1, 164, 116, 101, 120, 116, 161, 97]

/-- The bytes of `a.mr`: header, BLOB page (length prefix 1, payload `A`), RAW page
(length prefix 11, the record). -/
def exampleFile : List Nat :=
  List.replicate 8 0 ++
  ([1, 0, 0, 0, 0, 0, 0, 0, 65] ++ List.replicate 23 0) ++
  ([11, 0, 0, 0, 0, 0, 0, 0] ++ exampleRecord ++ List.replicate 13 0)

def examplePages : List (List Page) :=
  [[⟨0, "BLOB_DATA", 0, 0, 1, 9⟩, ⟨1, "RAW_DATA", 0, 0, 1, 19⟩]]

def exampleHeader : ShardHeader :=
  { shard_count := 1, page_size := 32, header_size := 8, pages := examplePages,
    page_by_group := fun group_id shard_id =>
      if group_id = 0 ∧ shard_id = 0 then some ⟨0, "BLOB_DATA", 0, 0, 1, 9⟩ else none,
    schemas := [⟨[("l", "int32"), ("text", "string")], ["data"]⟩],
    fields := [(0, "l")],
    shard_addresses := ["a.mr"] }

/-- The index database `a.mr.db`, as the answers to the queries the reader sends. -/
def exampleExec (db sql : String) : Option (List (List (Option String))) :=
  if db ≠ "a.mr.db" then none
  else if sql = "select NAME from SHARD_NAME;" then some [[some "a.mr"]]
  else if sql = "SELECT ROW_GROUP_ID, PAGE_OFFSET_BLOB, PAGE_OFFSET_BLOB_END, PAGE_ID_RAW, PAGE_OFFSET_RAW, PAGE_OFFSET_RAW_END  FROM INDEXES ORDER BY ROW_ID ;" then
    some [[some "0", some "0", some "9", some "1", some "0", some "19"]]
  else if sql = "SELECT ROW_GROUP_ID, PAGE_OFFSET_BLOB, PAGE_OFFSET_BLOB_END,l_0 FROM INDEXES ORDER BY ROW_ID ;" then
    some [[some "0", some "0", some "9", some "1"]]
  else if sql = "SELECT PAGE_OFFSET_BLOB, PAGE_OFFSET_BLOB_END FROM INDEXES WHERE PAGE_ID_BLOB = 0;" then
    some [[some "0", some "9"]]
  else if sql = "SELECT PAGE_ID_RAW, PAGE_OFFSET_RAW,PAGE_OFFSET_RAW_END FROM INDEXES WHERE PAGE_ID_BLOB = 0;" then
    some [[some "1", some "0", some "19"]]
  else if sql = "SELECT l_0 FROM INDEXES WHERE PAGE_ID_BLOB = 0;" then some [[some "1"]]
  else none

/-- The environment of the example. -/
def exampleEnv : Env :=
  { IsLegalFile := fun path => path == "a.mr",
    Build := fun path => if path = "a.mr" then some exampleHeader else none,
    GetFileName := fun path => path,
    sqlite3_open := fun db => db == "a.mr.db",
    exec := exampleExec,
    exec_bind := fun _ _ _ => none,
    file := fun path => if path = "a.mr" then some exampleFile else none,
    from_msgpack := exampleFromMsgpack,
    StringToNum_float := fun _ => Json.null,
    StringToNum_double := fun _ => Json.null,
    GetMaxThreadNum := 4,
    Combine := fun _ => default,
    GenerateFieldName := fun id name => some (name ++ "_" ++ toString id) }

/-- The reader of the example after `Init`. -/
def exampleInit : ShardReader :=
  { ShardReader.new with
    shard_header_ := exampleHeader, header_size_ := 8, page_size_ := 32,
    file_paths_ := ["a.mr"], database_paths_ := ["a.mr.db"], num_rows_ := 1 }

/-- Planning changes a reader at most in `all_in_index_`, `column_schema_id_` and `tasks_`. -/
def PlanFrame (r r1 : ShardReader) : Prop :=
  ∃ flag ids tasks, r1 = { r with all_in_index_ := flag, column_schema_id_ := ids, tasks_ := tasks }

/-- The reads of default row-mode planning by `CreateTasks`, which start after the
column check of `CreateTasksByCategory`. -/
def DefaultPlanReads (E : Env) (K : Constants) (r : ShardReader) (view : Nat → List IndexRow) :
    Prop :=
  PlanReads E K (CheckIfColumnInIndex r (GetAllColumns r)) view

/-! ## A dataset of two shards with two rows each

Column `l` is indexed and selected, so labels come from the index. -/

def planHeader : ShardHeader :=
  { shard_count := 2, page_size := 32, header_size := 8,
    pages := [[⟨0, "BLOB_DATA", 0, 0, 2, 19⟩], [⟨0, "BLOB_DATA", 0, 0, 2, 30⟩]],
    page_by_group := fun group_id shard_id =>
      if group_id = 0 ∧ shard_id = 0 then some ⟨0, "BLOB_DATA", 0, 0, 2, 19⟩
      else if group_id = 0 ∧ shard_id = 1 then some ⟨0, "BLOB_DATA", 0, 0, 2, 30⟩
      else none,
    schemas := [⟨[("l", "int32")], ["data"]⟩],
    fields := [(0, "l")],
    shard_addresses := ["a.mr", "b.mr"] }

/-- The two index databases, as the answers to the planning query. -/
def planExec (db sql : String) : Option (List (List (Option String))) :=
  if sql ≠ "SELECT ROW_GROUP_ID, PAGE_OFFSET_BLOB, PAGE_OFFSET_BLOB_END,l_0 FROM INDEXES ORDER BY ROW_ID ;" then
    none
  else if db = "a.mr.db" then
    some [[some "0", some "0", some "9", some "1"], [some "0", some "9", some "19", some "2"]]
  else if db = "b.mr.db" then
    some [[some "0", some "0", some "10", some "3"], [some "0", some "10", some "30", some "4"]]
  else none

def planEnv : Env := { exampleEnv with exec := planExec }

/-- The reader of the two-shard dataset when planning starts (row mode, column `l` selected). -/
def planReader : ShardReader :=
  { ShardReader.new with
    shard_count_ := 2, shard_header_ := planHeader, page_size_ := 32, header_size_ := 8,
    selected_columns_ := ["l"], n_consumer_ := 2,
    file_paths_ := ["a.mr", "b.mr"], database_paths_ := ["a.mr.db", "b.mr.db"] }

/-- The index rows of the two shards. -/
def planView (s : Nat) : List IndexRow :=
  if s = 0 then
    [⟨0, 0, 9, Json.object [("l", Json.int 1)]⟩, ⟨0, 9, 19, Json.object [("l", Json.int 2)]⟩]
  else
    [⟨0, 0, 10, Json.object [("l", Json.int 3)]⟩, ⟨0, 10, 30, Json.object [("l", Json.int 4)]⟩]

/-- A summary of one BLOB page of `2^31` rows. -/
def hugeBlockSummary : List SummaryEntry := [(0, 0, 0, 2 ^ 31)]

/-! ## A dataset of 1001 shards

Every shard has one BLOB page holding the single row of its index. -/

/-- The header of a dataset of `n` such shards. -/
def wideHeaderOf (n : Nat) : ShardHeader :=
  { shard_count := n, page_size := 32, header_size := 8,
    pages := List.replicate n [⟨0, "BLOB_DATA", 0, 0, 1, 9⟩],
    page_by_group := fun group_id _ =>
      if group_id = 0 then some ⟨0, "BLOB_DATA", 0, 0, 1, 9⟩ else none,
    schemas := [⟨[("l", "int32")], ["data"]⟩],
    fields := [(0, "l")],
    shard_addresses := (List.range n).map (fun s => "shard" ++ toString s ++ ".mr") }

def wideHeader : ShardHeader := wideHeaderOf 1001

def wideEnv : Env :=
  { exampleEnv with
    exec := fun _ sql =>
      if sql = "SELECT ROW_GROUP_ID, PAGE_OFFSET_BLOB, PAGE_OFFSET_BLOB_END,l_0 FROM INDEXES ORDER BY ROW_ID ;" then
        some [[some "0", some "0", some "9", some "7"]]
      else none }

/-- The reader of the 1001-shard dataset when planning starts (row mode, column `l` selected). -/
def wideReader : ShardReader :=
  { ShardReader.new with
    shard_count_ := 1001, shard_header_ := wideHeader, page_size_ := 32, header_size_ := 8,
    selected_columns_ := ["l"], n_consumer_ := 2,
    file_paths_ := wideHeader.shard_addresses,
    database_paths_ := wideHeader.shard_addresses.map (fun f => f ++ ".db") }

/-- The reader of the example dataset after `Open` (row mode, one worker, column
`text` selected) and `Launch`: one row task, identity permutation. -/
def examplePlanned : ShardReader :=
  { exampleInit with
    shard_count_ := 1, n_consumer_ := 1, selected_columns_ := ["text"],
    all_in_index_ := false, column_schema_id_ := [("l", 0)],
    file_streams_random_ := [[⟨exampleFile, true⟩]],
    tasks_ := ⟨[((0, 0), [8, 9], Json.object [("text", Json.str "a")])], [0]⟩,
    num_rows_ := 1, num_blocks_ := 0 }

/-! ## The row-mode engine: what is proved about it -/

/-- Batch `b` is what `ConsumerOneTask` on reader `r0` produces for task id `k`, read
by some worker. -/
def ProducedBy (E : Env) (r0 : ShardReader) (k : Int) (b : Batch) : Prop :=
  ∃ w r1, ConsumerOneTask E r0 k w = some ((MSRStatus.SUCCESS, b), r1)

/-- The non-empty vectors among those the consumer calls returned. -/
def delivered (outs : List Batch) : List Batch := outs.filter (fun b => !b.isEmpty)

/-- The row-mode engine right after `Launch`: counters at 0, an empty delivery map,
every worker at the top of its loop. -/
def Engine.rowStart (e : Engine) : Prop :=
  e.r.block_reader_ = false ∧ e.r.task_id_ = 0 ∧ e.r.deliver_id_ = 0 ∧ e.r.delivery_map_ = [] ∧
    ∀ w ∈ e.workers, w = Worker.idle

def Action.isReset : Action → Bool
  | Action.reset => true
  | _ => false

/-- The fields of the reader that `ConsumerOneTask` reads, apart from the streams. -/
def StaticSame (r r0 : ShardReader) : Prop :=
  r.tasks_ = r0.tasks_ ∧ r.shard_header_ = r0.shard_header_ ∧ r.header_size_ = r0.header_size_ ∧
  r.page_size_ = r0.page_size_ ∧ r.nlp_ = r0.nlp_ ∧ r.selected_columns_ = r0.selected_columns_

/-- The invariant of the row-mode engine started on reader `r0`, when `dl` are the
non-empty vectors the consumer calls have returned. -/
structure RowInv (E : Env) (r0 : ShardReader) (e : Engine) (dl : List Batch) : Prop where
  static : StaticSame e.r r0
  row : e.r.block_reader_ = false
  streams : ∀ w : Nat, (∀ st, e.workers[w]? ≠ some (Worker.exited st)) →
    e.r.file_streams_random_[w]? = r0.file_streams_random_[w]?
  map : ∀ kv ∈ e.r.delivery_map_, ProducedBy E r0 kv.1 kv.2
  held : ∀ (w : Nat) k b, e.workers[w]? = some (Worker.holding k b) → ProducedBy E r0 k b
  count : e.r.deliver_id_ = (dl.length : Int)
  outs : ∀ k (hk : k < dl.length), ProducedBy E r0 (k : Int) (dl[k])

/-! ## A dataset of one shard with three rows

One BLOB page with payloads `A`, `BB`, `CCC`; column `l` is indexed and selected. -/

def threeRowFile : List Nat :=
  List.replicate 8 0 ++
  ([1, 0, 0, 0, 0, 0, 0, 0, 65] ++ [2, 0, 0, 0, 0, 0, 0, 0, 66, 66] ++
   [3, 0, 0, 0, 0, 0, 0, 0, 67, 67, 67] ++ List.replicate 2 0)

def threeRowHeader : ShardHeader :=
  { shard_count := 1, page_size := 32, header_size := 8,
    pages := [[⟨0, "BLOB_DATA", 0, 0, 3, 30⟩]],
    page_by_group := fun group_id shard_id =>
      if group_id = 0 ∧ shard_id = 0 then some ⟨0, "BLOB_DATA", 0, 0, 3, 30⟩ else none,
    schemas := [⟨[("l", "int32")], ["data"]⟩],
    fields := [(0, "l")],
    shard_addresses := ["a.mr"] }

def threeRowExec (db sql : String) : Option (List (List (Option String))) :=
  if db ≠ "a.mr.db" then none
  else if sql = "select NAME from SHARD_NAME;" then some [[some "a.mr"]]
  else if sql = "SELECT ROW_GROUP_ID, PAGE_OFFSET_BLOB, PAGE_OFFSET_BLOB_END,l_0 FROM INDEXES ORDER BY ROW_ID ;" then
    some [[some "0", some "0", some "9", some "1"], [some "0", some "9", some "19", some "2"],
          [some "0", some "19", some "30", some "3"]]
  else none

def threeRowEnv : Env :=
  { exampleEnv with
    Build := fun path => if path = "a.mr" then some threeRowHeader else none,
    exec := threeRowExec,
    file := fun path => if path = "a.mr" then some threeRowFile else none }

/-- The reader of the three-row dataset after `Open` (row mode, two workers, column
`l` selected) and `Launch`. -/
def threeRowPlanned : ShardReader :=
  { ShardReader.new with
    shard_header_ := threeRowHeader, header_size_ := 8, page_size_ := 32,
    file_paths_ := ["a.mr"], database_paths_ := ["a.mr.db"],
    shard_count_ := 1, n_consumer_ := 2, selected_columns_ := ["l"],
    all_in_index_ := true, column_schema_id_ := [("l", 0)],
    file_streams_random_ := [[⟨threeRowFile, true⟩], [⟨threeRowFile, true⟩]],
    tasks_ := ⟨[((0, 0), [8, 9], Json.object [("l", Json.int 1)]),
                ((0, 0), [17, 19], Json.object [("l", Json.int 2)]),
                ((0, 0), [27, 30], Json.object [("l", Json.int 3)])], [0, 1, 2]⟩,
    num_rows_ := 3, num_blocks_ := 0 }

/-- A schedule of two workers and the consumer in which task 1 is inserted before
task 0 and the consumer calls `GetNext` five times, the first time before anything
is ready. -/
def threeRowSchedule : List Action :=
  [Action.work 0, Action.work 1, Action.work 1, Action.getNext, Action.work 0, Action.getNext,
   Action.getNext, Action.work 1, Action.work 1, Action.getNext, Action.getNext]

/-- The page directory fits the integer types of the reader: it lists `shard_count`
shards and every shard has fewer than `2^31` pages. -/
def ShardHeader.directoryFits (h : ShardHeader) : Prop :=
  (h.pages.length : Int) = h.shard_count ∧ ∀ s < h.pages.length, (h.pagesOf s).length < 2 ^ 31

/-! ## Operators in `CreateTasks`: what is proved about them -/

/-- The operators `CreateTasks` invokes: those that are no category operator and,
under block mode, no shuffle operator, in declaration order. -/
def invokedOperators (block_reader : Bool) (operators : List ShardOperator) : List ShardOperator :=
  operators.filter (fun op => !op.isCategory && !(block_reader && op.isShuffle))

/-- Each operator of the list, applied in order to the result of the one before it,
returns `SUCCESS`, and the last result is `tasks`. -/
def OperatorsSucceed : List ShardOperator → ShardTask → ShardTask → Prop
  | [], tasks0, tasks => tasks = tasks0
  | op :: rest, tasks0, tasks =>
    (op.apply tasks0).1 = MSRStatus.SUCCESS ∧ OperatorsSucceed rest (op.apply tasks0).2 tasks

/-- Two operator lists of the same kinds, position by position, that differ at most
in what their category operators and, under block mode, their shuffle operators do
when they are called. -/
def SameInvoked (block_reader : Bool) (ops ops1 : List ShardOperator) : Prop :=
  List.Forall₂ (fun a b => a.kind = b.kind ∧
    (a.isCategory = false → (block_reader && a.isShuffle) = false → a.apply = b.apply)) ops ops1

/-- A shuffle operator: it sets the permutation to the reverse of the identity. -/
def shuffleReverse : ShardOperator :=
  ⟨OperatorKind.shuffle, fun t =>
    (MSRStatus.SUCCESS,
      { t with permutation_ := ((List.range t.task_list_.length).map (fun i => (i : Int))).reverse })⟩

/-- An operator that keeps the first task of the list. -/
def sampleFirst : ShardOperator :=
  ⟨OperatorKind.other, fun t => (MSRStatus.SUCCESS, { t with task_list_ := t.task_list_.take 1 })⟩

/-- An operator that fails and empties the list. -/
def rejectAll : ShardOperator :=
  ⟨OperatorKind.other, fun t => (MSRStatus.FAILED, { t with task_list_ := [] })⟩

/-- A block-mode reader when planning starts, and a summary of two BLOB pages. -/
def blockStart : ShardReader := { ShardReader.new with block_reader_ := true }

def blockSummary : List SummaryEntry := [(0, 0, 0, 3), (1, 0, 0, 2)]

/-- The identity permutation on `[0, n)`. -/
def identityPerm (n : Nat) : List Int := (List.range n).map (fun i => (i : Int))





/-! ## The row-mode engine: backpressure -/

/-- The keys of `delivery_map_`. -/
def ShardReader.deliveryKeys (r : ShardReader) : List Int := r.delivery_map_.map Prod.fst

/-- The backpressure invariant of the row-mode engine: `deliver_id_` never passes
`task_id_`; the keys of `delivery_map_` are pairwise different, fetched already, and
within `[deliver_id_, deliver_id_ + kNumBatchInMap]`; a task id a worker holds is
fetched already, not delivered yet, not in the map, and held by that worker alone. -/
structure BackInv (K : Constants) (e : Engine) : Prop where
  row : e.r.block_reader_ = false
  order : e.r.deliver_id_ ≤ e.r.task_id_
  nodup : e.r.deliveryKeys.Nodup
  keys : ∀ k ∈ e.r.deliveryKeys,
    e.r.deliver_id_ ≤ k ∧ k ≤ e.r.deliver_id_ + K.kNumBatchInMap ∧ k < e.r.task_id_
  held : ∀ (w : Nat) k b, e.workers[w]? = some (Worker.holding k b) →
    e.r.deliver_id_ ≤ k ∧ k < e.r.task_id_ ∧ k ∉ e.r.deliveryKeys
  alone : ∀ (w1 w2 : Nat) k b1 b2, e.workers[w1]? = some (Worker.holding k b1) →
    e.workers[w2]? = some (Worker.holding k b2) → w1 = w2

/-- The example constants with a look-ahead of no batch: a worker may insert task
`k` only once `deliver_id_` has reached `k`. -/
def tightConstants : Constants := { exampleConstants with kNumBatchInMap := 0 }

/-- A schedule in which worker 1 fetches task 1 and tries to insert it twice, before
and after worker 0 has inserted task 0. -/
def backpressureSchedule : List Action :=
  [Action.work 0, Action.work 1, Action.work 1, Action.work 0, Action.work 1]

/-! ## The three-row dataset under block mode -/

/-- The index database of the three-row dataset, as the answers to the queries of
`Init` and of block mode on page 0. -/
def threeRowBlockExec (db sql : String) : Option (List (List (Option String))) :=
  if db ≠ "a.mr.db" then none
  else if sql = "select NAME from SHARD_NAME;" then some [[some "a.mr"]]
  else if sql = "SELECT PAGE_OFFSET_BLOB, PAGE_OFFSET_BLOB_END FROM INDEXES WHERE PAGE_ID_BLOB = 0;" then
    some [[some "0", some "9"], [some "9", some "19"], [some "19", some "30"]]
  else if sql = "SELECT l_0 FROM INDEXES WHERE PAGE_ID_BLOB = 0;" then
    some [[some "1"], [some "2"], [some "3"]]
  else none

def threeRowBlockEnv : Env := { threeRowEnv with exec := threeRowBlockExec }

/-- One worker loads block 0 in four steps, then the consumer takes its first row. -/
def firstRowSchedule : List Action :=
  [Action.work 0, Action.work 0, Action.work 0, Action.work 0, Action.getNext]

/-! ## Label projection: what is proved about it -/

/-- A value that `j[key] = v` assigns into: null or an object. -/
def Json.assignable : Json → Bool
  | Json.null => true
  | Json.object _ => true
  | _ => false

/-! ## Column typing: what is proved about it -/

/-- The column of the index a criteria on `field` filters on: `<field>_<schema_id>`,
with the schema id the reader has recorded for the field (0 when it has none). -/
def criteriaColumn (r : ShardReader) (field : String) : String :=
  field ++ "_" ++ toString (mapIndex r.column_schema_id_ field).1

/-- The environment with another answer function for plain queries. -/
def Env.withExec (E : Env) (exec : String → String → Option (List (List (Option String)))) :
    Env :=
  { E with exec := exec }

/-- The environment with another answer function for prepared statements. -/
def Env.withBind (E : Env)
    (exec_bind : String → String → String → Option (List (List (Option String)))) : Env :=
  { E with exec_bind := exec_bind }

/-- The text of the query of `GetImageOffset` under a criteria on `field` whose
declared type is `ty`: the value stands in the text, bare for a number type and
between single quotes otherwise. -/
def imageOffsetQuery (r : ShardReader) (page_id : Int) (field ty value : String) : String :=
  "SELECT PAGE_OFFSET_BLOB, PAGE_OFFSET_BLOB_END FROM INDEXES WHERE PAGE_ID_BLOB = " ++
    toString page_id ++ " AND " ++ criteriaColumn r field ++ " = " ++
    (if kNumberFieldTypeSet.contains ty then value else "\x27" ++ value ++ "\x27") ++ ";"

/-- The text of a prepared statement with a criteria on `field`: after the select
part, the predicate `<field>_<schema_id> = :criteria`. -/
def boundQuery (r : ShardReader) (select field : String) : String :=
  select ++ " AND " ++ criteriaColumn r field ++ " = :criteria"

/-- The select part of the query of `GetLabelsFromPage`. -/
def pageSelect (page_id : Int) : String :=
  "SELECT PAGE_ID_RAW, PAGE_OFFSET_RAW,PAGE_OFFSET_RAW_END FROM INDEXES WHERE PAGE_ID_BLOB = " ++
    toString page_id

/-- An index of the example dataset that answers two queries only: the plain query
on page 0 whose text holds the value `a` between single quotes for the string
column `text`, and the prepared statement on page 0 with the predicate
`l_0 = :criteria` and the bound value `1` for the number column `l`. -/
def criteriaEnv : Env :=
  { exampleEnv with
    exec := fun _ sql =>
      if sql = "SELECT PAGE_OFFSET_BLOB, PAGE_OFFSET_BLOB_END FROM INDEXES WHERE PAGE_ID_BLOB = 0 AND text_0 = \x27a\x27;" then
        some [[some "0", some "9"]]
      else none,
    exec_bind := fun _ sql value =>
      if sql = "SELECT PAGE_ID_RAW, PAGE_OFFSET_RAW,PAGE_OFFSET_RAW_END FROM INDEXES WHERE PAGE_ID_BLOB = 0 AND l_0 = :criteria" ∧ value = "1" then
        some [[some "1", some "0", some "19"]]
      else none }

/-! ## The worker count -/

/-- The example environment on a machine of 256 hardware threads. -/
def manyThreadsEnv : Env := { exampleEnv with GetMaxThreadNum := 256 }

/-! ## Row-task addresses: what is proved about them -/

/-- An address `[blob_start, blob_end]` with `blob_end > blob_start`, whose read length
`blob_end - blob_start` in `uint64_t` arithmetic is the difference of the two. -/
def AddressValid (addr : List Nat) : Prop :=
  ∃ blob_start blob_end, addr = [blob_start, blob_end] ∧ blob_start < blob_end ∧
    (blob_end + 2 ^ 64 - blob_start) % 2 ^ 64 = blob_end - blob_start

/-- An index of the three-row dataset whose only row has a blob that ends before its
length prefix does: `PAGE_OFFSET_BLOB = 0`, `PAGE_OFFSET_BLOB_END = 4`. -/
def shortBlobExec (db sql : String) : Option (List (List (Option String))) :=
  if db ≠ "a.mr.db" then none
  else if sql = "select NAME from SHARD_NAME;" then some [[some "a.mr"]]
  else if sql = "SELECT ROW_GROUP_ID, PAGE_OFFSET_BLOB, PAGE_OFFSET_BLOB_END,l_0 FROM INDEXES ORDER BY ROW_ID ;" then
    some [[some "0", some "0", some "4", some "1"]]
  else if sql = "SELECT PAGE_OFFSET_BLOB, PAGE_OFFSET_BLOB_END FROM INDEXES WHERE PAGE_ID_BLOB = 0;" then
    some [[some "0", some "4"]]
  else none

def shortBlobEnv : Env := { threeRowEnv with exec := shortBlobExec }

/-! ## Category planning: what is proved about it -/

/-- What a successful `ReadRowGroupCriteria` call gives to planning: the offsets and
the labels of the rows it returns. -/
abbrev RowsOf := List (List Nat) × List Json

/-- The calls `ReadRowGroupCriteria(group, shard, criteria, columns)` for the entries
of the summary, in order, the first on reader `r`: each returns `SUCCESS` with the
offsets and labels listed in `results`, and the reader after the last is `r1`. -/
def GroupCallsReturn (E : Env) (K : Constants) (criteria : Criteria) (columns : List String) :
    List SummaryEntry → ShardReader → List RowsOf → ShardReader → Prop
  | [], r, results, r1 => results = [] ∧ r1 = r
  | rg :: rest, r, results, r1 =>
    ∃ res more file len off r2, results = res :: more ∧
      ReadRowGroupCriteria E K r rg.2.1 rg.1 criteria columns =
        some ((MSRStatus.SUCCESS, file, len, off, res.1, res.2), r2) ∧
      GroupCallsReturn E K criteria columns rest r2 more r1

/-- The calls of `GroupCallsReturn` for every category of the list, in order. -/
def CategoryCallsReturn (E : Env) (K : Constants) (summary : List SummaryEntry)
    (columns : List String) :
    List Criteria → ShardReader → List (List RowsOf) → ShardReader → Prop
  | [], r, results, r1 => results = [] ∧ r1 = r
  | c :: rest, r, results, r1 =>
    ∃ res more r2, results = res :: more ∧
      GroupCallsReturn E K c columns summary r res r2 ∧
      CategoryCallsReturn E K summary columns rest r2 more r1

/-- The tasks of the rows one call returned for the entry `rg`: one task
`((shard, group), offsets of the row, labels of the row)` per row, in returned order. -/
def rowTasks (rg : SummaryEntry) (res : RowsOf) : List Task :=
  (List.zip res.1 res.2).map (fun row => ((rg.1, rg.2.1), row.1, row.2))

/-- The sublist of one category: the row tasks of every summary entry, in summary order. -/
def categoryTasks (summary : List SummaryEntry) (results : List RowsOf) : List Task :=
  (List.zip summary results).flatMap (fun p => rowTasks p.1 p.2)

/-- Every call returned at least as many labels as offsets. -/
def LabelsCover (results : List RowsOf) : Prop :=
  ∀ res ∈ results, res.1.length ≤ res.2.length

/-- An index of the three-row dataset (rows with `l` = 1, 2, 3) that answers the
criteria queries on page 0 for the number column `l` as SQLite does. The plain query
of `GetImageOffset` holds the value in its text: for the value `2` it gives the
offsets of the second row, and for the value `1 OR 1=1` its predicate holds for every
row. The prepared statement of `GetLabels` compares `l_0` with the bound value: the
row with `l` = 2 for the value `2`, no row for the value `1 OR 1=1`. `Combine` is
outside this file; here it concatenates the sublists. -/
def categoryEnv : Env :=
  { threeRowEnv with
    exec := fun db sql =>
      if db ≠ "a.mr.db" then none
      else if sql = "SELECT PAGE_OFFSET_BLOB, PAGE_OFFSET_BLOB_END FROM INDEXES WHERE PAGE_ID_BLOB = 0 AND l_0 = 2;" then
        some [[some "9", some "19"]]
      else if sql = "SELECT PAGE_OFFSET_BLOB, PAGE_OFFSET_BLOB_END FROM INDEXES WHERE PAGE_ID_BLOB = 0 AND l_0 = 1 OR 1=1;" then
        some [[some "0", some "9"], [some "9", some "19"], [some "19", some "30"]]
      else none,
    exec_bind := fun db sql value =>
      if db ≠ "a.mr.db" then none
      else if sql = "SELECT l_0 FROM INDEXES WHERE PAGE_ID_BLOB = 0 AND l_0 = :criteria" then
        (if value = "2" then some [[some "2"]] else some [])
      else none,
    Combine := fun sublists => ⟨sublists.flatMap (fun t => t.task_list_), []⟩ }

/-- The reader of the three-row dataset when planning starts (row mode, column `l` selected). -/
def categoryReader : ShardReader :=
  { ShardReader.new with
    shard_header_ := threeRowHeader, header_size_ := 8, page_size_ := 32,
    file_paths_ := ["a.mr"], database_paths_ := ["a.mr.db"],
    shard_count_ := 1, n_consumer_ := 1, selected_columns_ := ["l"] }

/-- A category operator on the column `l` with the given values. -/
def categoryOperator (values : List String) : ShardOperator :=
  ⟨OperatorKind.category (values.map (fun v => ("l", v))), fun t => (MSRStatus.SUCCESS, t)⟩

/-! ## The order of the row-group summary: what is proved about it -/

/-- Lexicographic order on `(group_id, shard_id)`, strict. -/
def keyLt (a b : SummaryEntry) : Prop := a.2.1 < b.2.1 ∨ (a.2.1 = b.2.1 ∧ a.1 < b.1)

/-- Lexicographic order on `(group_id, shard_id)`, non-strict. -/
def keyLe (a b : SummaryEntry) : Prop := a.2.1 < b.2.1 ∨ (a.2.1 = b.2.1 ∧ a.1 ≤ b.1)

/-! ## The block-mode engine: ring slots -/

/-- The task id a block worker has fetched and not yet handed over or dropped. -/
def Worker.blockTask : Worker → Option Int
  | Worker.ready task_id _ _ => some task_id
  | Worker.claimed task_id _ _ => some task_id
  | Worker.loaded task_id => some task_id
  | _ => none

/-- The task id for which a block worker has claimed its slot: it has passed the wait
`task_id < deliver_id_ + kNumPageInBuffer` and has not yet inserted the id into
`delivery_block_set_`. -/
def Worker.claimedTask : Worker → Option Int
  | Worker.claimed task_id _ _ => some task_id
  | Worker.loaded task_id => some task_id
  | _ => none

/-- Task `t` has claimed a slot and is not delivered yet: a worker has claimed the
slot for it, or it is in `delivery_block_set_`. -/
def Engine.claims (e : Engine) (t : Int) : Prop :=
  (∃ (w : Nat) (s : Worker), e.workers[w]? = some s ∧ s.claimedTask = some t) ∨
    t ∈ e.r.delivery_block_set_

/-- The block-mode engine right after `Launch`: counters at 0, nothing delivered,
every worker at the top of its loop. -/
def Engine.blockStart (e : Engine) : Prop :=
  e.r.block_reader_ = true ∧ e.r.task_id_ = 0 ∧ e.r.deliver_id_ = 0 ∧ e.r.row_id_ = 0 ∧
    e.r.delivery_block_set_ = [] ∧ ∀ w ∈ e.workers, w = Worker.idle

/-- The invariant of the block-mode engine: `deliver_id_` never passes `task_id_`; a
task with a claimed slot is below `deliver_id_ + kNumPageInBuffer`; a task a worker
holds is fetched already, not passed by `deliver_id_`, not in `delivery_block_set_`,
and held by that worker alone; a task in the set is fetched already and not passed;
and in the middle of a block the block is in the set. -/
structure BlockInv (K : Constants) (e : Engine) : Prop where
  block : e.r.block_reader_ = true
  order : e.r.deliver_id_ ≤ e.r.task_id_
  window : ∀ t, e.claims t → t < e.r.deliver_id_ + K.kNumPageInBuffer
  held : ∀ (w : Nat) s t, e.workers[w]? = some s → s.blockTask = some t →
    e.r.deliver_id_ ≤ t ∧ t < e.r.task_id_ ∧ t ∉ e.r.delivery_block_set_
  inset : ∀ t ∈ e.r.delivery_block_set_, e.r.deliver_id_ ≤ t ∧ t < e.r.task_id_
  alone : ∀ (w1 w2 : Nat) s1 s2 t, e.workers[w1]? = some s1 → e.workers[w2]? = some s2 →
    s1.blockTask = some t → s2.blockTask = some t → w1 = w2
  rowid : e.r.row_id_ ≠ 0 → e.r.deliver_id_ ∈ e.r.delivery_block_set_

/-- What a step of a block worker does to the worker and to the counters: -/
inductive BlockEffect (K : Constants) (e : Engine) (old s : Worker) (r2 : ShardReader) : Prop where
  /-- it fetches the next task id, -/
  | fetch (hold : old = Worker.idle) (htask : r2.task_id_ = e.r.task_id_ + 1)
      (hset : r2.delivery_block_set_ = e.r.delivery_block_set_)
      (hnew : ∀ t, s.blockTask = some t → t = e.r.task_id_) (hclaim : s.claimedTask = none)
  /-- or it moves on with the task it holds (or drops it), claiming the slot only when
  the task is inside the window, -/
  | move (htask : r2.task_id_ = e.r.task_id_)
      (hset : r2.delivery_block_set_ = e.r.delivery_block_set_)
      (hkeep : ∀ t, s.blockTask = some t → old.blockTask = some t)
      (hclaim : ∀ t, s.claimedTask = some t →
        old.claimedTask = some t ∨ t < e.r.deliver_id_ + K.kNumPageInBuffer)
  /-- or it hands its loaded task over to `delivery_block_set_`. -/
  | handover (t : Int) (hold : old = Worker.loaded t) (hs : s = Worker.idle)
      (htask : r2.task_id_ = e.r.task_id_)
      (hset : ∀ x, x ∈ r2.delivery_block_set_ ↔ x = t ∨ x ∈ e.r.delivery_block_set_)

/-- A task that has claimed a ring slot during the schedule `acts` run from `e`: in
the state after some prefix of the schedule, a worker is past the wait on
`cv_delivery_` with that task (it is about to write, or has written, its slot). -/
def Engine.hasClaimed (E : Env) (K : Constants) (e : Engine) (acts : List Action) (t : Int) :
    Prop :=
  ∃ (pre post : List Action) (em : Engine) (outs : List Batch) (w : Nat) (s : Worker),
    acts = pre ++ post ∧ Engine.run E K e pre = some (em, outs) ∧
      em.workers[w]? = some s ∧ s.claimedTask = some t

/-- The ring slot of a task: the index `buf_id` of `ConsumerByBlock`. -/
def slotOf (K : Constants) (t : Int) : Nat := (t % K.kNumPageInBuffer).toNat

/-- One worker takes block 0 of the three-row dataset up to the loaded page. -/
def loadBlockSchedule : List Action := [Action.work 0, Action.work 0, Action.work 0]

/-! ## The all-in-index flag -/

/-- The indexed fields of a header: the names in `get_fields()`. -/
def ShardHeader.indexedColumns (h : ShardHeader) : List String := h.fields.map Prod.snd

/-- The keys of `column_schema_id_`. -/
def ShardReader.schemaKeys (r : ShardReader) : List String := r.column_schema_id_.map Prod.fst

/-! ## `OpenPy` -/

/-- The loop of `OpenPy` over the blob fields: the position of the blob field is
found in `selected_columns` and erased from the copy `columns`. Erasing at
`columns.end()` or beyond is undefined: `none`. -/
def OpenPy.eraseLoop (selected_columns : List String) :
    List String → List String → Option (List String)
  | [], columns => some columns
  | blob_field :: rest, columns =>
    let it := selected_columns.indexOf blob_field
    if it ≠ selected_columns.length then
      if it < columns.length then OpenPy.eraseLoop selected_columns rest (columns.eraseIdx it)
      else none
    else OpenPy.eraseLoop selected_columns rest columns

/-- The function `ShardReader::OpenPy`. -/
def OpenPy (E : Env) (K : Constants) (r : ShardReader) (file_path : String) (n_consumer : Int)
    (selected_columns : List String) (operators : List ShardOperator) :
    Option (MSRStatus × ShardReader) :=
  match Init E K r file_path with
  | none => none
  | some (MSRStatus.SUCCESS, r1) =>
    match OpenPy.eraseLoop selected_columns (get_blob_fields r1) selected_columns with
    | none => none
    | some columns =>
      if CheckColumnList r1 columns = MSRStatus.FAILED then some (MSRStatus.FAILED, r1)
      else
        let opened := Open.random E r1 n_consumer
        if opened.1 = MSRStatus.FAILED then some (MSRStatus.FAILED, opened.2)
        else
          let r2 := CheckNlp opened.2
          some (MSRStatus.SUCCESS,
            { r2 with shard_count_ := (r2.file_paths_.length : Int), n_consumer_ := n_consumer,
                      selected_columns_ := selected_columns, operators_ := operators })
  | some (_, r1) => some (MSRStatus.FAILED, r1)

/-- The selected columns with every blob-field name removed, the other columns in
their original order. -/
def withoutBlobFields (blob_fields selected_columns : List String) : List String :=
  selected_columns.filter (fun c => ¬ blob_fields.contains c)

/-- The example header with two blob fields, `data` and `mask`. -/
def twoBlobHeader : ShardHeader :=
  { exampleHeader with
    schemas := [⟨[("l", "int32"), ("data", "bytes"), ("mask", "bytes")], ["data", "mask"]⟩] }

def twoBlobEnv : Env :=
  { exampleEnv with Build := fun path => if path = "a.mr" then some twoBlobHeader else none }

/-! ## Theorems -/

/-! ### Helper lemmas on the machine integers -/

theorem toInt32_of_lt (z : Int) (h0 : 0 ≤ z) (h1 : z < 2 ^ 31) : toInt32 z = z := by
  unfold toInt32
  omega

theorem u64_of_lt (z : Int) (h0 : 0 ≤ z) (h1 : z < 2 ^ 64) : u64 z = z.toNat := by
  unfold u64
  rw [Int.emod_eq_of_lt h0 h1]

/-! ### `ReadRowGroupSummary` -/

theorem pageLoop_eq (K : Constants) (h : ShardHeader) (shard_id : Int) (ids : List Nat)
    (acc : List SummaryEntry) :
    ReadRowGroupSummary.pageLoop K h shard_id ids acc =
      if blobRangesValid K (ids.map (h.GetPage shard_id)) then
        some (acc ++ blobEntries K shard_id (ids.map (h.GetPage shard_id)))
      else none := by
  induction ids generalizing acc with
  | nil => simp [ReadRowGroupSummary.pageLoop, blobRangesValid, blobEntries]
  | cons i rest ih =>
    simp only [ReadRowGroupSummary.pageLoop, List.map_cons]
    by_cases hb : (h.GetPage shard_id i).page_type = K.kPageTypeBlob
    · by_cases hv : (h.GetPage shard_id i).start_row_id > (h.GetPage shard_id i).end_row_id
      · have hv2 : ¬ (h.GetPage shard_id i).start_row_id ≤ (h.GetPage shard_id i).end_row_id := by
          omega
        simp [hb, hv, hv2, blobRangesValid, Page.isBlob]
      · have hv2 : (h.GetPage shard_id i).start_row_id ≤ (h.GetPage shard_id i).end_row_id := by
          omega
        simp only [hb, ne_eq, not_true_eq_false, if_false, hv, ih]
        simp [blobRangesValid, blobEntries, Page.isBlob, hb, hv2, Page.entry]
    · simp only [ne_eq, hb, not_false_eq_true, if_true, ih]
      simp [blobRangesValid, blobEntries, Page.isBlob, hb]

theorem map_getD_range {α : Type} (l : List α) (d : α) :
    (List.range l.length).map (fun i => l.getD i d) = l := by
  apply List.ext_getElem
  · simp
  · intro i h1 h2
    simp [List.getD_eq_getElem, h2]

theorem shardPages_natCast (h : ShardHeader) (s : Nat) :
    h.shardPages (s : Int) = h.pagesOf s := by
  simp [ShardHeader.shardPages]

theorem pageLoop_shard (K : Constants) (h : ShardHeader) (s : Nat) (acc : List SummaryEntry) :
    ReadRowGroupSummary.pageLoop K h s (List.range (h.pagesOf s).length) acc =
      if blobRangesValid K (h.pagesOf s) then
        some (acc ++ blobEntries K s (h.pagesOf s))
      else none := by
  rw [pageLoop_eq]
  have hm : (List.range (h.pagesOf s).length).map (h.GetPage (s : Int)) = h.pagesOf s := by
    have h1 := map_getD_range (h.pagesOf s) default
    have h2 : h.GetPage (s : Int) = fun i => (h.pagesOf s).getD i default := by
      funext i
      simp only [ShardHeader.GetPage, shardPages_natCast]
    rw [h2]
    exact h1
  rw [hm]

theorem shardLoop_eq (K : Constants) (h : ShardHeader) (ss : List Nat)
    (hlen : ∀ s ∈ ss, (h.pagesOf s).length < 2 ^ 31) (acc : List SummaryEntry) :
    ReadRowGroupSummary.shardLoop K h ss acc =
      if ss.all (fun s => blobRangesValid K (h.pagesOf s)) then
        some (acc ++ ss.flatMap (fun s => blobEntries K (s : Int) (h.pagesOf s)))
      else none := by
  induction ss generalizing acc with
  | nil => simp [ReadRowGroupSummary.shardLoop]
  | cons s rest ih =>
    have hs : (h.pagesOf s).length < 2 ^ 31 := hlen s (List.mem_cons_self _ _)
    have hrest : ∀ t ∈ rest, (h.pagesOf t).length < 2 ^ 31 :=
      fun t ht => hlen t (List.mem_cons_of_mem _ ht)
    simp only [ReadRowGroupSummary.shardLoop, ShardHeader.GetLastPageId, shardPages_natCast]
    by_cases h0 : (h.pagesOf s).length = 0
    · have hnil : h.pagesOf s = [] := List.length_eq_zero.mp h0
      have h32 : toInt32 (((h.pagesOf s).length : Int) - 1) = -1 := by
        rw [h0]; decide
      rw [if_pos h32, ih hrest]
      simp [hnil, blobRangesValid, blobEntries]
    · have h32 : toInt32 (((h.pagesOf s).length : Int) - 1) ≠ -1 := by
        rw [toInt32_of_lt _ (by omega) (by omega)]
        omega
      have h64 : u64 (((h.pagesOf s).length : Int) - 1) + 1 = (h.pagesOf s).length := by
        rw [u64_of_lt _ (by omega) (by omega)]
        omega
      rw [if_neg h32, h64, pageLoop_shard]
      by_cases hv : blobRangesValid K (h.pagesOf s) = true
      · rw [if_pos hv]
        simp only [ih hrest, List.all_cons, hv, Bool.true_and, List.flatMap_cons,
          List.append_assoc]
      · rw [if_neg hv]
        simp [hv]

theorem ReadRowGroupSummary_eq (K : Constants) (h : ShardHeader)
    (hcount : 1 ≤ h.shard_count ∧ h.shard_count ≤ K.kMaxShardCount)
    (hfit : h.directoryFits) :
    ReadRowGroupSummary K h =
      if (List.range h.pages.length).all (fun s => blobRangesValid K (h.pagesOf s)) then
        expectedSummary K h
      else [] := by
  obtain ⟨hlen, hpages⟩ := hfit
  have h1 : ¬ h.shard_count ≤ 0 := by omega
  have h2 : h.shard_count.toNat = h.pages.length := by omega
  unfold ReadRowGroupSummary
  simp only [h1, hcount.2, if_true, if_false, h2]
  rw [shardLoop_eq K h _ (fun s hs => hpages s (List.mem_range.mp hs))]
  by_cases hv : (List.range h.pages.length).all (fun s => blobRangesValid K (h.pagesOf s)) = true
  · simp only [hv, if_true, List.nil_append, expectedSummary]
  · simp only [hv]
    rfl

/-- C5 (amended). For a page directory with `1 <= shard_count <= kMaxShardCount`
(and fewer than `2^31` pages per shard): when every BLOB page has
`start_row_id <= end_row_id`, `ReadRowGroupSummary` returns exactly one entry
`(shard_id, page_type_id, start_row_id narrowed to int, end_row_id - start_row_id)`
per BLOB page, by ascending shard id and then ascending page id, and no entry for
another page; when some BLOB page has `start_row_id > end_row_id`, it returns the
empty vector. -/
theorem C5_ReadRowGroupSummary_blob_pages (K : Constants) (h : ShardHeader)
    (hcount : 1 ≤ h.shard_count ∧ h.shard_count ≤ K.kMaxShardCount)
    (hfit : h.directoryFits) :
    ((∀ s < h.pages.length, ∀ p ∈ h.pagesOf s, p.isBlob K = true →
        p.start_row_id ≤ p.end_row_id) →
      ReadRowGroupSummary K h = expectedSummary K h) ∧
    ((∃ s < h.pages.length, ∃ p ∈ h.pagesOf s, p.isBlob K = true ∧
        p.end_row_id < p.start_row_id) →
      ReadRowGroupSummary K h = []) := by
  rw [ReadRowGroupSummary_eq K h hcount hfit]
  constructor
  · intro hv
    rw [if_pos]
    simp only [List.all_eq_true, List.mem_range, blobRangesValid, Bool.or_eq_true,
      Bool.not_eq_true', decide_eq_true_eq]
    intro s hs p hp
    cases hb : p.isBlob K
    · exact Or.inl rfl
    · exact Or.inr (hv s hs p hp hb)
  · rintro ⟨s, hs, p, hp, hb, hlt⟩
    rw [if_neg]
    simp only [List.all_eq_true, List.mem_range, blobRangesValid, Bool.or_eq_true,
      Bool.not_eq_true', decide_eq_true_eq, not_forall]
    refine ⟨s, hs, p, hp, ?_⟩
    rw [hb]
    simp
    omega

theorem C5_ReadRowGroupSummary_blob_pages_witness :
    ReadRowGroupSummary exampleConstants twoShardHeader = [(0, 0, 0, 3), (1, 0, 0, 2)] := by
  have h := (C5_ReadRowGroupSummary_blob_pages exampleConstants twoShardHeader
    (by decide) (by unfold ShardHeader.directoryFits; decide)).1 (by decide)
  rw [h]
  decide

/-- C5 as stated fails: the page directory `invertedPageHeader` has one shard
(`1 <= shard_count <= kMaxShardCount`) with a BLOB page, and `ReadRowGroupSummary`
returns no entry for it. -/
theorem C5_counterexample :
    1 ≤ invertedPageHeader.shard_count ∧
    invertedPageHeader.shard_count ≤ exampleConstants.kMaxShardCount ∧
    (∃ p ∈ invertedPageHeader.pagesOf 0, p.isBlob exampleConstants = true) ∧
    ReadRowGroupSummary exampleConstants invertedPageHeader = [] := by
  refine ⟨by decide, by decide, ⟨⟨0, "BLOB_DATA", 0, 5, 3, 0⟩, by decide, by decide⟩, by decide⟩

/-! ### `CheckColumnList`, `Open` -/

theorem Schema.hasKey_iff (p : Schema) (c : String) :
    p.hasKey c = true ↔ c ∈ p.schema.map Prod.fst := by
  simp only [Schema.hasKey, List.find?_isSome, List.mem_map]
  constructor
  · rintro ⟨kv, hkv, he⟩
    exact ⟨kv, hkv, by simpa using he⟩
  · rintro ⟨kv, hkv, he⟩
    exact ⟨kv, hkv, by simpa using he⟩

theorem zip_map_eq_zipWith {α β γ : Type} (f : α → β → γ) (l1 : List α) (l2 : List β) :
    (List.zip l1 l2).map (fun ab => f ab.1 ab.2) = List.zipWith f l1 l2 := by
  induction l1 generalizing l2 with
  | nil => simp
  | cons a l1 ih =>
    cases l2 with
    | nil => simp
    | cons b l2 => simp [ih]

theorem zipWith_zipWith_left {α β : Type} (f g : α → β → β) (l1 : List α) (l2 : List β) :
    List.zipWith f l1 (List.zipWith g l1 l2) = List.zipWith (fun a b => f a (g a b)) l1 l2 := by
  induction l1 generalizing l2 with
  | nil => simp
  | cons a l1 ih =>
    cases l2 with
    | nil => simp
    | cons b l2 => simp [ih]

theorem inSchema_fold (schemas : List Schema) (cols : List String) (flags : List Int) :
    schemas.foldl
      (fun inSchema p =>
        (List.zip cols inSchema).map
          (fun ci => if (p.schema.find? (fun kv => kv.1 == ci.1)).isSome then 1 else ci.2))
      flags =
    if schemas.isEmpty then flags
    else List.zipWith (fun c f => if schemas.any (fun p => p.hasKey c) then 1 else f) cols flags := by
  induction schemas generalizing flags with
  | nil => simp
  | cons p ps ih =>
    rw [List.foldl_cons, ih]
    have hstep : (List.zip cols flags).map
        (fun ci => if (p.schema.find? (fun kv => kv.1 == ci.1)).isSome then (1 : Int) else ci.2) =
        List.zipWith (fun c f => if p.hasKey c then 1 else f) cols flags :=
      zip_map_eq_zipWith (fun c f => if p.hasKey c then (1 : Int) else f) cols flags
    rw [hstep]
    cases ps with
    | nil => simp
    | cons q qs =>
      simp only [List.isEmpty_cons, Bool.false_eq_true, if_false]
      rw [zipWith_zipWith_left]
      congr 1
      funext c f
      by_cases h1 : p.hasKey c = true <;> simp [h1]

theorem any_zero_zipWith (schemas : List Schema) (cols : List String) :
    (List.zipWith (fun c f => if schemas.any (fun p => p.hasKey c) then (1 : Int) else f) cols
        (List.replicate cols.length 0)).any (fun x => x == 0) = false ↔
      ∀ c ∈ cols, schemas.any (fun p => p.hasKey c) = true := by
  induction cols with
  | nil => simp
  | cons c cols ih =>
    simp only [List.length_cons, List.replicate_succ, List.zipWith_cons_cons, List.any_cons,
      Bool.or_eq_false_iff, ih, List.mem_cons, forall_eq_or_imp]
    by_cases h1 : schemas.any (fun p => p.hasKey c) = true <;> simp [h1]

theorem CheckColumnList_iff (r : ShardReader) (columns : List String) :
    CheckColumnList r columns = MSRStatus.SUCCESS ↔
      ∀ c ∈ columns, ∃ p ∈ r.shard_header_.schemas, c ∈ p.schema.map Prod.fst := by
  have hany : ∀ c, (r.shard_header_.schemas.any (fun p => p.hasKey c) = true ↔
      ∃ p ∈ r.shard_header_.schemas, c ∈ p.schema.map Prod.fst) := by
    intro c
    simp only [List.any_eq_true, Schema.hasKey_iff]
  unfold CheckColumnList CheckColumnList.inSchema
  rw [inSchema_fold]
  by_cases hs : r.shard_header_.schemas = []
  · rw [hs]
    cases columns with
    | nil => simp
    | cons c cs =>
      constructor
      · intro h
        simp [List.replicate_succ] at h
      · intro h
        obtain ⟨p, hp, _⟩ := h c (List.mem_cons_self _ _)
        simp at hp
  · have he : r.shard_header_.schemas.isEmpty = false := by
      cases hsch : r.shard_header_.schemas with
      | nil => exact absurd hsch hs
      | cons a l => rfl
    simp only [he, Bool.false_eq_true, if_false]
    have h := any_zero_zipWith r.shard_header_.schemas columns
    constructor
    · intro hok c hc
      apply (hany c).mp
      apply h.mp _ c hc
      by_contra hne
      simp only [Bool.not_eq_false] at hne
      rw [hne] at hok
      simp at hok
    · intro hall
      have := h.mpr (fun c hc => (hany c).mpr (hall c hc))
      rw [this]
      simp

theorem Init_preserves (E : Env) (K : Constants) (r r1 : ShardReader) (file_path : String)
    (st : MSRStatus) (hinit : Init E K r file_path = some (st, r1)) :
    r1.selected_columns_ = r.selected_columns_ ∧ r1.nlp_ = r.nlp_ := by
  unfold Init at hinit
  split at hinit
  · cases hinit; exact ⟨rfl, rfl⟩
  · split at hinit
    · cases hinit; exact ⟨rfl, rfl⟩
    · dsimp only at hinit
      split at hinit
      · cases hinit
      · cases hinit; exact ⟨rfl, rfl⟩
      · cases hinit; exact ⟨rfl, rfl⟩

theorem Open_strip_eq (blob_fields : List String) (cols acc : List String) :
    Open.strip blob_fields cols acc = acc ++ cols.filter (fun c => decide (c ∉ blob_fields)) := by
  induction cols generalizing acc with
  | nil => simp [Open.strip]
  | cons c rest ih =>
    unfold Open.strip
    have hany : (blob_fields.any (fun item => c == item) = true) ↔ c ∈ blob_fields := by
      simp only [List.any_eq_true, beq_iff_eq]
      constructor
      · rintro ⟨x, hx, rfl⟩
        exact hx
      · intro hx
        exact ⟨c, hx, rfl⟩
    by_cases h : c ∈ blob_fields
    · have h1 : ¬ ¬ (blob_fields.any (fun item => c == item) = true) := not_not.mpr (hany.mpr h)
      rw [if_neg h1, ih, List.filter_cons_of_neg (by simpa using h)]
    · have h1 : ¬ (blob_fields.any (fun item => c == item) = true) := fun hh => h (hany.mp hh)
      rw [if_pos h1, ih, List.filter_cons_of_pos (by simpa using h)]
      simp

theorem selectColumns_spec (r : ShardReader) (selected_columns : List String) :
    (Open.selectColumns r selected_columns).selected_columns_ =
        Open.strip (get_blob_fields r) selected_columns r.selected_columns_ ∧
      (Open.selectColumns r selected_columns).shard_header_ = r.shard_header_ :=
  ⟨rfl, rfl⟩

theorem Open_streams_preserves (E : Env) (K : Constants) (r : ShardReader) (n_consumer : Int)
    (operators : List ShardOperator) (block_reader : Bool) :
    (Open.streams E K r n_consumer operators block_reader).2.selected_columns_ =
        r.selected_columns_ ∧
      (Open.streams E K r n_consumer operators block_reader).2.shard_header_ = r.shard_header_ ∧
      (Open.streams E K r n_consumer operators block_reader).1 ≠ MSRStatus.ILLEGAL_COLUMN_LIST := by
  unfold Open.streams
  cases block_reader with
  | true =>
    simp only [if_true]
    split
    · exact ⟨rfl, rfl, by simp⟩
    · exact ⟨rfl, rfl, by simp⟩
  | false =>
    simp only [Bool.false_eq_true, if_false]
    split
    · exact ⟨rfl, rfl, by simp⟩
    · exact ⟨rfl, rfl, by simp⟩

theorem CheckColumnList_congr (ra rb : ShardReader) (cols : List String)
    (h : ra.shard_header_ = rb.shard_header_) :
    CheckColumnList ra cols = CheckColumnList rb cols := by
  simp only [CheckColumnList, h]

/-- What `Open` leaves behind once `Init` has succeeded with `r1`. -/
theorem Open_after_Init (E : Env) (K : Constants) (r r1 : ShardReader) (file_path : String)
    (n_consumer : Int) (selected_columns : List String) (operators : List ShardOperator)
    (block_reader : Bool) (hinit : Init E K r file_path = some (MSRStatus.SUCCESS, r1)) :
    ∃ st r2, Open E K r file_path n_consumer selected_columns operators block_reader =
        some (st, r2) ∧
      r2.selected_columns_ =
        Open.strip (get_blob_fields r1) selected_columns r1.selected_columns_ ∧
      r2.shard_header_ = r1.shard_header_ ∧
      (st = MSRStatus.ILLEGAL_COLUMN_LIST ↔
        CheckColumnList r1
          (Open.strip (get_blob_fields r1) selected_columns r1.selected_columns_) =
            MSRStatus.FAILED) := by
  unfold Open
  rw [hinit]
  dsimp only
  obtain ⟨hsel, hhdr⟩ := selectColumns_spec r1 selected_columns
  rw [CheckColumnList_congr _ r1 _ hhdr, hsel]
  by_cases hc : CheckColumnList r1
      (Open.strip (get_blob_fields r1) selected_columns r1.selected_columns_) = MSRStatus.FAILED
  · rw [if_pos hc]
    exact ⟨_, _, rfl, hsel, hhdr, fun _ => hc, fun _ => rfl⟩
  · rw [if_neg hc]
    obtain ⟨h1, h2, h3⟩ := Open_streams_preserves E K (Open.selectColumns r1 selected_columns)
      (Open.clamp E K n_consumer) operators block_reader
    exact ⟨_, _, rfl, h1.trans hsel, h2.trans hhdr, fun h => absurd h h3, fun h => absurd h hc⟩

/-- C8. `CheckColumnList(columns)` returns `SUCCESS` if and only if every column of
the list is a key of the `"schema"` object of at least one schema of the header
(so it succeeds on the empty list and fails as soon as one column is in no schema);
and when it fails on the stripped column list, `Open`, once `Init` has succeeded,
returns `ILLEGAL_COLUMN_LIST`. -/
theorem C8_CheckColumnList_iff_in_some_schema (E : Env) (K : Constants) (r r1 : ShardReader)
    (file_path : String) (n_consumer : Int) (selected_columns : List String)
    (operators : List ShardOperator) (block_reader : Bool) (columns : List String) :
    (CheckColumnList r1 columns = MSRStatus.SUCCESS ↔
      ∀ c ∈ columns, ∃ p ∈ r1.shard_header_.schemas, c ∈ p.schema.map Prod.fst) ∧
    (Init E K r file_path = some (MSRStatus.SUCCESS, r1) →
      CheckColumnList r1
        (Open.strip (get_blob_fields r1) selected_columns r1.selected_columns_) =
          MSRStatus.FAILED →
      (Open E K r file_path n_consumer selected_columns operators block_reader).map Prod.fst =
        some MSRStatus.ILLEGAL_COLUMN_LIST) := by
  refine ⟨CheckColumnList_iff r1 columns, ?_⟩
  intro hinit hfail
  obtain ⟨st, r2, hopen, _, _, hst⟩ := Open_after_Init E K r r1 file_path n_consumer
    selected_columns operators block_reader hinit
  rw [hopen, Option.map_some', hst.mpr hfail]

theorem C8_CheckColumnList_iff_in_some_schema_witness :
    (CheckColumnList exampleInit ["text", "l"] = MSRStatus.SUCCESS ↔
      ∀ c ∈ ["text", "l"], ∃ p ∈ exampleInit.shard_header_.schemas, c ∈ p.schema.map Prod.fst) ∧
    (Open exampleEnv exampleConstants ShardReader.new "a.mr" 1 ["data", "nope"] [] false).map
      Prod.fst = some MSRStatus.ILLEGAL_COLUMN_LIST :=
  ⟨(C8_CheckColumnList_iff_in_some_schema exampleEnv exampleConstants ShardReader.new
      exampleInit "a.mr" 1 ["data", "nope"] [] false ["text", "l"]).1,
   (C8_CheckColumnList_iff_in_some_schema exampleEnv exampleConstants ShardReader.new
      exampleInit "a.mr" 1 ["data", "nope"] [] false ["text", "l"]).2 rfl rfl⟩

/-- C9. `Open` on a freshly constructed reader (NLP mode is off), once `Init` has
succeeded: the stored `selected_columns_` is the subsequence of `selected_columns`
whose entries are no blob-field name, in the original order and with the original
multiplicity, and no blob-field name remains in it. This holds whatever status
`Open` then returns. -/
theorem C9_Open_strips_blob_fields (E : Env) (K : Constants) (r1 : ShardReader)
    (file_path : String) (n_consumer : Int) (selected_columns : List String)
    (operators : List ShardOperator) (block_reader : Bool)
    (hinit : Init E K ShardReader.new file_path = some (MSRStatus.SUCCESS, r1)) :
    ∃ st r2, Open E K ShardReader.new file_path n_consumer selected_columns operators
        block_reader = some (st, r2) ∧
      r2.selected_columns_ = selected_columns.filter (fun c => decide (c ∉ get_blob_fields r2)) ∧
      ∀ c ∈ r2.selected_columns_, c ∉ get_blob_fields r2 := by
  obtain ⟨st, r2, hopen, hsel, hhdr, _⟩ := Open_after_Init E K ShardReader.new r1 file_path
    n_consumer selected_columns operators block_reader hinit
  have hfresh : r1.selected_columns_ = [] := (Init_preserves E K _ r1 file_path _ hinit).1
  have hbf : get_blob_fields r2 = get_blob_fields r1 := by
    simp only [get_blob_fields, hhdr]
  have hfilter : r2.selected_columns_ =
      selected_columns.filter (fun c => decide (c ∉ get_blob_fields r2)) := by
    rw [hsel, Open_strip_eq, hfresh, hbf, List.nil_append]
  refine ⟨st, r2, hopen, hfilter, ?_⟩
  intro c hc
  rw [hfilter, List.mem_filter] at hc
  simpa using hc.2

theorem C9_Open_strips_blob_fields_witness :
    ∃ st r2, Open exampleEnv exampleConstants ShardReader.new "a.mr" 1
        ["data", "text", "data", "l", "text"] [] false = some (st, r2) ∧
      r2.selected_columns_ = ["data", "text", "data", "l", "text"].filter
        (fun c => decide (c ∉ get_blob_fields r2)) ∧
      ∀ c ∈ r2.selected_columns_, c ∉ get_blob_fields r2 :=
  C9_Open_strips_blob_fields exampleEnv exampleConstants exampleInit "a.mr" 1
    ["data", "text", "data", "l", "text"] [] false rfl

/-! ### Row-mode planning -/

theorem CheckIfColumnInIndex_frame (r : ShardReader) (columns : List String) :
    ∃ flag ids, CheckIfColumnInIndex r columns =
      { r with all_in_index_ := flag, column_schema_id_ := ids } := by
  unfold CheckIfColumnInIndex
  split
  · exact ⟨false, r.column_schema_id_, rfl⟩
  · dsimp only
    split
    · exact ⟨false, _, rfl⟩
    · exact ⟨r.all_in_index_, _, rfl⟩

theorem planningReader_frame (E : Env) (r : ShardReader) :
    ∃ flag ids, planningReader E r = { r with all_in_index_ := flag, column_schema_id_ := ids } := by
  obtain ⟨flag, ids, h⟩ := CheckIfColumnInIndex_frame r (GetAllColumns r)
  unfold planningReader
  rw [h]
  exact ⟨flag, _, rfl⟩

theorem u64_natCast (s : Nat) (hs : s < 2 ^ 31) : u64 (s : Int) = s := by
  rw [u64_of_lt _ (by omega) (by omega)]
  simp

theorem ConvertLabelToJson_reads (E : Env) (r : ShardReader) (fs : fstream) (s : Nat)
    (hs : s < 2 ^ 31) (columns : List String) (rows : List (List String)) (view : List IndexRow)
    (h : List.Forall₂ (RowReads E r fs columns) rows view) (offsets : List (List Nat))
    (column_values : List Json) :
    ConvertLabelToJson E r fs s columns rows offsets column_values =
      some (MSRStatus.SUCCESS,
        offsets ++ view.map (fun v => [s, v.ROW_GROUP_ID, v.PAGE_OFFSET_BLOB + kInt64Len,
          v.PAGE_OFFSET_BLOB_END]),
        column_values ++ view.map (fun v => v.labels)) := by
  induction h generalizing offsets column_values with
  | nil => simp [ConvertLabelToJson]
  | @cons row v rows view hrow _ ih =>
    obtain ⟨h0, _, h1, hb, h2, hl⟩ := hrow
    have ho : ConvertLabelToJson.offsets (s : Int) row =
        some [s, v.ROW_GROUP_ID, v.PAGE_OFFSET_BLOB + kInt64Len, v.PAGE_OFFSET_BLOB_END] := by
      unfold ConvertLabelToJson.offsets
      rw [h0, h1, h2]
      simp only [u64_natCast s hs, Nat.mod_eq_of_lt hb]
    unfold ConvertLabelToJson
    rw [ho, hl]
    simp only
    rw [ih]
    simp

theorem ReadAllRowsInShard_reads (E : Env) (K : Constants) (r : ShardReader) (s : Nat)
    (hs : s < 2 ^ 31) (sql : String) (columns : List String) (view : List IndexRow)
    (h : ShardReadsAs E K r columns sql s view) :
    ReadAllRowsInShard E K r s sql columns =
      some (MSRStatus.SUCCESS, view.map (IndexRow.offsets s), view.map (fun v => v.labels)) := by
  obtain ⟨db, file, rows, hdb, hfile, hexec, hgood, hrows⟩ := h
  unfold ReadAllRowsInShard
  rw [hdb, hfile]
  simp only [hexec]
  have hng : ¬ (¬ r.all_in_index_ = true ∧
      ¬ (if ¬ r.all_in_index_ = true then E.open_file file else ⟨[], false⟩).good = true) := by
    rintro ⟨h1, h2⟩
    rw [if_pos h1] at h2
    exact h2 (hgood (by simpa using h1))
  rw [if_neg hng, ConvertLabelToJson_reads E r _ s hs columns rows view hrows]
  simp [IndexRow.offsets]

theorem threads_reads (E : Env) (K : Constants) (r : ShardReader) (sql : String)
    (columns : List String) (view : Nat → List IndexRow) (ss : List Nat)
    (h : ∀ s ∈ ss, s < 2 ^ 31 ∧ ShardReadsAs E K r columns sql s (view s)) :
    ReadAllRowGroup.threads E K r sql columns ss =
      some (ss.map (fun s => (view s).map (IndexRow.offsets s)),
            ss.map (fun s => (view s).map (fun v => v.labels))) := by
  induction ss with
  | nil => rfl
  | cons s rest ih =>
    unfold ReadAllRowGroup.threads
    rw [ReadAllRowsInShard_reads E K r s (h s (List.mem_cons_self _ _)).1 sql columns (view s)
      (h s (List.mem_cons_self _ _)).2, ih (fun t ht => h t (List.mem_cons_of_mem _ ht))]
    rfl

theorem InsertTask_list (t : ShardTask) (shard_id group_id : Int) (address : List Nat)
    (labels : Json) :
    (t.InsertTask shard_id group_id address labels) =
      ⟨t.task_list_ ++ [((shard_id, group_id), address, labels)], t.permutation_⟩ := rfl

theorem rowLoop_eq (s : Nat) (hs : s < 2 ^ 31) (view : List IndexRow)
    (hG : ∀ v ∈ view, v.ROW_GROUP_ID < 2 ^ 31) (ids : List Nat) (hids : ∀ i ∈ ids, i < view.length)
    (t : ShardTask) :
    CreateTasksByRow.rowLoop (view.map (IndexRow.offsets s)) (view.map (fun v => v.labels)) ids t =
      some ⟨t.task_list_ ++ ids.map (fun i => (view.getD i ⟨0, 0, 0, Json.null⟩).task s),
            t.permutation_⟩ := by
  induction ids generalizing t with
  | nil => simp [CreateTasksByRow.rowLoop]
  | cons i rest ih =>
    have hi : i < view.length := hids i (List.mem_cons_self _ _)
    have hv : view[i]? = some (view.getD i ⟨0, 0, 0, Json.null⟩) := by
      rw [List.getD_eq_getElem _ _ hi]
      exact List.getElem?_eq_getElem hi
    have hmem : view.getD i ⟨0, 0, 0, Json.null⟩ ∈ view := by
      rw [List.getD_eq_getElem _ _ hi]
      exact List.getElem_mem _
    unfold CreateTasksByRow.rowLoop
    simp only [List.getElem?_map, hv, Option.map_some', IndexRow.offsets, List.map_cons]
    simp only [List.getElem?_cons_zero, List.getElem?_cons_succ]
    rw [ih (fun j hj => hids j (List.mem_cons_of_mem _ hj))]
    generalize view.getD i ⟨0, 0, 0, Json.null⟩ = vi at hv hmem ⊢
    have h1 : toInt32 (s : Int) = s := toInt32_of_lt _ (by omega) (by omega)
    have h2 : toInt32 (vi.ROW_GROUP_ID : Int) = vi.ROW_GROUP_ID :=
      toInt32_of_lt _ (by omega) (by have := hG _ hmem; omega)
    simp only [InsertTask_list, h1, h2, IndexRow.task, List.append_assoc, List.singleton_append]

theorem map_getD_range_comp {α β : Type} (l : List α) (d : α) (f : α → β) :
    (List.range l.length).map (fun i => f (l.getD i d)) = l.map f := by
  have h := congrArg (List.map f) (map_getD_range l d)
  rw [List.map_map] at h
  exact h

theorem rowLoop_range (s : Nat) (hs : s < 2 ^ 31) (view : List IndexRow)
    (hG : ∀ v ∈ view, v.ROW_GROUP_ID < 2 ^ 31) (t : ShardTask) :
    CreateTasksByRow.rowLoop (view.map (IndexRow.offsets s)) (view.map (fun v => v.labels))
        (List.range (view.map (IndexRow.offsets s)).length) t =
      some ⟨t.task_list_ ++ view.map (IndexRow.task s), t.permutation_⟩ := by
  rw [rowLoop_eq s hs view hG _ (by simp) t, List.length_map,
    map_getD_range_comp view ⟨0, 0, 0, Json.null⟩ (IndexRow.task s)]

theorem shardLoop_rows (n : Nat) (hn : n ≤ 2 ^ 31) (view : Nat → List IndexRow)
    (hG : ∀ s < n, ∀ v ∈ view s, v.ROW_GROUP_ID < 2 ^ 31) (ids : List Nat)
    (hids : ∀ s ∈ ids, s < n) (t : ShardTask) :
    CreateTasksByRow.shardLoop ((List.range n).map (fun s => (view s).map (IndexRow.offsets s)))
        ((List.range n).map (fun s => (view s).map (fun v => v.labels))) ids t =
      some ⟨t.task_list_ ++ ids.flatMap (fun s => (view s).map (IndexRow.task s)),
            t.permutation_⟩ := by
  induction ids generalizing t with
  | nil => simp [CreateTasksByRow.shardLoop]
  | cons s rest ih =>
    have hsn : s < n := hids s (List.mem_cons_self _ _)
    unfold CreateTasksByRow.shardLoop
    simp only [List.getElem?_map, List.getElem?_range hsn, Option.map_some']
    rw [rowLoop_range s (by omega) (view s) (hG s hsn) t]
    simp only
    rw [ih (fun j hj => hids j (List.mem_cons_of_mem _ hj))]
    simp only [List.flatMap_cons, List.append_assoc]

theorem forall₂_right_mem {α β : Type} (R : α → β → Prop) (l1 : List α) (l2 : List β)
    (h : List.Forall₂ R l1 l2) : ∀ b ∈ l2, ∃ a ∈ l1, R a b := by
  induction h with
  | nil => intro b hb; cases hb
  | cons hab _ ih =>
    intro b hb
    rcases List.mem_cons.mp hb with rfl | hb
    · exact ⟨_, List.mem_cons_self _ _, hab⟩
    · obtain ⟨a, ha, hr⟩ := ih b hb
      exact ⟨a, List.mem_cons_of_mem _ ha, hr⟩

theorem ShardReadsAs_group_bound (E : Env) (K : Constants) (r : ShardReader)
    (columns : List String) (sql : String) (s : Nat) (view : List IndexRow)
    (h : ShardReadsAs E K r columns sql s view) : ∀ v ∈ view, v.ROW_GROUP_ID < 2 ^ 31 := by
  obtain ⟨_, _, rows, _, _, _, _, hrows⟩ := h
  intro v hv
  obtain ⟨_, _, hr⟩ := forall₂_right_mem _ _ _ hrows v hv
  exact hr.2.1

theorem CreateTasksByRow_default (E : Env) (K : Constants) (r : ShardReader)
    (summary : List SummaryEntry) (operators : List ShardOperator) (view : Nat → List IndexRow)
    (hcap : r.shard_count_ ≤ K.kMaxShardCount) (hK : K.kMaxShardCount < 2 ^ 31)
    (hreads : PlanReads E K r view) :
    CreateTasksByRow E K r summary operators =
      some (MSRStatus.SUCCESS,
        { planningReader E r with
          tasks_ := ⟨r.tasks_.task_list_ ++ defaultPlan r.shard_count_.toNat view,
                     r.tasks_.permutation_⟩ }) := by
  obtain ⟨sql, hsql, hshards⟩ := hreads
  obtain ⟨flag, ids, hframe⟩ := CheckIfColumnInIndex_frame r (GetAllColumns r)
  obtain ⟨flag2, ids2, hframe2⟩ := planningReader_frame E r
  have hcount : (CheckIfColumnInIndex r (GetAllColumns r)).shard_count_ = r.shard_count_ := by
    rw [hframe]
  have hn : r.shard_count_.toNat ≤ 2 ^ 31 := by omega
  have hthreads := threads_reads E K (planningReader E r) sql (GetAllColumns r) view
    (List.range r.shard_count_.toNat)
    (fun s hs => ⟨by have := List.mem_range.mp hs; omega, hshards s (List.mem_range.mp hs)⟩)
  have hloop := shardLoop_rows r.shard_count_.toNat hn view
    (fun s hs => ShardReadsAs_group_bound E K _ _ sql s (view s) (hshards s hs))
    (List.range r.shard_count_.toNat) (fun s hs => List.mem_range.mp hs) r.tasks_
  have htasks : (CheckIfColumnInIndex r (GetAllColumns r)).tasks_ = r.tasks_ := by
    rw [hframe]
  rw [← hcount] at hthreads hloop
  rw [← htasks] at hloop
  unfold planningQuery at hsql
  unfold planningReader at hthreads
  unfold CreateTasksByRow ReadAllRowGroup
  simp only [hsql, hthreads]
  rw [if_pos (by rw [hcount]; exact hcap), hloop]
  simp only [defaultPlan, planningReader, hcount, htasks]

/-- Row mode without operators: `CreateTasks` returns `SUCCESS` whatever status
`CreateTasksByRow` returned. -/
theorem CreateTasks_row_no_operators (E : Env) (K : Constants) (r r2 : ShardReader)
    (summary : List SummaryEntry) (st : MSRStatus) (hrow : r.block_reader_ = false)
    (hby : CreateTasksByRow E K (CheckIfColumnInIndex r (GetAllColumns r)) summary [] =
      some (st, r2)) :
    CreateTasks E K r summary [] = some (MSRStatus.SUCCESS, CreateTasks.finish r2) := by
  have hcat : CreateTasksByCategory E K r summary [] =
      some (-1, CheckIfColumnInIndex r (GetAllColumns r)) := by
    unfold CreateTasksByCategory
    rfl
  have hbuild : CreateTasks.build E K r summary [] = some (false, r2) := by
    unfold CreateTasks.build
    rw [hrow, hcat]
    simp only [Bool.false_eq_true, if_false, hby]
    rfl
  unfold CreateTasks
  rw [hbuild]
  rfl

theorem PlanFrame.frame_refl (r : ShardReader) : PlanFrame r r := ⟨_, _, _, rfl⟩

theorem PlanFrame.frame_trans {r r1 r2 : ShardReader} (h1 : PlanFrame r r1) (h2 : PlanFrame r1 r2) :
    PlanFrame r r2 := by
  obtain ⟨a, b, c, rfl⟩ := h1
  obtain ⟨a2, b2, c2, rfl⟩ := h2
  exact ⟨a2, b2, c2, rfl⟩

theorem PlanFrame.frame_ids (r : ShardReader) (ids : List (String × Nat)) :
    PlanFrame r { r with column_schema_id_ := ids } := ⟨_, _, _, rfl⟩

theorem PlanFrame.frame_tasks (r : ShardReader) (tasks : ShardTask) :
    PlanFrame r { r with tasks_ := tasks } := ⟨_, _, _, rfl⟩

theorem PlanFrame.same_block_reader {r r1 : ShardReader} (h : PlanFrame r r1) :
    r1.block_reader_ = r.block_reader_ := by
  obtain ⟨_, _, _, rfl⟩ := h
  rfl

theorem CheckIfColumnInIndex_planFrame (r : ShardReader) (columns : List String) :
    PlanFrame r (CheckIfColumnInIndex r columns) := by
  obtain ⟨flag, ids, h⟩ := CheckIfColumnInIndex_frame r columns
  rw [h]
  exact ⟨_, _, _, rfl⟩

theorem GetImageOffset_frame (E : Env) (K : Constants) (r r1 : ShardReader) (page_id shard_id : Int)
    (criteria : Criteria) (res : List (List Nat))
    (h : GetImageOffset E K r page_id shard_id criteria = some (res, r1)) : PlanFrame r r1 := by
  unfold GetImageOffset at h
  split at h
  · dsimp only at h
    split at h
    · cases h
    · cases h
      exact PlanFrame.frame_ids _ _
    · simp only [Option.map_eq_some'] at h
      obtain ⟨x, _, hx⟩ := h
      cases hx
      exact PlanFrame.frame_ids _ _
  · cases h

theorem GetLabelsFromPage_frame (E : Env) (K : Constants) (r r1 : ShardReader)
    (page_id shard_id : Int) (columns : List String) (criteria : Criteria)
    (res : MSRStatus × List Json)
    (h : GetLabelsFromPage E K r page_id shard_id columns criteria = some (res, r1)) :
    PlanFrame r r1 := by
  unfold GetLabelsFromPage at h
  split at h
  · cases h
  · dsimp only at h
    split at h
    · split at h
      · cases h
      · cases h
        exact PlanFrame.frame_ids _ _
      · simp only [Option.map_eq_some'] at h
        obtain ⟨x, _, hx⟩ := h
        cases hx
        exact PlanFrame.frame_ids _ _
    · split at h
      · cases h
      · cases h
        exact PlanFrame.frame_refl _
      · simp only [Option.map_eq_some'] at h
        obtain ⟨x, _, hx⟩ := h
        cases hx
        exact PlanFrame.frame_refl _

theorem GetLabels_frame (E : Env) (K : Constants) (r r1 : ShardReader)
    (page_id shard_id : Int) (columns : List String) (criteria : Criteria)
    (res : MSRStatus × List Json)
    (h : GetLabels E K r page_id shard_id columns criteria = some (res, r1)) :
    PlanFrame r r1 := by
  unfold GetLabels at h
  split at h
  · split at h
    · cases h
    · dsimp only at h
      split at h
      · cases h
      · cases h
        exact PlanFrame.frame_ids _ _
      · simp only [Option.map_eq_some'] at h
        obtain ⟨x, _, hx⟩ := h
        cases hx
        exact PlanFrame.frame_ids _ _
  · exact GetLabelsFromPage_frame E K r r1 page_id shard_id columns criteria res h

theorem ReadRowGroupCriteria_frame (E : Env) (K : Constants) (r r1 : ShardReader)
    (group_id shard_id : Int) (criteria : Criteria) (columns : List String)
    (brief : ROW_GROUP_BRIEF)
    (h : ReadRowGroupCriteria E K r group_id shard_id criteria columns = some (brief, r1)) :
    PlanFrame r r1 := by
  unfold ReadRowGroupCriteria at h
  split at h
  · cases h
    exact PlanFrame.frame_refl _
  · split at h
    · cases h
      exact PlanFrame.frame_refl _
    · split at h
      · cases h
      · dsimp only at h
        split at h
        · cases h
        · rename_i hio
          split at h
          · cases h
          · rename_i hl
            cases h
            exact (GetImageOffset_frame _ _ _ _ _ _ _ _ hio).frame_trans (GetLabels_frame _ _ _ _ _ _ _ _ _ hl)
          · rename_i hl
            cases h
            exact (GetImageOffset_frame _ _ _ _ _ _ _ _ hio).frame_trans (GetLabels_frame _ _ _ _ _ _ _ _ _ hl)

theorem groupLoop_frame (E : Env) (K : Constants) (criteria : Criteria) (columns : List String)
    (summary : List SummaryEntry) (r r1 : ShardReader) (tasks : ShardTask)
    (res : Option ShardTask)
    (h : CreateTasksByCategory.groupLoop E K criteria columns summary r tasks = some (res, r1)) :
    PlanFrame r r1 := by
  induction summary generalizing r tasks with
  | nil =>
    unfold CreateTasksByCategory.groupLoop at h
    cases h
    exact PlanFrame.frame_refl _
  | cons rg rest ih =>
    unfold CreateTasksByCategory.groupLoop at h
    dsimp only at h
    split at h
    · cases h
    · rename_i hc
      split at h
      · cases h
      · exact (ReadRowGroupCriteria_frame _ _ _ _ _ _ _ _ _ hc).frame_trans (ih _ _ h)
    · rename_i hc
      cases h
      exact ReadRowGroupCriteria_frame _ _ _ _ _ _ _ _ _ hc

theorem categoryLoop_frame (E : Env) (K : Constants) (summary : List SummaryEntry)
    (columns : List String) (categories : List Criteria) (r r1 : ShardReader)
    (res : Option (List ShardTask))
    (h : CreateTasksByCategory.categoryLoop E K summary columns categories r = some (res, r1)) :
    PlanFrame r r1 := by
  induction categories generalizing r res with
  | nil =>
    unfold CreateTasksByCategory.categoryLoop at h
    cases h
    exact PlanFrame.frame_refl _
  | cons c rest ih =>
    unfold CreateTasksByCategory.categoryLoop at h
    split at h
    · cases h
    · rename_i hg
      cases h
      exact groupLoop_frame _ _ _ _ _ _ _ _ _ hg
    · rename_i hg
      split at h
      · cases h
      · rename_i hc
        cases h
        exact (groupLoop_frame _ _ _ _ _ _ _ _ _ hg).frame_trans (ih _ _ hc)
      · rename_i hc
        cases h
        exact (groupLoop_frame _ _ _ _ _ _ _ _ _ hg).frame_trans (ih _ _ hc)

theorem CreateTasksByCategory_frame (E : Env) (K : Constants) (r r1 : ShardReader)
    (summary : List SummaryEntry) (operators : List ShardOperator) (category_operator : Int)
    (h : CreateTasksByCategory E K r summary operators = some (category_operator, r1)) :
    PlanFrame r r1 := by
  unfold CreateTasksByCategory at h
  dsimp only at h
  split at h
  · cases h
    exact CheckIfColumnInIndex_planFrame _ _
  · split at h
    · split at h
      · cases h
      · rename_i hc
        cases h
        exact (CheckIfColumnInIndex_planFrame _ _).frame_trans (categoryLoop_frame _ _ _ _ _ _ _ _ hc)
      · rename_i hc
        cases h
        exact ((CheckIfColumnInIndex_planFrame _ _).frame_trans
          (categoryLoop_frame _ _ _ _ _ _ _ _ hc)).frame_trans (PlanFrame.frame_tasks _ _)
    · cases h

theorem ReadAllRowGroup_frame (E : Env) (K : Constants) (r r1 : ShardReader)
    (columns : List String) (st : MSRStatus) (offsets : List (List (List Nat)))
    (column_values : List (List Json))
    (h : ReadAllRowGroup E K r columns = some (st, offsets, column_values, r1)) :
    PlanFrame r r1 := by
  unfold ReadAllRowGroup at h
  dsimp only at h
  split at h
  · cases h
    exact PlanFrame.frame_ids _ _
  · split at h
    · cases h
    · cases h
      exact PlanFrame.frame_ids _ _

theorem CreateTasksByRow_frame (E : Env) (K : Constants) (r r1 : ShardReader)
    (summary : List SummaryEntry) (operators : List ShardOperator) (st : MSRStatus)
    (h : CreateTasksByRow E K r summary operators = some (st, r1)) : PlanFrame r r1 := by
  unfold CreateTasksByRow at h
  dsimp only at h
  split at h
  · cases h
  · rename_i hr
    have hf := (CheckIfColumnInIndex_planFrame r (GetAllColumns r)).frame_trans
      (ReadAllRowGroup_frame _ _ _ _ _ _ _ _ hr)
    split at h
    · split at h
      · cases h
      · cases h
        exact hf.frame_trans (PlanFrame.frame_tasks _ _)
    · cases h
      exact hf
  · rename_i hr
    cases h
    exact (CheckIfColumnInIndex_planFrame r (GetAllColumns r)).frame_trans
      (ReadAllRowGroup_frame _ _ _ _ _ _ _ _ hr)

theorem CreateTasksByBlock_frame (r : ShardReader) (summary : List SummaryEntry)
    (operators : List ShardOperator) :
    PlanFrame r (CreateTasksByBlock r summary operators).2 :=
  (CheckIfColumnInIndex_planFrame r (GetAllColumns r)).frame_trans (PlanFrame.frame_tasks _ _)

theorem build_frame (E : Env) (K : Constants) (r r1 : ShardReader)
    (summary : List SummaryEntry) (operators : List ShardOperator) (failed : Bool)
    (h : CreateTasks.build E K r summary operators = some (failed, r1)) : PlanFrame r r1 := by
  unfold CreateTasks.build at h
  split at h
  · cases h
    exact CreateTasksByBlock_frame r summary operators
  · split at h
    · cases h
    · rename_i hc
      dsimp only at h
      have hf := CreateTasksByCategory_frame _ _ _ _ _ _ _ hc
      split at h
      · simp only [Option.map_map, Option.map_eq_some'] at h
        obtain ⟨x, hx, hx2⟩ := h
        cases hx2
        obtain ⟨st, r2⟩ := x
        exact hf.frame_trans (CreateTasksByRow_frame _ _ _ _ _ _ _ hx)
      · simp only [Option.map_some'] at h
        cases h
        exact hf

/-- A successful `CreateTasks` ends in `CreateTasks.finish` of a reader in the mode of `r`. -/
theorem CreateTasks_success (E : Env) (K : Constants) (r r1 : ShardReader)
    (summary : List SummaryEntry) (operators : List ShardOperator)
    (h : CreateTasks E K r summary operators = some (MSRStatus.SUCCESS, r1)) :
    ∃ r0, r1 = CreateTasks.finish r0 ∧ r0.block_reader_ = r.block_reader_ := by
  unfold CreateTasks at h
  split at h
  · cases h
  · cases h
  · rename_i hb
    have hf := build_frame _ _ _ _ _ _ _ hb
    split at h
    · cases h
      exact ⟨_, rfl, hf.same_block_reader⟩
    · cases h

/-! ### Default planning -/

theorem CreateTasks_row_default (E : Env) (K : Constants) (r : ShardReader)
    (summary : List SummaryEntry) (view : Nat → List IndexRow)
    (hrow : r.block_reader_ = false)
    (hcap : r.shard_count_ ≤ K.kMaxShardCount) (hK : K.kMaxShardCount < 2 ^ 31)
    (hreads : DefaultPlanReads E K r view) :
    ∃ r0, r0.block_reader_ = false ∧
      r0.tasks_ = ⟨r.tasks_.task_list_ ++ defaultPlan r.shard_count_.toNat view,
                   r.tasks_.permutation_⟩ ∧
      CreateTasks E K r summary [] = some (MSRStatus.SUCCESS, CreateTasks.finish r0) := by
  obtain ⟨flag, ids, hframe⟩ := CheckIfColumnInIndex_frame r (GetAllColumns r)
  have hcount : (CheckIfColumnInIndex r (GetAllColumns r)).shard_count_ = r.shard_count_ := by
    rw [hframe]
  have htasks : (CheckIfColumnInIndex r (GetAllColumns r)).tasks_ = r.tasks_ := by
    rw [hframe]
  have hby := CreateTasksByRow_default E K (CheckIfColumnInIndex r (GetAllColumns r)) summary []
    view (by rw [hcount]; exact hcap) hK hreads
  have hfin := CreateTasks_row_no_operators E K r _ summary _ hrow hby
  have hfr := (CheckIfColumnInIndex_planFrame r (GetAllColumns r)).frame_trans
    (CreateTasksByRow_frame _ _ _ _ _ _ _ hby)
  refine ⟨_, ?_, ?_, hfin⟩
  · rw [hfr.same_block_reader, hrow]
  · rw [hcount, htasks]

theorem planReads : DefaultPlanReads planEnv exampleConstants planReader planView := by
  refine ⟨"SELECT ROW_GROUP_ID, PAGE_OFFSET_BLOB, PAGE_OFFSET_BLOB_END,l_0 FROM INDEXES ORDER BY ROW_ID ;", rfl, ?_⟩
  intro s hs
  have hs2 : s < 2 := hs
  interval_cases s
  · exact ⟨"a.mr.db", "a.mr", _, rfl, rfl, rfl, (by intro h; cases h),
      List.Forall₂.cons ⟨rfl, by decide, rfl, by decide, rfl, rfl⟩
        (List.Forall₂.cons ⟨rfl, by decide, rfl, by decide, rfl, rfl⟩ List.Forall₂.nil)⟩
  · exact ⟨"b.mr.db", "b.mr", _, rfl, rfl, rfl, (by intro h; cases h),
      List.Forall₂.cons ⟨rfl, by decide, rfl, by decide, rfl, rfl⟩
        (List.Forall₂.cons ⟨rfl, by decide, rfl, by decide, rfl, rfl⟩ List.Forall₂.nil)⟩

theorem foldl_InsertTask_block (summary : List SummaryEntry) (t : ShardTask) :
    summary.foldl (fun tasks rg => tasks.InsertTask rg.1 rg.2.1 [rg.2.2.2] Json.null) t =
      ⟨t.task_list_ ++ summary.map (fun rg => ((rg.1, rg.2.1), [rg.2.2.2], Json.null)),
       t.permutation_⟩ := by
  induction summary generalizing t with
  | nil => simp
  | cons rg rest ih =>
    rw [List.foldl_cons, ih, InsertTask_list]
    simp

theorem sizeOfRows_block (summary : List SummaryEntry) :
    (((((summary.map (fun rg => (((rg.1, rg.2.1), [rg.2.2.2], Json.null) : Task))).map
      (fun task => task.2.1.headD 0)).sum : Nat)) : Int) =
        (summary.map (fun rg => (rg.2.2.2 : Int))).sum := by
  induction summary with
  | nil => simp
  | cons rg rest ih =>
    simp only [List.map_cons, List.sum_cons, List.headD_cons]
    rw [Nat.cast_add, ih]

theorem CreateTasks_block_default (E : Env) (K : Constants) (r : ShardReader)
    (summary : List SummaryEntry) (hblock : r.block_reader_ = true) :
    ∃ r0, r0.block_reader_ = true ∧
      r0.tasks_ = ⟨r.tasks_.task_list_ ++
          summary.map (fun rg => ((rg.1, rg.2.1), [rg.2.2.2], Json.null)), r.tasks_.permutation_⟩ ∧
      CreateTasks E K r summary [] = some (MSRStatus.SUCCESS, CreateTasks.finish r0) := by
  obtain ⟨flag, ids, hframe⟩ := CheckIfColumnInIndex_frame r (GetAllColumns r)
  have htasks : (CheckIfColumnInIndex r (GetAllColumns r)).tasks_ = r.tasks_ := by rw [hframe]
  have hbuild : CreateTasks.build E K r summary [] =
      some (false, (CreateTasksByBlock r summary []).2) := by
    unfold CreateTasks.build
    rw [if_pos hblock]
  refine ⟨(CreateTasksByBlock r summary []).2, ?_, ?_, ?_⟩
  · rw [(CreateTasksByBlock_frame r summary []).same_block_reader, hblock]
  · unfold CreateTasksByBlock
    simp only [foldl_InsertTask_block, htasks]
  · unfold CreateTasks
    rw [hbuild]
    rfl

theorem finish_block (r0 : ShardReader) (tasks : List Task) (hblock : r0.block_reader_ = true)
    (ht : r0.tasks_ = ⟨tasks, []⟩) :
    (CreateTasks.finish r0).tasks_.task_list_ = tasks ∧
    (CreateTasks.finish r0).num_blocks_ = toInt32 (tasks.length : Int) ∧
    (CreateTasks.finish r0).num_rows_ =
      toInt32 ((tasks.map (fun task => task.2.1.headD 0)).sum : Nat) := by
  simp [CreateTasks.finish, ht, hblock, ShardTask.MakePerm, ShardTask.Size, ShardTask.SizeOfRows]

theorem finish_counters (r0 : ShardReader) :
    (r0.block_reader_ = false →
      (CreateTasks.finish r0).num_rows_ = toInt32 ((CreateTasks.finish r0).tasks_.Size : Int) ∧
        (CreateTasks.finish r0).num_blocks_ = 0) ∧
    (r0.block_reader_ = true →
      (CreateTasks.finish r0).num_rows_ =
          toInt32 ((CreateTasks.finish r0).tasks_.SizeOfRows : Int) ∧
        (CreateTasks.finish r0).num_blocks_ =
          toInt32 ((CreateTasks.finish r0).tasks_.Size : Int)) := by
  constructor <;> intro h <;> simp [CreateTasks.finish, h]

/-- C6 (amended). Block-mode planning: for every row-group summary, `CreateTasks`
with `block_reader_` true and no operators, starting from an empty task list, returns
`SUCCESS` with exactly one task per summary entry, in summary order, each
`((shard_id, group_id), [row_count], null labels)`; afterwards `num_blocks_` is the
number of summary entries (`tasks_.Size()`) and `num_rows_` the sum of the entries'
row counts (`tasks_.SizeOfRows()`), each converted to `int`: the number itself when
it is below `2^31`. In row mode, whenever `CreateTasks` returns `SUCCESS` (with any
operators), `num_rows_` is `tasks_.Size()` converted to `int` (the size itself below
`2^31`) and `num_blocks_ = 0`; and without operators it does return `SUCCESS` once
`CreateTasksByRow` has returned. -/
theorem C6_block_plan_and_counters (E : Env) (K : Constants) (r : ShardReader)
    (summary : List SummaryEntry) :
    (r.block_reader_ = true → r.tasks_ = ⟨[], []⟩ →
      ∃ r1, CreateTasks E K r summary [] = some (MSRStatus.SUCCESS, r1) ∧
        r1.tasks_.task_list_ = summary.map (fun rg => ((rg.1, rg.2.1), [rg.2.2.2], Json.null)) ∧
        r1.num_blocks_ = toInt32 (summary.length : Int) ∧
        r1.num_blocks_ = toInt32 (r1.tasks_.Size : Int) ∧
        r1.num_rows_ = toInt32 (summary.map (fun rg => (rg.2.2.2 : Int))).sum ∧
        r1.num_rows_ = toInt32 (r1.tasks_.SizeOfRows : Int) ∧
        ((summary.length : Int) < 2 ^ 31 → r1.num_blocks_ = (summary.length : Int)) ∧
        ((summary.map (fun rg => (rg.2.2.2 : Int))).sum < 2 ^ 31 →
          r1.num_rows_ = (summary.map (fun rg => (rg.2.2.2 : Int))).sum)) ∧
    (r.block_reader_ = false →
      (∀ operators r1, CreateTasks E K r summary operators = some (MSRStatus.SUCCESS, r1) →
        r1.num_rows_ = toInt32 (r1.tasks_.Size : Int) ∧ r1.num_blocks_ = 0 ∧
        ((r1.tasks_.Size : Int) < 2 ^ 31 → r1.num_rows_ = (r1.tasks_.Size : Int))) ∧
      (∀ st r2, CreateTasksByRow E K (CheckIfColumnInIndex r (GetAllColumns r)) summary [] =
          some (st, r2) →
        ∃ r1, CreateTasks E K r summary [] = some (MSRStatus.SUCCESS, r1) ∧
          r1.num_rows_ = toInt32 (r1.tasks_.Size : Int) ∧ r1.num_blocks_ = 0)) := by
  constructor
  · intro hblock hempty
    obtain ⟨r0, hb, ht, hct⟩ := CreateTasks_block_default E K r summary hblock
    rw [hempty, List.nil_append] at ht
    obtain ⟨h1, h2, h3⟩ := finish_block r0 _ hb ht
    obtain ⟨h4, h5⟩ := (finish_counters r0).2 hb
    rw [List.length_map] at h2
    rw [sizeOfRows_block summary] at h3
    refine ⟨_, hct, h1, h2, h5, h3, h4, ?_, ?_⟩
    · intro hlt
      rw [h2]
      exact toInt32_of_lt _ (Int.natCast_nonneg _) hlt
    · intro hlt
      rw [h3]
      refine toInt32_of_lt _ ?_ hlt
      rw [← sizeOfRows_block summary]
      exact Int.natCast_nonneg _
  · intro hrow
    constructor
    · intro operators r1 hct
      obtain ⟨r0, rfl, hb⟩ := CreateTasks_success E K r r1 summary operators hct
      obtain ⟨h1, h2⟩ := (finish_counters r0).1 (hb.trans hrow)
      refine ⟨h1, h2, ?_⟩
      intro hlt
      rw [h1]
      exact toInt32_of_lt _ (Int.natCast_nonneg _) hlt
    · intro st r2 hby
      have hct := CreateTasks_row_no_operators E K r r2 summary st hrow hby
      obtain ⟨r0, h0, hb⟩ := CreateTasks_success E K r _ summary [] hct
      refine ⟨_, hct, ?_⟩
      rw [h0]
      exact (finish_counters r0).1 (hb.trans hrow)

theorem C6_block_plan_and_counters_witness :
    (∃ r1, CreateTasks exampleEnv exampleConstants { exampleInit with block_reader_ := true }
        [(0, 0, 0, 3)] [] = some (MSRStatus.SUCCESS, r1) ∧
      r1.tasks_.task_list_ = [((0, 0), [3], Json.null)] ∧
      r1.num_blocks_ = toInt32 1 ∧ r1.num_blocks_ = toInt32 (r1.tasks_.Size : Int) ∧
      r1.num_rows_ = toInt32 3 ∧ r1.num_rows_ = toInt32 (r1.tasks_.SizeOfRows : Int) ∧
      ((1 : Int) < 2 ^ 31 → r1.num_blocks_ = 1) ∧ ((3 : Int) < 2 ^ 31 → r1.num_rows_ = 3)) ∧
    (∃ r1, CreateTasks planEnv exampleConstants planReader [] [] = some (MSRStatus.SUCCESS, r1) ∧
      r1.num_rows_ = toInt32 (r1.tasks_.Size : Int) ∧ r1.num_blocks_ = 0) :=
  ⟨(C6_block_plan_and_counters exampleEnv exampleConstants
      { exampleInit with block_reader_ := true } [(0, 0, 0, 3)]).1 rfl rfl,
   ((C6_block_plan_and_counters planEnv exampleConstants planReader []).2 rfl).2 _ _ rfl⟩

/-- C6 as stated fails on a summary whose row counts sum to `2^31`: block-mode
planning of the one entry `(0, 0, 0, 2^31)` returns `SUCCESS` with the task
`((0, 0), [2^31], null)`, `tasks_.SizeOfRows() = 2^31` and `num_rows_ = -2^31`, since
`num_rows_` is an `int`. -/
theorem C6_counterexample :
    ∃ r1, CreateTasks exampleEnv exampleConstants { exampleInit with block_reader_ := true }
        hugeBlockSummary [] = some (MSRStatus.SUCCESS, r1) ∧
      r1.tasks_.task_list_ = [((0, 0), [2 ^ 31], Json.null)] ∧
      r1.tasks_.SizeOfRows = 2 ^ 31 ∧
      (hugeBlockSummary.map (fun rg => (rg.2.2.2 : Int))).sum = 2 ^ 31 ∧
      r1.num_rows_ = -(2 ^ 31) ∧ r1.num_blocks_ = 1 :=
  ⟨_, rfl, rfl, by decide, by decide, by decide, by decide⟩

/-! ### Capacity -/

theorem PlanFrame.same_shard_count {r r1 : ShardReader} (h : PlanFrame r r1) :
    r1.shard_count_ = r.shard_count_ := by
  obtain ⟨_, _, _, rfl⟩ := h
  rfl

theorem PlanFrame.same_n_consumer {r r1 : ShardReader} (h : PlanFrame r r1) :
    r1.n_consumer_ = r.n_consumer_ := by
  obtain ⟨_, _, _, rfl⟩ := h
  rfl

theorem CreateTasksByRow_over_capacity (E : Env) (K : Constants) (r r1 : ShardReader)
    (summary : List SummaryEntry) (operators : List ShardOperator) (st : MSRStatus)
    (hcap : K.kMaxShardCount < r.shard_count_)
    (h : CreateTasksByRow E K r summary operators = some (st, r1)) : st = MSRStatus.FAILED := by
  unfold CreateTasksByRow at h
  dsimp only at h
  split at h
  · cases h
  · rename_i hr
    have hf := (CheckIfColumnInIndex_planFrame r (GetAllColumns r)).frame_trans
      (ReadAllRowGroup_frame _ _ _ _ _ _ _ _ hr)
    rw [if_neg (by rw [hf.same_shard_count]; omega)] at h
    cases h
    rfl
  · cases h
    rfl

/-- C10 (the code at the failing inputs). In row mode without operators, for a
reader whose `shard_count_` exceeds `kMaxShardCount`: `CreateTasksByRow` returns
`FAILED`, and `CreateTasks`, which does not look at that status, returns `SUCCESS`;
`Launch` then returns `SUCCESS` as well (as a simple reader, and also with worker
threads when `n_consumer_` is valid). -/
theorem C10_capacity_failure_is_dropped (E : Env) (K : Constants) (r r2 : ShardReader)
    (st : MSRStatus) (hrow : r.block_reader_ = false) (hops : r.operators_ = [])
    (hcap : K.kMaxShardCount < r.shard_count_)
    (hn : 0 < r.n_consumer_ ∧ r.n_consumer_ ≤ K.kMaxConsumerCount)
    (hby : CreateTasksByRow E K (CheckIfColumnInIndex r (GetAllColumns r))
      (sortRowGroups (ReadRowGroupSummary K r.shard_header_)) [] = some (st, r2)) :
    st = MSRStatus.FAILED ∧
    (CreateTasks E K r (sortRowGroups (ReadRowGroupSummary K r.shard_header_)) []).map Prod.fst =
      some MSRStatus.SUCCESS ∧
    ∀ isSimpleReader, (Launch E K r isSimpleReader).map Prod.fst = some MSRStatus.SUCCESS := by
  have hf0 := CheckIfColumnInIndex_planFrame r (GetAllColumns r)
  have hst := CreateTasksByRow_over_capacity E K _ r2 _ [] st
    (by rw [hf0.same_shard_count]; exact hcap) hby
  have hct := CreateTasks_row_no_operators E K r r2 _ st hrow hby
  refine ⟨hst, by rw [hct]; rfl, ?_⟩
  intro isSimpleReader
  have hnc : (CreateTasks.finish r2).n_consumer_ = r.n_consumer_ :=
    (hf0.frame_trans (CreateTasksByRow_frame _ _ _ _ _ _ _ hby)).same_n_consumer
  unfold Launch
  rw [hops]
  simp only [hct]
  cases isSimpleReader with
  | true => rfl
  | false =>
    have h1 : ¬ (CreateTasks.finish r2).n_consumer_ < 0 := by rw [hnc]; omega
    have h2 : ¬ ((CreateTasks.finish r2).n_consumer_ ≤ 0 ∨
        (CreateTasks.finish r2).n_consumer_ > K.kMaxConsumerCount) := by rw [hnc]; omega
    simp only [Bool.false_eq_true, if_false, h1, h2]
    rfl

theorem wide_CreateTasksByRow_returns :
    (CreateTasksByRow wideEnv exampleConstants
      (CheckIfColumnInIndex wideReader (GetAllColumns wideReader))
      (sortRowGroups (ReadRowGroupSummary exampleConstants wideReader.shard_header_)) []).isSome =
        true := by
  decide!

theorem C10_capacity_failure_is_dropped_witness :
    exampleConstants.kMaxShardCount < wideReader.shard_count_ ∧
    (CreateTasks wideEnv exampleConstants wideReader
      (sortRowGroups (ReadRowGroupSummary exampleConstants wideReader.shard_header_)) []).map
        Prod.fst = some MSRStatus.SUCCESS ∧
    ∀ isSimpleReader, (Launch wideEnv exampleConstants wideReader isSimpleReader).map Prod.fst =
      some MSRStatus.SUCCESS := by
  obtain ⟨⟨st, r2⟩, h⟩ := Option.isSome_iff_exists.mp wide_CreateTasksByRow_returns
  exact ⟨by decide, (C10_capacity_failure_is_dropped wideEnv exampleConstants wideReader r2 st
    rfl rfl (by decide) (by decide) h).2⟩

/-! ### `ConsumerOneTask` -/

theorem examplePlanned_reached :
    ∃ r, Open exampleEnv exampleConstants ShardReader.new "a.mr" 1 ["text"] [] false =
        some (MSRStatus.SUCCESS, r) ∧
      Launch exampleEnv exampleConstants r false =
        some (MSRStatus.SUCCESS, ⟨examplePlanned, [Worker.idle]⟩) :=
  ⟨_, rfl, rfl⟩

theorem randomStream_congr (r1 r0 : ShardReader) (w : Nat)
    (h : r1.file_streams_random_[w]? = r0.file_streams_random_[w]?) (s : Int) :
    r1.randomStream w s = r0.randomStream w s := by
  unfold ShardReader.randomStream
  rw [h]

/-- The status and batch of `ConsumerOneTask` depend on the reader only through the
task list, the header, the sizes, the NLP flag, the selected columns and the streams
of the worker. -/
theorem ConsumerOneTask_congr (E : Env) (r1 r0 : ShardReader) (k : Int) (w : Nat)
    (h1 : r1.tasks_ = r0.tasks_) (h2 : r1.shard_header_ = r0.shard_header_)
    (h3 : r1.header_size_ = r0.header_size_) (h4 : r1.page_size_ = r0.page_size_)
    (h5 : r1.nlp_ = r0.nlp_) (h6 : r1.selected_columns_ = r0.selected_columns_)
    (h7 : r1.file_streams_random_[w]? = r0.file_streams_random_[w]?) :
    (ConsumerOneTask E r1 k w).map Prod.fst = (ConsumerOneTask E r0 k w).map Prod.fst := by
  unfold ConsumerOneTask
  simp only [h1, h2, h3, h4, h5, h6, randomStream_congr r1 r0 w h7]
  split
  · rfl
  · split
    · rfl
    · split
      · rfl
      · split
        · split
          · split
            · rfl
            · split
              · split
                · rfl
                · simp only [Option.map_map]
                  rfl
              · rfl
          · rfl
        · rfl

/-- What `ConsumerOneTask` does to the reader: nothing on success (and the batch is
one pair); on failure at most the close of one stream of the worker. -/
theorem ConsumerOneTask_reader (E : Env) (r r2 : ShardReader) (k : Int) (w : Nat)
    (st : MSRStatus) (b : Batch) (h : ConsumerOneTask E r k w = some ((st, b), r2)) :
    (st = MSRStatus.SUCCESS → r2 = r ∧ ∃ pair, b = [pair]) ∧
    (r2 = r ∨ ∃ s, r2 = r.closeRandomStream w s) := by
  unfold ConsumerOneTask at h
  split at h
  · cases h
    exact ⟨(by intro hh; cases hh), Or.inl rfl⟩
  · split at h
    · cases h
    · dsimp only at h
      split at h
      · cases h
        exact ⟨(by intro hh; cases hh), Or.inl rfl⟩
      · split at h
        · split at h
          · split at h
            · cases h
              exact ⟨(by intro hh; cases hh), Or.inr ⟨_, rfl⟩⟩
            · split at h
              · split at h
                · cases h
                  exact ⟨fun _ => ⟨rfl, _, rfl⟩, Or.inl rfl⟩
                · simp only [Option.map_eq_some'] at h
                  obtain ⟨m, _, hm⟩ := h
                  cases hm
                  exact ⟨fun _ => ⟨rfl, _, rfl⟩, Or.inl rfl⟩
              · cases h
                exact ⟨fun _ => ⟨rfl, _, rfl⟩, Or.inl rfl⟩
          · cases h
        · cases h

theorem closeRandomStream_other (r : ShardReader) (w w1 : Nat) (s : Int) (hne : w1 ≠ w) :
    (r.closeRandomStream w s).file_streams_random_[w1]? = r.file_streams_random_[w1]? := by
  unfold ShardReader.closeRandomStream
  simp only
  rw [List.getElem?_modify]
  simp [Ne.symm hne]

/-! ### The row-mode engine -/

theorem StaticSame.static_trans {r1 r2 r3 : ShardReader} (h1 : StaticSame r1 r2) (h2 : StaticSame r2 r3) :
    StaticSame r1 r3 :=
  ⟨h1.1.trans h2.1, h1.2.1.trans h2.2.1, h1.2.2.1.trans h2.2.2.1, h1.2.2.2.1.trans h2.2.2.2.1,
   h1.2.2.2.2.1.trans h2.2.2.2.2.1, h1.2.2.2.2.2.trans h2.2.2.2.2.2⟩

theorem StaticSame.static_refl (r : ShardReader) : StaticSame r r := ⟨rfl, rfl, rfl, rfl, rfl, rfl⟩

theorem RowInv.set_worker {E : Env} {r0 : ShardReader} {e : Engine} {pre : List Batch}
    (hinv : RowInv E r0 e pre) (w : Nat) (old : Worker) (hold : e.workers[w]? = some old)
    (s : Worker) (r1 : ShardReader) (hstatic : StaticSame r1 e.r)
    (hrow : r1.block_reader_ = false)
    (hother : ∀ w1, w1 ≠ w → r1.file_streams_random_[w1]? = e.r.file_streams_random_[w1]?)
    (hself : (∀ st, s ≠ Worker.exited st) →
      (∀ st, old ≠ Worker.exited st) ∧
        r1.file_streams_random_[w]? = e.r.file_streams_random_[w]?)
    (hmap : ∀ kv ∈ r1.delivery_map_, ProducedBy E r0 kv.1 kv.2)
    (hheld : ∀ k b, s = Worker.holding k b → ProducedBy E r0 k b)
    (hcount : r1.deliver_id_ = e.r.deliver_id_) :
    RowInv E r0 (e.setWorker w s r1) pre := by
  have hw : w < e.workers.length := by
    by_contra hge
    rw [List.getElem?_eq_none (by omega)] at hold
    cases hold
  have hget : ∀ w1, (e.workers.set w s)[w1]? = if w = w1 then some s else e.workers[w1]? := by
    intro w1
    rw [List.getElem?_set]
    by_cases h : w = w1
    · subst h
      simp [hw]
    · simp [h]
  refine ⟨hstatic.static_trans hinv.static, hrow, ?_, hmap, ?_, hcount.trans hinv.count, hinv.outs⟩
  · intro w1 hne
    simp only [Engine.setWorker, hget] at hne
    by_cases h : w = w1
    · subst h
      simp only [if_true] at hne
      have hs : ∀ st, s ≠ Worker.exited st := fun st hst => hne st (by rw [hst])
      obtain ⟨hold2, hstr⟩ := hself hs
      show r1.file_streams_random_[w]? = _
      rw [hstr]
      exact hinv.streams w (fun st hst => hold2 st (by rw [hold] at hst; exact Option.some.inj hst))
    · simp only [if_neg h] at hne
      show r1.file_streams_random_[w1]? = _
      rw [hother w1 (Ne.symm h)]
      exact hinv.streams w1 hne
  · intro w1 k b hk
    simp only [Engine.setWorker, hget] at hk
    by_cases h : w = w1
    · subst h
      simp only [if_true] at hk
      exact hheld k b (Option.some.inj hk)
    · simp only [if_neg h] at hk
      exact hinv.held w1 k b hk

theorem mapLookup_mem (m : List (Int × Batch)) (k : Int) (b : Batch)
    (h : mapLookup m k = some b) : (k, b) ∈ m := by
  unfold mapLookup at h
  simp only [Option.map_eq_some'] at h
  obtain ⟨kv, hfind, hb⟩ := h
  have hk := List.find?_some hfind
  have hmem := List.mem_of_find?_eq_some hfind
  simp only [beq_iff_eq] at hk
  obtain ⟨k1, b1⟩ := kv
  simp only at hk hb
  subst hk hb
  exact hmem

theorem RowInv_work (E : Env) (K : Constants) (r0 : ShardReader) (e e1 : Engine)
    (pre : List Batch) (w : Nat) (hinv : RowInv E r0 e pre)
    (hstep : ConsumerByRow.step E K e w = some e1) : RowInv E r0 e1 pre := by
  unfold ConsumerByRow.step at hstep
  split at hstep
  · -- idle: fetch a task id
    rename_i hidle
    dsimp only at hstep
    have hst1 : StaticSame { e.r with task_id_ := e.r.task_id_ + 1 } e.r := StaticSame.static_refl _
    split at hstep
    · cases hstep
      exact hinv.set_worker w _ hidle _ _ hst1 hinv.row (fun _ _ => rfl)
        (fun h => absurd rfl (h MSRStatus.FAILED)) hinv.map (fun k b h => by cases h) rfl
    · split at hstep
      · cases hstep
      · rename_i batch r2 hc
        cases hstep
        obtain ⟨hsucc, _⟩ := ConsumerOneTask_reader E _ _ _ _ _ _ hc
        obtain ⟨hr2, _⟩ := hsucc rfl
        subst hr2
        have hstream : e.r.file_streams_random_[w]? = r0.file_streams_random_[w]? :=
          hinv.streams w (fun st hst => by rw [hidle] at hst; cases hst)
        have hcongr := ConsumerOneTask_congr E { e.r with task_id_ := e.r.task_id_ + 1 } r0
          e.r.task_id_ w hinv.static.1 hinv.static.2.1 hinv.static.2.2.1 hinv.static.2.2.2.1
          hinv.static.2.2.2.2.1 hinv.static.2.2.2.2.2 hstream
        rw [hc] at hcongr
        have hprod : ProducedBy E r0 e.r.task_id_ batch := by
          cases h0 : ConsumerOneTask E r0 e.r.task_id_ w with
          | none => rw [h0] at hcongr; cases hcongr
          | some res =>
            rw [h0] at hcongr
            simp only [Option.map_some', Option.some.injEq] at hcongr
            obtain ⟨res1, res2⟩ := res
            simp only at hcongr
            subst hcongr
            exact ⟨w, res2, h0⟩
        exact hinv.set_worker w _ hidle _ _ hst1 hinv.row (fun _ _ => rfl)
          (fun _ => ⟨(by intro st hst; cases hst), rfl⟩) hinv.map
          (fun k b h => by cases h; exact hprod) rfl
      · rename_i res r2 _ hc
        cases hstep
        obtain ⟨st, b⟩ := res
        obtain ⟨_, hr2⟩ := ConsumerOneTask_reader E _ _ _ _ _ _ hc
        rcases hr2 with hr2 | ⟨s, hr2⟩
        · subst hr2
          exact hinv.set_worker w _ hidle _ _ hst1 hinv.row (fun _ _ => rfl)
            (fun h => absurd rfl (h MSRStatus.FAILED)) hinv.map (fun k b h => by cases h) rfl
        · subst hr2
          exact hinv.set_worker w _ hidle _ _ (StaticSame.static_refl _) hinv.row
            (fun w1 hw1 => closeRandomStream_other _ w w1 s hw1)
            (fun h => absurd rfl (h MSRStatus.FAILED)) hinv.map (fun k b h => by cases h) rfl
  · -- holding: the wait before the insertion
    rename_i task_id batch hhold
    split at hstep
    · cases hstep
      exact hinv.set_worker w _ hhold _ _ (StaticSame.static_refl _) hinv.row (fun _ _ => rfl)
        (fun h => absurd rfl (h MSRStatus.SUCCESS)) hinv.map (fun k b h => by cases h) rfl
    · split at hstep
      · cases hstep
        have hprod := hinv.held w task_id batch hhold
        refine hinv.set_worker w _ hhold _ _ (StaticSame.static_refl _) hinv.row (fun _ _ => rfl)
          (fun _ => ⟨(by intro st hst; cases hst), rfl⟩) ?_ (fun k b h => by cases h) rfl
        intro kv hkv
        simp only [mapInsert, List.mem_cons, List.mem_filter] at hkv
        rcases hkv with rfl | ⟨hmem, _⟩
        · exact hprod
        · exact hinv.map kv hmem
      · cases hstep
        exact hinv
  · cases hstep
    exact hinv

theorem delivered_append_empty (pre : List Batch) : delivered (pre ++ [[]]) = delivered pre := by
  simp [delivered, List.filter_append]

theorem delivered_append_pair (pre : List Batch) (b : Batch) (hb : ∃ pair, b = [pair]) :
    delivered (pre ++ [b]) = delivered pre ++ [b] := by
  obtain ⟨pair, rfl⟩ := hb
  simp [delivered, List.filter_append]

theorem RowInv_getNext (E : Env) (K : Constants) (r0 : ShardReader) (e : Engine)
    (pre : List Batch) (out : Returned) (r1 : ShardReader) (hinv : RowInv E r0 e (delivered pre))
    (hstep : GetNext K e.r = some (out, r1)) :
    RowInv E r0 { e with r := r1 } (delivered (pre ++ out.toList)) := by
  unfold GetNext at hstep
  split at hstep
  · cases hstep
    simp only [Option.toList, delivered_append_empty]
    exact hinv
  · split at hstep
    · rename_i hb
      rw [hinv.row] at hb
      cases hb
    · split at hstep
      · cases hstep
        simp only [Option.toList, delivered_append_empty]
        exact hinv
      · split at hstep
        · cases hstep
          simp only [Option.toList, List.append_nil]
          exact hinv
        · rename_i res hlook
          cases hstep
          have hprod : ProducedBy E r0 e.r.deliver_id_ res :=
            hinv.map _ (mapLookup_mem _ _ _ hlook)
          have hpair : ∃ pair, res = [pair] := by
            obtain ⟨w, r2, hc⟩ := hprod
            exact ((ConsumerOneTask_reader E _ _ _ _ _ _ hc).1 rfl).2
          have hdel := delivered_append_pair pre res hpair
          simp only [Option.toList]
          rw [hdel]
          refine ⟨hinv.static, hinv.row, hinv.streams, ?_, hinv.held, ?_, ?_⟩
          · intro kv hkv
            simp only [mapErase, List.mem_filter] at hkv
            exact hinv.map kv hkv.1
          · show e.r.deliver_id_ + 1 = _
            rw [List.length_append, hinv.count]
            simp
          · intro k hk
            by_cases hlt : k < (delivered pre).length
            · rw [List.getElem_append_left hlt]
              exact hinv.outs k hlt
            · have hk2 : k = (delivered pre).length := by
                rw [List.length_append] at hk
                simp at hk
                omega
              subst hk2
              rw [List.getElem_append_right (le_refl _)]
              simp only [Nat.sub_self, List.getElem_cons_zero]
              rw [← hinv.count]
              exact hprod

theorem RowInv_step (E : Env) (K : Constants) (r0 : ShardReader) (e e1 : Engine)
    (pre : List Batch) (a : Action) (out : Returned) (hinv : RowInv E r0 e (delivered pre))
    (ha : a.isReset = false) (hstep : Engine.step E K e a = some (e1, out)) :
    RowInv E r0 e1 (delivered (pre ++ out.toList)) := by
  cases a with
  | work w =>
    simp only [Engine.step, hinv.row, Bool.false_eq_true, if_false, Option.map_eq_some'] at hstep
    obtain ⟨e2, hw, he⟩ := hstep
    cases he
    simp only [Option.toList, List.append_nil]
    exact RowInv_work E K r0 e e1 _ w hinv hw
  | getNext =>
    simp only [Engine.step, Option.map_eq_some'] at hstep
    obtain ⟨res, hg, he⟩ := hstep
    obtain ⟨out1, r1⟩ := res
    cases he
    exact RowInv_getNext E K r0 e pre _ r1 hinv hg
  | reset => cases ha
  | finish =>
    simp only [Engine.step] at hstep
    cases hstep
    simp only [Option.toList, List.append_nil]
    exact ⟨hinv.static, hinv.row, hinv.streams, hinv.map, hinv.held, hinv.count, hinv.outs⟩

theorem RowInv_run (E : Env) (K : Constants) (r0 : ShardReader) (acts : List Action)
    (e e1 : Engine) (pre outs : List Batch) (hinv : RowInv E r0 e (delivered pre))
    (ha : ∀ a ∈ acts, a.isReset = false) (hrun : Engine.run E K e acts = some (e1, outs)) :
    RowInv E r0 e1 (delivered (pre ++ outs)) := by
  induction acts generalizing e pre outs with
  | nil =>
    simp only [Engine.run] at hrun
    cases hrun
    simpa using hinv
  | cons a rest ih =>
    unfold Engine.run at hrun
    split at hrun
    · cases hrun
    · rename_i e2 out hs
      split at hrun
      · cases hrun
      · rename_i e3 outs3 hr
        cases hrun
        have h2 := RowInv_step E K r0 e e2 pre a out hinv (ha a (List.mem_cons_self _ _)) hs
        have h3 := ih e2 (pre ++ out.toList) outs3 h2
          (fun b hb => ha b (List.mem_cons_of_mem _ hb)) hr
        rw [List.append_assoc] at h3
        exact h3

theorem RowInv_start (E : Env) (e : Engine) (hstart : e.rowStart) :
    RowInv E e.r e (delivered []) := by
  obtain ⟨hrow, _, hd, hmap, hidle⟩ := hstart
  refine ⟨StaticSame.static_refl _, hrow, fun _ _ => rfl, ?_, ?_, ?_, ?_⟩
  · intro kv hkv
    rw [hmap] at hkv
    cases hkv
  · intro w k b hw
    have := hidle _ (List.getElem?_mem hw)
    cases this
  · rw [hd]
    simp [delivered]
  · intro k hk
    simp [delivered] at hk

/-- C1. Row-mode delivery order. In the row-mode engine (worker steps of
`ConsumerByRow`: fetch-and-increment `task_id_`, run `ConsumerOneTask`, insert the
batch under its id once `id <= deliver_id_ + kNumBatchInMap`; consumer step
`GetNext`; `Finish` allowed), started right after `Launch` and run under any
schedule without `Reset`: the `k`-th non-empty vector returned by `GetNext` (`k`
from 0) is the batch `ConsumerOneTask` produces for task id `k`, that is for the
task at `permutation[k]`, and `deliver_id_` equals the number of non-empty vectors
returned so far, so it increases by exactly 1 per non-empty `GetNext`. -/
theorem C1_row_mode_delivery_order (E : Env) (K : Constants) (e e1 : Engine)
    (acts : List Action) (outs : List Batch) (hstart : e.rowStart)
    (hnoreset : ∀ a ∈ acts, a.isReset = false)
    (hrun : Engine.run E K e acts = some (e1, outs)) :
    e1.r.deliver_id_ = ((delivered outs).length : Int) ∧
    ∀ k (hk : k < (delivered outs).length),
      ∃ w r1, ConsumerOneTask E e.r (k : Int) w =
        some ((MSRStatus.SUCCESS, (delivered outs)[k]), r1) := by
  have h := RowInv_run E K e.r acts e e1 [] outs (RowInv_start E e hstart) hnoreset hrun
  rw [List.nil_append] at h
  exact ⟨h.count, h.outs⟩

theorem threeRowPlanned_reached :
    ∃ r, Open threeRowEnv exampleConstants ShardReader.new "a.mr" 2 ["l"] [] false =
        some (MSRStatus.SUCCESS, r) ∧
      Launch threeRowEnv exampleConstants r false =
        some (MSRStatus.SUCCESS, ⟨threeRowPlanned, [Worker.idle, Worker.idle]⟩) :=
  ⟨_, rfl, rfl⟩

theorem C1_row_mode_delivery_order_witness :
    ∃ e1 outs,
      Engine.run threeRowEnv exampleConstants ⟨threeRowPlanned, [Worker.idle, Worker.idle]⟩
        threeRowSchedule = some (e1, outs) ∧
      outs = [[([65], Json.object [("l", Json.int 1)])],
              [([66, 66], Json.object [("l", Json.int 2)])],
              [([67, 67, 67], Json.object [("l", Json.int 3)])], []] ∧
      e1.r.deliver_id_ = ((delivered outs).length : Int) ∧
      ∀ k (hk : k < (delivered outs).length),
        ∃ w r1, ConsumerOneTask threeRowEnv threeRowPlanned (k : Int) w =
          some ((MSRStatus.SUCCESS, (delivered outs)[k]), r1) :=
  ⟨_, _, rfl, rfl,
    C1_row_mode_delivery_order threeRowEnv exampleConstants
      ⟨threeRowPlanned, [Worker.idle, Worker.idle]⟩ _ threeRowSchedule _
      ⟨rfl, rfl, rfl, rfl, by simp⟩ (by decide) rfl⟩

/-! ### Block mode against row mode -/

/-- C7 (the code at the failing input). On the example dataset (one row with blob
`A` and raw record with the keys `l` and `text`) with the selected column `text`,
which is not indexed: iterating in row mode returns the pair with labels projected
to `text`, iterating in block mode returns the pair with the whole record as
labels, so the two multisets of `(bytes, labels)` pairs differ. With the selected
column `l`, which is indexed, both modes return the same pair. -/
theorem C7_block_mode_labels_not_projected :
    (∃ r e e1,
      Open exampleEnv exampleConstants ShardReader.new "a.mr" 1 ["text"] [] false =
        some (MSRStatus.SUCCESS, r) ∧
      Launch exampleEnv exampleConstants r false = some (MSRStatus.SUCCESS, e) ∧
      Engine.run exampleEnv exampleConstants e
          [Action.work 0, Action.work 0, Action.getNext, Action.getNext] =
        some (e1, [[([65], Json.object [("text", Json.str "a")])], []])) ∧
    (∃ r e e1,
      Open exampleEnv exampleConstants ShardReader.new "a.mr" 1 ["text"] [] true =
        some (MSRStatus.SUCCESS, r) ∧
      Launch exampleEnv exampleConstants r false = some (MSRStatus.SUCCESS, e) ∧
      Engine.run exampleEnv exampleConstants e
          [Action.work 0, Action.work 0, Action.work 0, Action.work 0, Action.getNext,
           Action.getNext] =
        some (e1, [[([65], Json.object [("l", Json.int 1), ("text", Json.str "a")])], []])) ∧
    (Multiset.ofList [(([65] : List Nat), Json.object [("text", Json.str "a")])] ≠
      Multiset.ofList [(([65] : List Nat),
        Json.object [("l", Json.int 1), ("text", Json.str "a")])]) ∧
    (∃ r e e1 rb eb eb1,
      Open exampleEnv exampleConstants ShardReader.new "a.mr" 1 ["l"] [] false =
        some (MSRStatus.SUCCESS, r) ∧
      Launch exampleEnv exampleConstants r false = some (MSRStatus.SUCCESS, e) ∧
      Engine.run exampleEnv exampleConstants e
          [Action.work 0, Action.work 0, Action.getNext, Action.getNext] =
        some (e1, [[([65], Json.object [("l", Json.int 1)])], []]) ∧
      Open exampleEnv exampleConstants ShardReader.new "a.mr" 1 ["l"] [] true =
        some (MSRStatus.SUCCESS, rb) ∧
      Launch exampleEnv exampleConstants rb false = some (MSRStatus.SUCCESS, eb) ∧
      Engine.run exampleEnv exampleConstants eb
          [Action.work 0, Action.work 0, Action.work 0, Action.work 0, Action.getNext,
           Action.getNext] =
        some (eb1, [[([65], Json.object [("l", Json.int 1)])], []])) := by
  refine ⟨⟨_, _, _, rfl, rfl, rfl⟩, ⟨_, _, _, rfl, rfl, rfl⟩, ?_,
    ⟨_, _, _, _, _, _, rfl, rfl, rfl, rfl, rfl, rfl⟩⟩
  intro h
  have hp := Multiset.coe_eq_coe.mp h
  have he := List.perm_singleton.mp hp
  simp at he

/-! ### Operators in `CreateTasks` -/

theorem invokedOperators_skip (b : Bool) (op : ShardOperator) (rest : List ShardOperator)
    (h : op.isCategory = true ∨ (b && op.isShuffle) = true) :
    invokedOperators b (op :: rest) = invokedOperators b rest := by
  unfold invokedOperators
  rw [List.filter_cons, if_neg]
  rcases h with h | h <;> rw [h] <;> simp

theorem invokedOperators_keep (b : Bool) (op : ShardOperator) (rest : List ShardOperator)
    (hc : ¬ op.isCategory = true) (hs : ¬ (b && op.isShuffle) = true) :
    invokedOperators b (op :: rest) = op :: invokedOperators b rest := by
  unfold invokedOperators
  rw [List.filter_cons, if_pos]
  simp only [Bool.not_eq_true] at hc hs
  rw [hc, hs]
  rfl

theorem applyOperators_succeed (b : Bool) (ops : List ShardOperator) :
    ∀ (t0 t : ShardTask), OperatorsSucceed (invokedOperators b ops) t0 t →
      CreateTasks.applyOperators b ops t0 = (MSRStatus.SUCCESS, t) := by
  induction ops with
  | nil =>
    intro t0 t h
    simp only [invokedOperators, List.filter_nil, OperatorsSucceed] at h
    simp [CreateTasks.applyOperators, h]
  | cons op rest ih =>
    intro t0 t h
    unfold CreateTasks.applyOperators
    by_cases hc : op.isCategory = true
    · rw [if_pos hc]
      apply ih
      rwa [invokedOperators_skip b op rest (Or.inl hc)] at h
    · rw [if_neg hc]
      by_cases hs : (b && op.isShuffle) = true
      · rw [if_pos hs]
        apply ih
        rwa [invokedOperators_skip b op rest (Or.inr hs)] at h
      · rw [if_neg hs]
        rw [invokedOperators_keep b op rest hc hs] at h
        obtain ⟨h1, h2⟩ := h
        have := ih _ _ h2
        generalize op.apply t0 = res at h1 h2 this
        obtain ⟨st, t1⟩ := res
        cases h1
        exact this

theorem applyOperators_fail (b : Bool) (ops : List ShardOperator) :
    ∀ (pre : List ShardOperator) (op : ShardOperator) (post : List ShardOperator)
      (t0 t : ShardTask), invokedOperators b ops = pre ++ op :: post →
      OperatorsSucceed pre t0 t → (op.apply t).1 ≠ MSRStatus.SUCCESS →
      CreateTasks.applyOperators b ops t0 = (MSRStatus.FAILED, (op.apply t).2) := by
  induction ops with
  | nil =>
    intro pre op post t0 t h
    simp [invokedOperators] at h
  | cons o rest ih =>
    intro pre op post t0 t h hpre hfail
    unfold CreateTasks.applyOperators
    by_cases hc : o.isCategory = true
    · rw [if_pos hc]
      apply ih pre op post t0 t _ hpre hfail
      rwa [invokedOperators_skip b o rest (Or.inl hc)] at h
    · rw [if_neg hc]
      by_cases hs : (b && o.isShuffle) = true
      · rw [if_pos hs]
        apply ih pre op post t0 t _ hpre hfail
        rwa [invokedOperators_skip b o rest (Or.inr hs)] at h
      · rw [if_neg hs]
        rw [invokedOperators_keep b o rest hc hs] at h
        cases pre with
        | nil =>
          simp only [List.nil_append, List.cons.injEq] at h
          obtain ⟨rfl, _⟩ := h
          simp only [OperatorsSucceed] at hpre
          subst hpre
          generalize o.apply t = res at hfail ⊢
          obtain ⟨st, t1⟩ := res
          cases st <;> first | exact absurd rfl hfail | rfl
        | cons p pre1 =>
          simp only [List.cons_append, List.cons.injEq] at h
          obtain ⟨rfl, h⟩ := h
          obtain ⟨h1, h2⟩ := hpre
          have := ih pre1 op post _ t h h2 hfail
          generalize o.apply t0 = res at h1 h2 this
          obtain ⟨st, t1⟩ := res
          cases h1
          exact this

theorem isCategory_of_kind {a b : ShardOperator} (h : a.kind = b.kind) :
    a.isCategory = b.isCategory := by
  unfold ShardOperator.isCategory
  rw [h]

theorem isShuffle_of_kind {a b : ShardOperator} (h : a.kind = b.kind) :
    a.isShuffle = b.isShuffle := by
  unfold ShardOperator.isShuffle
  rw [h]

theorem SameInvoked.kinds {b : Bool} {ops ops1 : List ShardOperator} (h : SameInvoked b ops ops1) :
    ops.map (fun op => op.kind) = ops1.map (fun op => op.kind) := by
  induction h with
  | nil => rfl
  | cons hab _ ih => simp only [List.map_cons, hab.1, ih]

theorem find_congr_aux (ops : List ShardOperator) :
    ∀ (ops1 : List ShardOperator),
      ops.map (fun op => op.kind) = ops1.map (fun op => op.kind) → ∀ (k : Nat) (acc : Int),
      (List.zip ops (List.range' k ops.length)).foldl
          (fun category_operator oi => if oi.1.isCategory then (oi.2 : Int) else category_operator)
          acc =
        (List.zip ops1 (List.range' k ops1.length)).foldl
          (fun category_operator oi => if oi.1.isCategory then (oi.2 : Int) else category_operator)
          acc := by
  induction ops with
  | nil =>
    intro ops1 h k acc
    cases ops1 with
    | nil => rfl
    | cons b l => simp at h
  | cons a l ih =>
    intro ops1 h k acc
    cases ops1 with
    | nil => simp at h
    | cons b l1 =>
      simp only [List.map_cons, List.cons.injEq] at h
      simp only [List.length_cons, List.range'_succ, List.zip_cons_cons, List.foldl_cons,
        isCategory_of_kind h.1]
      exact ih l1 h.2 _ _

theorem find_congr (ops ops1 : List ShardOperator)
    (h : ops.map (fun op => op.kind) = ops1.map (fun op => op.kind)) :
    CreateTasksByCategory.find ops = CreateTasksByCategory.find ops1 := by
  unfold CreateTasksByCategory.find
  rw [List.range_eq_range', List.range_eq_range']
  exact find_congr_aux ops ops1 h 0 (-1)

theorem CreateTasksByCategory_congr (E : Env) (K : Constants) (r : ShardReader)
    (summary : List SummaryEntry) (ops ops1 : List ShardOperator)
    (h : ops.map (fun op => op.kind) = ops1.map (fun op => op.kind)) :
    CreateTasksByCategory E K r summary ops = CreateTasksByCategory E K r summary ops1 := by
  have hget : ∀ i : Nat, (ops[i]?).map (fun op => op.kind) = (ops1[i]?).map (fun op => op.kind) := by
    intro i
    rw [← List.getElem?_map, ← List.getElem?_map, h]
  unfold CreateTasksByCategory
  simp only [find_congr ops ops1 h, hget]

theorem build_congr (E : Env) (K : Constants) (r : ShardReader)
    (summary : List SummaryEntry) (ops ops1 : List ShardOperator)
    (h : ops.map (fun op => op.kind) = ops1.map (fun op => op.kind)) :
    CreateTasks.build E K r summary ops = CreateTasks.build E K r summary ops1 := by
  unfold CreateTasks.build
  rw [CreateTasksByCategory_congr E K r summary ops ops1 h]
  rfl

theorem applyOperators_congr (b : Bool) (ops ops1 : List ShardOperator)
    (h : SameInvoked b ops ops1) :
    ∀ t0, CreateTasks.applyOperators b ops t0 = CreateTasks.applyOperators b ops1 t0 := by
  induction h with
  | nil => intro t0; rfl
  | @cons a c l l1 hab _ ih =>
    intro t0
    unfold CreateTasks.applyOperators
    rw [← isCategory_of_kind hab.1, ← isShuffle_of_kind hab.1]
    by_cases hc : a.isCategory = true
    · rw [if_pos hc, if_pos hc]
      exact ih t0
    · rw [if_neg hc, if_neg hc]
      by_cases hs : (b && a.isShuffle) = true
      · rw [if_pos hs, if_pos hs]
        exact ih t0
      · rw [if_neg hs, if_neg hs]
        simp only [Bool.not_eq_true] at hc hs
        rw [← hab.2 hc hs]
        simp only [ih]

theorem CreateTasks_congr (E : Env) (K : Constants) (r : ShardReader)
    (summary : List SummaryEntry) (ops ops1 : List ShardOperator)
    (h : SameInvoked r.block_reader_ ops ops1) :
    CreateTasks E K r summary ops = CreateTasks E K r summary ops1 := by
  unfold CreateTasks
  rw [← build_congr E K r summary ops ops1 h.kinds]
  split
  · rfl
  · rfl
  · rename_i r1 hb
    have hbr : r1.block_reader_ = r.block_reader_ := (build_frame _ _ _ _ _ _ _ hb).same_block_reader
    rw [← applyOperators_congr r1.block_reader_ ops ops1 (hbr ▸ h)]

theorem finish_tasks (r0 : ShardReader) :
    (CreateTasks.finish r0).tasks_.task_list_ = r0.tasks_.task_list_ ∧
    (CreateTasks.finish r0).tasks_.permutation_ =
      if r0.tasks_.permutation_ = [] then identityPerm r0.tasks_.Size
      else r0.tasks_.permutation_ := by
  unfold CreateTasks.finish
  by_cases hp : r0.tasks_.permutation_ = []
  · simp [hp, ShardTask.MakePerm, identityPerm, ShardTask.Size]
  · have : r0.tasks_.permutation_.isEmpty = false := by
      cases hq : r0.tasks_.permutation_ with
      | nil => exact absurd hq hp
      | cons a l => rfl
    simp [hp, this]

/-- C11. Operator application in `CreateTasks`, once the task list is built (reader
`r1`). With the invoked operators being those that are no category operator and,
under block mode, no shuffle operator, in declaration order: when each of them
returns `SUCCESS` on the result of the one before, `CreateTasks` returns `SUCCESS`,
the task list is the last result, and the permutation is the last result's, or the
identity on `[0, size)` when that is empty; when one of them is the first to return
a non-success status, `CreateTasks` returns `FAILED` with `tasks_` as that operator
left it, whatever operators follow; and what a category operator, or a shuffle
operator under block mode, would do when called has no effect on `CreateTasks`. -/
theorem C11_operators_applied_in_order (E : Env) (K : Constants) (r r1 : ShardReader)
    (summary : List SummaryEntry) (operators : List ShardOperator)
    (hbuild : CreateTasks.build E K r summary operators = some (false, r1)) :
    (∀ tasks, OperatorsSucceed (invokedOperators r.block_reader_ operators) r1.tasks_ tasks →
      ∃ r2, CreateTasks E K r summary operators = some (MSRStatus.SUCCESS, r2) ∧
        r2.tasks_.task_list_ = tasks.task_list_ ∧
        r2.tasks_.permutation_ =
          if tasks.permutation_ = [] then identityPerm tasks.Size else tasks.permutation_) ∧
    (∀ pre op post tasks, invokedOperators r.block_reader_ operators = pre ++ op :: post →
      OperatorsSucceed pre r1.tasks_ tasks → (op.apply tasks).1 ≠ MSRStatus.SUCCESS →
      CreateTasks E K r summary operators =
        some (MSRStatus.FAILED, { r1 with tasks_ := (op.apply tasks).2 })) ∧
    (∀ operators1, SameInvoked r.block_reader_ operators operators1 →
      CreateTasks E K r summary operators1 = CreateTasks E K r summary operators) := by
  have hbr : r1.block_reader_ = r.block_reader_ :=
    (build_frame _ _ _ _ _ _ _ hbuild).same_block_reader
  refine ⟨?_, ?_, ?_⟩
  · intro tasks hall
    refine ⟨CreateTasks.finish { r1 with tasks_ := tasks }, ?_, ?_⟩
    · unfold CreateTasks
      rw [hbuild]
      simp only [hbr, applyOperators_succeed _ _ _ _ hall]
    · exact finish_tasks { r1 with tasks_ := tasks }
  · intro pre op post tasks hsplit hpre hfail
    unfold CreateTasks
    rw [hbuild]
    simp only [hbr, applyOperators_fail _ _ _ _ _ _ _ hsplit hpre hfail]
  · intro operators1 hsame
    exact (CreateTasks_congr E K r summary operators operators1 hsame).symm

theorem C11_operators_applied_in_order_witness :
    (∃ r2, CreateTasks exampleEnv exampleConstants blockStart blockSummary
        [shuffleReverse, sampleFirst] = some (MSRStatus.SUCCESS, r2) ∧
      r2.tasks_.task_list_ = [((0, 0), [3], Json.null)] ∧ r2.tasks_.permutation_ = [0]) ∧
    CreateTasks exampleEnv exampleConstants blockStart blockSummary
        [shuffleReverse, sampleFirst, rejectAll, sampleFirst] =
      some (MSRStatus.FAILED,
        { (CreateTasksByBlock blockStart blockSummary []).2 with tasks_ := ⟨[], []⟩ }) :=
  ⟨(C11_operators_applied_in_order exampleEnv exampleConstants blockStart
      (CreateTasksByBlock blockStart blockSummary [shuffleReverse, sampleFirst]).2 blockSummary
      [shuffleReverse, sampleFirst] rfl).1 ⟨[((0, 0), [3], Json.null)], []⟩ ⟨rfl, rfl⟩,
   (C11_operators_applied_in_order exampleEnv exampleConstants blockStart
      (CreateTasksByBlock blockStart blockSummary
        [shuffleReverse, sampleFirst, rejectAll, sampleFirst]).2 blockSummary
      [shuffleReverse, sampleFirst, rejectAll, sampleFirst] rfl).2.1
      [sampleFirst] rejectAll [sampleFirst] ⟨[((0, 0), [3], Json.null)], []⟩ rfl ⟨rfl, rfl⟩
      (by intro h; cases h)⟩

/-! ### End and interrupt signalling -/

theorem ReadRowGroupBrief_frame (E : Env) (K : Constants) (r r1 : ShardReader)
    (group_id shard_id : Int) (columns : List String) (brief : ROW_GROUP_BRIEF)
    (h : ReadRowGroupBrief E K r group_id shard_id columns = some (brief, r1)) :
    PlanFrame r r1 := by
  unfold ReadRowGroupBrief at h
  split at h
  · cases h
    exact PlanFrame.frame_refl _
  · split at h
    · cases h
    · dsimp only at h
      split at h
      · cases h
      · rename_i hio
        split at h
        · cases h
        · rename_i hl
          cases h
          exact (GetImageOffset_frame _ _ _ _ _ _ _ _ hio).frame_trans
            (GetLabels_frame _ _ _ _ _ _ _ _ _ hl)
        · rename_i hl
          cases h
          exact (GetImageOffset_frame _ _ _ _ _ _ _ _ hio).frame_trans
            (GetLabels_frame _ _ _ _ _ _ _ _ _ hl)

theorem PlanFrame.same_interrupt {r r1 : ShardReader} (h : PlanFrame r r1) :
    r1.interrupt_ = r.interrupt_ := by
  obtain ⟨_, _, _, rfl⟩ := h
  rfl

theorem ReadBlob_interrupt (r r1 : ShardReader) (shard_id : Int) (page_offset : Nat)
    (page_length : Int) (buf_id : Nat) (st : MSRStatus)
    (h : ReadBlob r shard_id page_offset page_length buf_id = some (st, r1)) :
    r1.interrupt_ = r.interrupt_ := by
  unfold ReadBlob at h
  split at h
  · dsimp only at h
    split at h
    · cases h; rfl
    · split at h
      · cases h
      · split at h
        · cases h; rfl
        · cases h; rfl
  · cases h

theorem ConsumerOneTask_interrupt (E : Env) (r r2 : ShardReader) (k : Int) (w : Nat)
    (res : MSRStatus × Batch) (h : ConsumerOneTask E r k w = some (res, r2)) :
    r2.interrupt_ = r.interrupt_ := by
  obtain ⟨st, b⟩ := res
  rcases (ConsumerOneTask_reader E r r2 k w st b h).2 with h1 | ⟨s, h1⟩
  · rw [h1]
  · rw [h1]; rfl

theorem ConsumerByRow_interrupt (E : Env) (K : Constants) (e e1 : Engine) (w : Nat)
    (h : ConsumerByRow.step E K e w = some e1) : e1.r.interrupt_ = e.r.interrupt_ := by
  unfold ConsumerByRow.step at h
  split at h
  · dsimp only at h
    split at h
    · cases h; rfl
    · split at h
      · cases h
      · rename_i hc
        cases h
        have := ConsumerOneTask_interrupt _ _ _ _ _ _ hc
        exact this
      · rename_i hc
        cases h
        have := ConsumerOneTask_interrupt _ _ _ _ _ _ hc
        exact this
  · split at h
    · cases h; rfl
    · split at h
      · cases h; rfl
      · cases h; rfl
  · cases h; rfl

theorem ConsumerByBlock_interrupt (E : Env) (K : Constants) (e e1 : Engine) (w : Nat)
    (h : ConsumerByBlock.step E K e w = some e1) : e1.r.interrupt_ = e.r.interrupt_ := by
  unfold ConsumerByBlock.step at h
  split at h
  · dsimp only at h
    split at h
    · cases h; rfl
    · split at h
      · cases h
      · split at h
        · cases h
        · rename_i hb
          cases h
          have := (ReadRowGroupBrief_frame _ _ _ _ _ _ _ _ hb).same_interrupt
          exact this
        · rename_i hb
          cases h
          have := (ReadRowGroupBrief_frame _ _ _ _ _ _ _ _ hb).same_interrupt
          exact this
  · split at h
    · cases h; rfl
    · split at h
      · cases h; rfl
      · cases h; rfl
  · split at h
    · cases h; rfl
    · split at h
      · cases h; rfl
      · cases h; rfl
  · dsimp only at h
    split at h
    · cases h
    · split at h
      · cases h
      · rename_i hb
        cases h
        have := ReadBlob_interrupt _ _ _ _ _ _ _ hb
        exact this
      · rename_i hb
        cases h
        have := ReadBlob_interrupt _ _ _ _ _ _ _ hb
        exact this
  · cases h; rfl
  · cases h; rfl

theorem GetNext_interrupted (K : Constants) (r : ShardReader) (h : r.interrupt_ = true) :
    GetNext K r = some (some [], r) := by
  unfold GetNext
  rw [if_pos h]

theorem step_interrupted (E : Env) (K : Constants) (e e1 : Engine) (a : Action) (out : Returned)
    (hi : e.r.interrupt_ = true) (h : Engine.step E K e a = some (e1, out)) :
    e1.r.interrupt_ = true ∧ ∀ b ∈ out.toList, b = [] := by
  cases a with
  | work w =>
    simp only [Engine.step, Option.map_eq_some'] at h
    obtain ⟨e2, h2, heq⟩ := h
    cases heq
    refine ⟨?_, by simp⟩
    split at h2
    · rw [ConsumerByBlock_interrupt E K e e1 w h2, hi]
    · rw [ConsumerByRow_interrupt E K e e1 w h2, hi]
  | getNext =>
    simp only [Engine.step, GetNext_interrupted K e.r hi, Option.map_some', Option.some.injEq,
      Prod.mk.injEq] at h
    obtain ⟨h1, h2⟩ := h
    subst h1 h2
    exact ⟨hi, by simp⟩
  | reset =>
    simp only [Engine.step, Option.some.injEq, Prod.mk.injEq] at h
    obtain ⟨h1, h2⟩ := h
    subst h1 h2
    exact ⟨hi, by simp⟩
  | finish =>
    simp only [Engine.step, Option.some.injEq, Prod.mk.injEq] at h
    obtain ⟨h1, h2⟩ := h
    subst h1 h2
    exact ⟨rfl, by simp⟩

theorem run_interrupted (E : Env) (K : Constants) (acts : List Action) :
    ∀ (e e1 : Engine) (outs : List Batch), e.r.interrupt_ = true →
      Engine.run E K e acts = some (e1, outs) →
      e1.r.interrupt_ = true ∧ ∀ b ∈ outs, b = [] := by
  induction acts with
  | nil =>
    intro e e1 outs hi h
    simp only [Engine.run, Option.some.injEq, Prod.mk.injEq] at h
    obtain ⟨h1, h2⟩ := h
    subst h1 h2
    exact ⟨hi, by simp⟩
  | cons a rest ih =>
    intro e e1 outs hi h
    unfold Engine.run at h
    split at h
    · cases h
    · rename_i e2 out hs
      split at h
      · cases h
      · rename_i e3 outs1 hr
        cases h
        have h1 := step_interrupted E K e e2 a out hi hs
        have h2 := ih e2 _ outs1 h1.1 hr
        refine ⟨h2.1, ?_⟩
        intro b hb
        rcases List.mem_append.mp hb with hb | hb
        · exact h1.2 b hb
        · exact h2.2 b hb

/-- C12. End and interrupt signalling. In every reader state with `interrupt_` set,
`GetNext()` and `GetNextById()` return an empty vector and leave the reader as it
is; `Finish()` sets `interrupt_`, and in every state the engine reaches from an
interrupted state, under any schedule of worker steps and consumer calls,
`interrupt_` is still set, so every `GetNext()` of the schedule has returned an empty
vector. In every row-mode state with `deliver_id_ >= tasks.size()`, `GetNext()`
returns an empty vector and leaves the reader as it is. The reader being left as it
is, `deliver_id_`, `task_id_` and the delivery buffers are unchanged. -/
theorem C12_interrupt_and_end_return_empty (E : Env) (K : Constants) (r : ShardReader)
    (task_id : Int) (consumer_id : Int) :
    (r.interrupt_ = true →
      GetNext K r = some (some [], r) ∧
      GetNextById E K r task_id consumer_id = some (some [], r)) ∧
    (Finish r).interrupt_ = true ∧
    (∀ (e e1 : Engine) (acts : List Action) (outs : List Batch), e.r = Finish r →
      Engine.run E K e acts = some (e1, outs) →
      e1.r.interrupt_ = true ∧ ∀ b ∈ outs, b = []) ∧
    (r.block_reader_ = false → r.deliver_id_ ≥ (r.tasks_.Size : Int) →
      GetNext K r = some (some [], r)) := by
  refine ⟨?_, rfl, ?_, ?_⟩
  · intro hi
    refine ⟨GetNext_interrupted K r hi, ?_⟩
    unfold GetNextById
    rw [if_pos hi]
  · intro e e1 acts outs he hrun
    exact run_interrupted E K acts e e1 outs (by rw [he]; rfl) hrun
  · intro hrow hend
    unfold GetNext
    by_cases hi : r.interrupt_ = true
    · rw [if_pos hi]
    · rw [if_neg hi, if_neg (by rw [hrow]; simp), if_pos hend]

theorem C12_interrupt_and_end_return_empty_witness :
    (GetNext exampleConstants (Finish threeRowPlanned) = some (some [], Finish threeRowPlanned) ∧
      GetNextById threeRowEnv exampleConstants (Finish threeRowPlanned) 0 0 =
        some (some [], Finish threeRowPlanned)) ∧
    (∃ e1 outs,
      Engine.run threeRowEnv exampleConstants ⟨Finish threeRowPlanned, [Worker.idle, Worker.idle]⟩
          [Action.work 0, Action.getNext, Action.work 0, Action.reset, Action.work 1,
           Action.getNext] = some (e1, outs) ∧
        outs.length = 2 ∧ e1.r.interrupt_ = true ∧ ∀ b ∈ outs, b = []) ∧
    GetNext exampleConstants { threeRowPlanned with deliver_id_ := 3 } =
      some (some [], { threeRowPlanned with deliver_id_ := 3 }) :=
  ⟨(C12_interrupt_and_end_return_empty threeRowEnv exampleConstants (Finish threeRowPlanned)
      0 0).1 rfl,
   ⟨_, _, rfl, rfl,
    (C12_interrupt_and_end_return_empty threeRowEnv exampleConstants threeRowPlanned 0 0).2.2.1
      ⟨Finish threeRowPlanned, [Worker.idle, Worker.idle]⟩ _
      [Action.work 0, Action.getNext, Action.work 0, Action.reset, Action.work 1, Action.getNext]
      _ rfl rfl⟩,
   (C12_interrupt_and_end_return_empty threeRowEnv exampleConstants
      { threeRowPlanned with deliver_id_ := 3 } 0 0).2.2.2 rfl (by decide)⟩

/-! ### `GetNextById` -/

theorem GetNextById_row (E : Env) (K : Constants) (r : ShardReader) (task_id : Int)
    (consumer_id : Int) (hi : r.interrupt_ = false) (hrow : r.block_reader_ = false) :
    GetNextById E K r task_id consumer_id =
      (ConsumerOneTask E r (toInt32 task_id) (u32 consumer_id)).map
        (fun res => (some (if res.1.1 = MSRStatus.SUCCESS then res.1.2 else []), res.2)) := by
  unfold GetNextById
  rw [if_neg (by rw [hi]; simp), if_neg (by rw [hrow]; simp)]
  split
  · rename_i h
    rw [h]
    rfl
  · rename_i h
    rw [h]
    rfl
  · rename_i st r1 hne h
    rw [h]
    obtain ⟨st1, b⟩ := st
    have : st1 ≠ MSRStatus.SUCCESS := by
      intro hs
      subst hs
      exact hne b rfl
    simp [this]

theorem u32_of_lt (z : Int) (h0 : 0 ≤ z) (h1 : z < 2 ^ 32) : u32 z = z.toNat := by
  unfold u32
  rw [Int.emod_eq_of_lt h0 h1]

theorem toInt32_of_range (z : Int) (h0 : -(2 ^ 31) ≤ z) (h1 : z < 2 ^ 31) : toInt32 z = z := by
  unfold toInt32
  omega

/-- C13 (amended). `GetNextById` on a non-interrupted reader. In row mode it returns
the batch of `ConsumerOneTask(task_id, worker_id)`, called as the code calls it, with
`task_id` converted from `int64_t` to `int` and `worker_id` from `int32_t` to
`uint32_t`, when that returns `SUCCESS` and an empty vector when it returns another
status; the call leaves `deliver_id_`, `task_id_`, `row_id_` and the delivery buffers
unchanged, and what it returns is the same whatever these hold. The conversions
change nothing for `-2^31 <= task_id < 2^31` and `0 <= worker_id`. In block mode it
does not look at its arguments: it is `GetBlockNext()`. -/
theorem C13_GetNextById_row_mode_stateless (E : Env) (K : Constants) (r : ShardReader)
    (task_id : Int) (consumer_id : Int) (hi : r.interrupt_ = false) :
    (r.block_reader_ = false →
      (∀ st batch r1,
        ConsumerOneTask E r (toInt32 task_id) (u32 consumer_id) = some ((st, batch), r1) →
        GetNextById E K r task_id consumer_id =
            some (some (if st = MSRStatus.SUCCESS then batch else []), r1) ∧
          r1.deliver_id_ = r.deliver_id_ ∧ r1.task_id_ = r.task_id_ ∧ r1.row_id_ = r.row_id_ ∧
          r1.delivery_map_ = r.delivery_map_ ∧ r1.delivery_block_ = r.delivery_block_ ∧
          r1.delivery_block_set_ = r.delivery_block_set_ ∧ r1.buf_ = r.buf_) ∧
      (∀ deliver_id next_task_id row_id delivery_map delivery_block delivery_block_set buf,
        (GetNextById E K
            { r with deliver_id_ := deliver_id, task_id_ := next_task_id, row_id_ := row_id,
                     delivery_map_ := delivery_map, delivery_block_ := delivery_block,
                     delivery_block_set_ := delivery_block_set, buf_ := buf }
            task_id consumer_id).map Prod.fst =
          (GetNextById E K r task_id consumer_id).map Prod.fst) ∧
      (-(2 ^ 31) ≤ task_id → task_id < 2 ^ 31 → 0 ≤ consumer_id → consumer_id < 2 ^ 31 →
        toInt32 task_id = task_id ∧ u32 consumer_id = consumer_id.toNat ∧
        GetNextById E K r task_id consumer_id =
          (ConsumerOneTask E r task_id consumer_id.toNat).map
            (fun res => (some (if res.1.1 = MSRStatus.SUCCESS then res.1.2 else []), res.2)))) ∧
    (r.block_reader_ = true → GetNextById E K r task_id consumer_id = GetBlockNext K r) := by
  refine ⟨?_, ?_⟩
  · intro hrow
    refine ⟨?_, ?_, ?_⟩
    · intro st batch r1 h
      refine ⟨?_, ?_⟩
      · rw [GetNextById_row E K r task_id consumer_id hi hrow, h]
        rfl
      · rcases (ConsumerOneTask_reader E r r1 (toInt32 task_id) (u32 consumer_id) st batch h).2
          with h1 | ⟨s, h1⟩
        · subst h1
          exact ⟨rfl, rfl, rfl, rfl, rfl, rfl, rfl⟩
        · subst h1
          exact ⟨rfl, rfl, rfl, rfl, rfl, rfl, rfl⟩
    · intro d t row m blk set buf
      have h1 := GetNextById_row E K
        { r with deliver_id_ := d, task_id_ := t, row_id_ := row, delivery_map_ := m,
                 delivery_block_ := blk, delivery_block_set_ := set, buf_ := buf }
        task_id consumer_id hi hrow
      rw [h1, GetNextById_row E K r task_id consumer_id hi hrow, Option.map_map, Option.map_map]
      have hc := ConsumerOneTask_congr E
        { r with deliver_id_ := d, task_id_ := t, row_id_ := row, delivery_map_ := m,
                 delivery_block_ := blk, delivery_block_set_ := set, buf_ := buf }
        r (toInt32 task_id) (u32 consumer_id) rfl rfl rfl rfl rfl rfl rfl
      have hcomp : ∀ x : Option ((MSRStatus × Batch) × ShardReader),
          x.map (Prod.fst ∘ fun res =>
            ((some (if res.1.1 = MSRStatus.SUCCESS then res.1.2 else []) : Returned), res.2)) =
          (x.map Prod.fst).map (fun p => (some (if p.1 = MSRStatus.SUCCESS then p.2 else []) : Returned)) := by
        intro x
        cases x <;> rfl
      rw [hcomp, hcomp, hc]
    · intro h0 h1 h2 h3
      have ht := toInt32_of_range task_id h0 h1
      have hc := u32_of_lt consumer_id h2 (by omega)
      refine ⟨ht, hc, ?_⟩
      rw [GetNextById_row E K r task_id consumer_id hi hrow, ht, hc]
  · intro hblock
    unfold GetNextById
    rw [if_neg (by rw [hi]; simp), if_pos hblock]

theorem C13_GetNextById_row_mode_stateless_witness :
    GetNextById threeRowEnv exampleConstants threeRowPlanned 1 0 =
        some (some [([66, 66], Json.object [("l", Json.int 2)])], threeRowPlanned) ∧
      GetNextById threeRowEnv exampleConstants threeRowPlanned 3 0 =
        some (some [], threeRowPlanned) ∧
      GetNextById threeRowEnv exampleConstants threeRowPlanned (2 ^ 32 + 1) 0 =
        some (some [([66, 66], Json.object [("l", Json.int 2)])], threeRowPlanned) :=
  ⟨(((C13_GetNextById_row_mode_stateless threeRowEnv exampleConstants threeRowPlanned 1 0 rfl).1
      rfl).1 MSRStatus.SUCCESS _ threeRowPlanned rfl).1,
   (((C13_GetNextById_row_mode_stateless threeRowEnv exampleConstants threeRowPlanned 3 0 rfl).1
      rfl).1 MSRStatus.FAILED [] threeRowPlanned rfl).1,
   (((C13_GetNextById_row_mode_stateless threeRowEnv exampleConstants threeRowPlanned
      (2 ^ 32 + 1) 0 rfl).1 rfl).1 MSRStatus.SUCCESS [([66, 66], Json.object [("l", Json.int 2)])]
      threeRowPlanned (by rfl)).1⟩

/-- C13 as stated fails in block mode. On the example dataset opened in block mode
(column `l` selected), once a worker has loaded block 0, `GetNextById(0, 0)` on the
non-interrupted reader returns the row of the block and moves `deliver_id_` from 0 to
1; on the same state with `deliver_id_` set to 1 it returns an empty vector. And in
row mode the task read is that of the converted id: on the three-row dataset
`GetNextById(2^32 + 1, 0)` returns the batch of task 1, where `ConsumerOneTask` at
the id `2^32 + 1` itself is past the end of the list and returns `FAILED`. -/
theorem C13_counterexample :
    (∃ r e e1 r1,
      Open exampleEnv exampleConstants ShardReader.new "a.mr" 1 ["l"] [] true =
        some (MSRStatus.SUCCESS, r) ∧
      Launch exampleEnv exampleConstants r false = some (MSRStatus.SUCCESS, e) ∧
      Engine.run exampleEnv exampleConstants e
          [Action.work 0, Action.work 0, Action.work 0, Action.work 0] = some (e1, []) ∧
      e1.r.interrupt_ = false ∧ e1.r.block_reader_ = true ∧ e1.r.deliver_id_ = 0 ∧
      GetNextById exampleEnv exampleConstants e1.r 0 0 =
        some (some [([65], Json.object [("l", Json.int 1)])], r1) ∧
      r1.deliver_id_ = 1 ∧
      (GetNextById exampleEnv exampleConstants { e1.r with deliver_id_ := 1 } 0 0).map Prod.fst =
        some (some [])) ∧
    (threeRowPlanned.interrupt_ = false ∧ threeRowPlanned.block_reader_ = false ∧
      GetNextById threeRowEnv exampleConstants threeRowPlanned (2 ^ 32 + 1) 0 =
        some (some [([66, 66], Json.object [("l", Json.int 2)])], threeRowPlanned) ∧
      ConsumerOneTask threeRowEnv threeRowPlanned (2 ^ 32 + 1) 0 =
        some ((MSRStatus.FAILED, []), threeRowPlanned)) :=
  ⟨⟨_, _, _, _, rfl, rfl, rfl, rfl, rfl, rfl, rfl, rfl, rfl⟩,
    rfl, rfl, rfl, rfl⟩

/-! ### Backpressure -/

theorem setWorker_get (e : Engine) (w : Nat) (old s : Worker) (r1 : ShardReader)
    (hold : e.workers[w]? = some old) (w1 : Nat) :
    (e.setWorker w s r1).workers[w1]? = if w = w1 then some s else e.workers[w1]? := by
  have hw : w < e.workers.length := by
    by_contra hge
    rw [List.getElem?_eq_none (by omega)] at hold
    cases hold
  show (e.workers.set w s)[w1]? = _
  rw [List.getElem?_set]
  by_cases h : w = w1
  · subst h
    simp [hw]
  · simp [h]

/-- What one step of a `ConsumerByRow` thread does to the counters and the map. -/
theorem ConsumerByRow_cases (E : Env) (K : Constants) (e e1 : Engine) (w : Nat)
    (h : ConsumerByRow.step E K e w = some e1) :
    (e.workers[w]? = some Worker.idle ∧ ∃ s r2, e1 = e.setWorker w s r2 ∧
      r2.task_id_ = e.r.task_id_ + 1 ∧ r2.deliver_id_ = e.r.deliver_id_ ∧
      r2.delivery_map_ = e.r.delivery_map_ ∧ r2.block_reader_ = e.r.block_reader_ ∧
      r2.n_consumer_ = e.r.n_consumer_ ∧
      ∀ k b, s = Worker.holding k b → k = e.r.task_id_) ∨
    (∃ k b s, e.workers[w]? = some (Worker.holding k b) ∧ e1 = e.setWorker w s e.r ∧
      ∀ k1 b1, s ≠ Worker.holding k1 b1) ∨
    (∃ k b r2, e.workers[w]? = some (Worker.holding k b) ∧
      k ≤ e.r.deliver_id_ + K.kNumBatchInMap ∧ e1 = e.setWorker w Worker.idle r2 ∧
      r2.task_id_ = e.r.task_id_ ∧ r2.deliver_id_ = e.r.deliver_id_ ∧
      r2.delivery_map_ = mapInsert e.r.delivery_map_ k b ∧
      r2.block_reader_ = e.r.block_reader_ ∧ r2.n_consumer_ = e.r.n_consumer_) ∨
    e1 = e := by
  unfold ConsumerByRow.step at h
  split at h
  · rename_i hidle
    dsimp only at h
    left
    refine ⟨hidle, ?_⟩
    split at h
    · cases h
      exact ⟨_, _, rfl, rfl, rfl, rfl, rfl, rfl, by intro k b hk; cases hk⟩
    · split at h
      · cases h
      · rename_i batch r2 hc
        cases h
        obtain ⟨hsucc, _⟩ := ConsumerOneTask_reader E _ _ _ _ _ _ hc
        obtain ⟨hr2, _⟩ := hsucc rfl
        subst hr2
        exact ⟨_, _, rfl, rfl, rfl, rfl, rfl, rfl, by intro k b hk; cases hk; rfl⟩
      · rename_i res r2 _ hc
        cases h
        obtain ⟨st, b⟩ := res
        obtain ⟨_, hr2⟩ := ConsumerOneTask_reader E _ _ _ _ _ _ hc
        rcases hr2 with hr2 | ⟨s, hr2⟩
        · subst hr2
          exact ⟨_, _, rfl, rfl, rfl, rfl, rfl, rfl, by intro k b hk; cases hk⟩
        · subst hr2
          exact ⟨_, _, rfl, rfl, rfl, rfl, rfl, rfl, by intro k b hk; cases hk⟩
  · rename_i task_id batch hhold
    split at h
    · cases h
      right; left
      exact ⟨task_id, batch, _, hhold, rfl, by intro k1 b1 hk; cases hk⟩
    · split at h
      · rename_i hle
        cases h
        right; right; left
        exact ⟨task_id, batch, _, hhold, hle, rfl, rfl, rfl, rfl, rfl, rfl⟩
      · cases h
        right; right; right
        rfl
  · cases h
    right; right; right
    rfl

theorem mapLookup_key (m : List (Int × Batch)) (k : Int) (b : Batch)
    (h : mapLookup m k = some b) : k ∈ m.map Prod.fst :=
  List.mem_map.mpr ⟨(k, b), mapLookup_mem m k b h, rfl⟩

theorem mapErase_keys (m : List (Int × Batch)) (k : Int) :
    (mapErase m k).map Prod.fst = (m.map Prod.fst).filter (fun x => x ≠ k) := by
  unfold mapErase
  rw [List.filter_map]
  rfl

theorem mapInsert_keys (m : List (Int × Batch)) (k : Int) (b : Batch) :
    (mapInsert m k b).map Prod.fst = k :: (m.map Prod.fst).filter (fun x => x ≠ k) := by
  unfold mapInsert
  rw [List.map_cons]
  exact congrArg _ (mapErase_keys m k)

theorem BackInv_work (E : Env) (K : Constants) (e e1 : Engine) (w : Nat)
    (hinv : BackInv K e) (hstep : ConsumerByRow.step E K e w = some e1) : BackInv K e1 := by
  rcases ConsumerByRow_cases E K e e1 w hstep with
    ⟨hidle, s, r2, rfl, ht, hd, hm, hb, _, hs⟩ | ⟨k, b, s, hhold, rfl, hs⟩ |
    ⟨k, b, r2, hhold, hle, rfl, ht, hd, hm, hb, _⟩ | rfl
  · -- a task id is fetched
    have hkeys : r2.deliveryKeys = e.r.deliveryKeys := by
      unfold ShardReader.deliveryKeys
      rw [hm]
    refine ⟨hb.trans hinv.row, ?_, ?_, ?_, ?_, ?_⟩
    · show r2.deliver_id_ ≤ r2.task_id_
      rw [hd, ht]
      have := hinv.order
      omega
    · show r2.deliveryKeys.Nodup
      rw [hkeys]
      exact hinv.nodup
    · intro k hk
      show r2.deliver_id_ ≤ k ∧ k ≤ r2.deliver_id_ + K.kNumBatchInMap ∧ k < r2.task_id_
      rw [hd, ht]
      have hk1 : k ∈ e.r.deliveryKeys := by
        rw [← hkeys]
        exact hk
      have := hinv.keys k hk1
      omega
    · intro w1 k b hw1
      show r2.deliver_id_ ≤ k ∧ k < r2.task_id_ ∧ k ∉ r2.deliveryKeys
      rw [hd, ht, hkeys]
      rw [setWorker_get e w _ s r2 hidle] at hw1
      by_cases hw : w = w1
      · rw [if_pos hw] at hw1
        have hk := hs k b (Option.some.inj hw1)
        subst hk
        refine ⟨hinv.order, by omega, ?_⟩
        intro hmem
        have := (hinv.keys _ hmem).2.2
        omega
      · rw [if_neg hw] at hw1
        have := hinv.held w1 k b hw1
        exact ⟨this.1, by omega, this.2.2⟩
    · intro w1 w2 k b1 b2 h1 h2
      rw [setWorker_get e w _ s r2 hidle] at h1 h2
      by_cases hw1 : w = w1
      · by_cases hw2 : w = w2
        · rw [← hw1, ← hw2]
        · rw [if_pos hw1] at h1
          rw [if_neg hw2] at h2
          have hk := hs k b1 (Option.some.inj h1)
          have := (hinv.held w2 k b2 h2).2.1
          omega
      · by_cases hw2 : w = w2
        · rw [if_neg hw1] at h1
          rw [if_pos hw2] at h2
          have hk := hs k b2 (Option.some.inj h2)
          have := (hinv.held w1 k b1 h1).2.1
          omega
        · rw [if_neg hw1] at h1
          rw [if_neg hw2] at h2
          exact hinv.alone w1 w2 k b1 b2 h1 h2
  · -- the worker leaves at the wait
    refine ⟨hinv.row, hinv.order, hinv.nodup, hinv.keys, ?_, ?_⟩
    · intro w1 k1 b1 hw1
      rw [setWorker_get e w _ s e.r hhold] at hw1
      by_cases hw : w = w1
      · rw [if_pos hw] at hw1
        exact absurd (Option.some.inj hw1) (hs k1 b1)
      · rw [if_neg hw] at hw1
        exact hinv.held w1 k1 b1 hw1
    · intro w1 w2 k1 b1 b2 h1 h2
      rw [setWorker_get e w _ s e.r hhold] at h1 h2
      by_cases hw1 : w = w1
      · rw [if_pos hw1] at h1
        exact absurd (Option.some.inj h1) (hs k1 b1)
      · by_cases hw2 : w = w2
        · rw [if_pos hw2] at h2
          exact absurd (Option.some.inj h2) (hs k1 b2)
        · rw [if_neg hw1] at h1
          rw [if_neg hw2] at h2
          exact hinv.alone w1 w2 k1 b1 b2 h1 h2
  · -- the batch is inserted
    have hk := hinv.held w k b hhold
    have hkeys : r2.deliveryKeys = k :: e.r.deliveryKeys := by
      unfold ShardReader.deliveryKeys
      rw [hm, mapInsert_keys]
      congr 1
      rw [List.filter_eq_self]
      intro x hx
      have : x ≠ k := fun hxk => hk.2.2 (hxk ▸ hx)
      simpa using this
    refine ⟨hb.trans hinv.row, ?_, ?_, ?_, ?_, ?_⟩
    · show r2.deliver_id_ ≤ r2.task_id_
      rw [hd, ht]
      exact hinv.order
    · show r2.deliveryKeys.Nodup
      rw [hkeys]
      exact List.nodup_cons.mpr ⟨hk.2.2, hinv.nodup⟩
    · intro k1 hk1
      have hk1 : k1 ∈ k :: e.r.deliveryKeys := by
        rw [← hkeys]
        exact hk1
      show r2.deliver_id_ ≤ k1 ∧ k1 ≤ r2.deliver_id_ + K.kNumBatchInMap ∧ k1 < r2.task_id_
      rw [hd, ht]
      rcases List.mem_cons.mp hk1 with rfl | hmem
      · exact ⟨hk.1, hle, hk.2.1⟩
      · exact hinv.keys k1 hmem
    · intro w1 k1 b1 hw1
      rw [setWorker_get e w _ _ _ hhold] at hw1
      by_cases hw : w = w1
      · rw [if_pos hw] at hw1
        cases hw1
      · rw [if_neg hw] at hw1
        have h1 := hinv.held w1 k1 b1 hw1
        show r2.deliver_id_ ≤ k1 ∧ k1 < r2.task_id_ ∧ k1 ∉ r2.deliveryKeys
        rw [hd, ht, hkeys]
        refine ⟨h1.1, h1.2.1, ?_⟩
        intro hmem
        rcases List.mem_cons.mp hmem with rfl | hmem
        · exact hw (hinv.alone w w1 _ b b1 hhold hw1)
        · exact h1.2.2 hmem
    · intro w1 w2 k1 b1 b2 h1 h2
      rw [setWorker_get e w _ _ _ hhold] at h1 h2
      by_cases hw1 : w = w1
      · rw [if_pos hw1] at h1
        cases h1
      · by_cases hw2 : w = w2
        · rw [if_pos hw2] at h2
          cases h2
        · rw [if_neg hw1] at h1
          rw [if_neg hw2] at h2
          exact hinv.alone w1 w2 k1 b1 b2 h1 h2
  · exact hinv

theorem BackInv_getNext (K : Constants) (e : Engine) (out : Returned) (r1 : ShardReader)
    (hinv : BackInv K e) (hstep : GetNext K e.r = some (out, r1)) :
    BackInv K { e with r := r1 } ∧ r1.n_consumer_ = e.r.n_consumer_ := by
  unfold GetNext at hstep
  split at hstep
  · cases hstep
    exact ⟨hinv, rfl⟩
  · split at hstep
    · rename_i hb
      rw [hinv.row] at hb
      cases hb
    · split at hstep
      · cases hstep
        exact ⟨hinv, rfl⟩
      · split at hstep
        · cases hstep
          exact ⟨hinv, rfl⟩
        · rename_i res hlook
          cases hstep
          have hd : e.r.deliver_id_ ∈ e.r.deliveryKeys := mapLookup_key _ _ _ hlook
          have hfilter : ∀ k, k ∈ (mapErase e.r.delivery_map_ e.r.deliver_id_).map Prod.fst →
              k ∈ e.r.deliveryKeys ∧ k ≠ e.r.deliver_id_ := by
            intro k hk
            rw [mapErase_keys, List.mem_filter] at hk
            exact ⟨hk.1, by simpa using hk.2⟩
          refine ⟨⟨hinv.row, ?_, ?_, ?_, ?_, hinv.alone⟩, rfl⟩
          · show e.r.deliver_id_ + 1 ≤ e.r.task_id_
            have := (hinv.keys _ hd).2.2
            omega
          · show ((mapErase e.r.delivery_map_ e.r.deliver_id_).map Prod.fst).Nodup
            rw [mapErase_keys]
            exact hinv.nodup.filter _
          · intro k hk
            obtain ⟨hmem, hne⟩ := hfilter k hk
            have := hinv.keys k hmem
            show e.r.deliver_id_ + 1 ≤ k ∧ k ≤ e.r.deliver_id_ + 1 + K.kNumBatchInMap ∧
              k < e.r.task_id_
            omega
          · intro w k b hw
            have h1 := hinv.held w k b hw
            have hne : k ≠ e.r.deliver_id_ := fun hk => h1.2.2 (hk ▸ hd)
            refine ⟨?_, h1.2.1, ?_⟩
            · show e.r.deliver_id_ + 1 ≤ k
              omega
            · intro hmem
              exact h1.2.2 (hfilter k hmem).1

theorem BackInv_step (E : Env) (K : Constants) (e e1 : Engine) (a : Action) (out : Returned)
    (hinv : BackInv K e) (ha : a.isReset = false)
    (hstep : Engine.step E K e a = some (e1, out)) :
    BackInv K e1 ∧ e1.r.n_consumer_ = e.r.n_consumer_ := by
  cases a with
  | work w =>
    simp only [Engine.step, hinv.row, Bool.false_eq_true, if_false, Option.map_eq_some'] at hstep
    obtain ⟨e2, hw, he⟩ := hstep
    cases he
    refine ⟨BackInv_work E K e e1 w hinv hw, ?_⟩
    rcases ConsumerByRow_cases E K e e1 w hw with
      ⟨_, s, r2, rfl, _, _, _, _, hn, _⟩ | ⟨k, b, s, _, rfl, _⟩ |
      ⟨k, b, r2, _, _, rfl, _, _, _, _, hn⟩ | rfl
    · exact hn
    · rfl
    · exact hn
    · rfl
  | getNext =>
    simp only [Engine.step, Option.map_eq_some'] at hstep
    obtain ⟨res, hg, he⟩ := hstep
    obtain ⟨out1, r1⟩ := res
    cases he
    exact BackInv_getNext K e out1 r1 hinv hg
  | reset => cases ha
  | finish =>
    simp only [Engine.step] at hstep
    cases hstep
    exact ⟨⟨hinv.row, hinv.order, hinv.nodup, hinv.keys, hinv.held, hinv.alone⟩, rfl⟩

theorem BackInv_run (E : Env) (K : Constants) (acts : List Action) :
    ∀ (e e1 : Engine) (outs : List Batch), BackInv K e → (∀ a ∈ acts, a.isReset = false) →
      Engine.run E K e acts = some (e1, outs) →
      BackInv K e1 ∧ e1.r.n_consumer_ = e.r.n_consumer_ := by
  induction acts with
  | nil =>
    intro e e1 outs hinv _ hrun
    simp only [Engine.run] at hrun
    cases hrun
    exact ⟨hinv, rfl⟩
  | cons a rest ih =>
    intro e e1 outs hinv ha hrun
    unfold Engine.run at hrun
    split at hrun
    · cases hrun
    · rename_i e2 out hs
      split at hrun
      · cases hrun
      · rename_i e3 outs3 hr
        cases hrun
        have h2 := BackInv_step E K e e2 a out hinv (ha a (List.mem_cons_self _ _)) hs
        have h3 := ih e2 _ outs3 h2.1 (fun b hb => ha b (List.mem_cons_of_mem _ hb)) hr
        exact ⟨h3.1, h3.2.trans h2.2⟩

theorem BackInv_start (K : Constants) (e : Engine) (hstart : e.rowStart) : BackInv K e := by
  obtain ⟨hrow, ht, hd, hm, hw⟩ := hstart
  have hkeys : e.r.deliveryKeys = [] := by
    unfold ShardReader.deliveryKeys
    rw [hm]
    rfl
  have hidle : ∀ (w : Nat) k b, e.workers[w]? ≠ some (Worker.holding k b) := by
    intro w k b h
    have := hw _ (List.getElem?_mem h)
    cases this
  refine ⟨hrow, by rw [ht, hd], by rw [hkeys]; exact List.nodup_nil, ?_, ?_, ?_⟩
  · intro k hk
    rw [hkeys] at hk
    cases hk
  · intro w k b h
    exact absurd h (hidle w k b)
  · intro w1 w2 k b1 b2 h
    exact absurd h (hidle w1 k b1)

theorem keys_length_le (l : List Int) (d n : Int) (hn : 0 ≤ n) (hnd : l.Nodup)
    (h : ∀ k ∈ l, d ≤ k ∧ k ≤ d + n) : (l.length : Int) ≤ n + 1 := by
  have hsub : l.toFinset ⊆ Finset.Icc d (d + n) := by
    intro k hk
    rw [List.mem_toFinset] at hk
    exact Finset.mem_Icc.mpr (h k hk)
  have hcard := Finset.card_le_card hsub
  rw [List.toFinset_card_of_nodup hnd, Int.card_Icc] at hcard
  have : (d + n + 1 - d).toNat = (n + 1).toNat := by
    congr 1
    omega
  rw [this] at hcard
  omega

/-- C14. Backpressure bound. In the row-mode engine started right after `Launch`
with at least one worker (`1 <= n_consumer_`) and a look-ahead `kNumBatchInMap >= 0`,
in every state reached under any schedule without `Reset`: every key `k` of
`delivery_map_` satisfies `deliver_id_ <= k <= deliver_id_ + kNumBatchInMap`, so the
map holds at most `kNumBatchInMap + 1` batches, which is at most
`kNumBatchInMap + n_consumer_`. -/
theorem C14_backpressure_bound (E : Env) (K : Constants) (e e1 : Engine)
    (acts : List Action) (outs : List Batch) (hstart : e.rowStart)
    (hK : 0 ≤ K.kNumBatchInMap) (hn : 1 ≤ e.r.n_consumer_)
    (hnoreset : ∀ a ∈ acts, a.isReset = false)
    (hrun : Engine.run E K e acts = some (e1, outs)) :
    (∀ k ∈ e1.r.deliveryKeys,
      e1.r.deliver_id_ ≤ k ∧ k ≤ e1.r.deliver_id_ + K.kNumBatchInMap) ∧
    (e1.r.delivery_map_.length : Int) ≤ K.kNumBatchInMap + 1 ∧
    (e1.r.delivery_map_.length : Int) ≤ K.kNumBatchInMap + e1.r.n_consumer_ := by
  obtain ⟨hinv, hcons⟩ := BackInv_run E K acts e e1 outs (BackInv_start K e hstart) hnoreset hrun
  have hkeys : ∀ k ∈ e1.r.deliveryKeys,
      e1.r.deliver_id_ ≤ k ∧ k ≤ e1.r.deliver_id_ + K.kNumBatchInMap :=
    fun k hk => ⟨(hinv.keys k hk).1, (hinv.keys k hk).2.1⟩
  have hlen := keys_length_le _ _ _ hK hinv.nodup hkeys
  have hlen2 : (e1.r.delivery_map_.length : Int) ≤ K.kNumBatchInMap + 1 := by
    unfold ShardReader.deliveryKeys at hlen
    rw [List.length_map] at hlen
    exact hlen
  refine ⟨hkeys, hlen2, ?_⟩
  rw [hcons]
  omega

theorem C14_backpressure_bound_witness :
    ∃ e1 outs,
      Engine.run threeRowEnv tightConstants ⟨threeRowPlanned, [Worker.idle, Worker.idle]⟩
        backpressureSchedule = some (e1, outs) ∧
      e1.r.deliveryKeys = [0] ∧
      e1.workers[1]? = some (Worker.holding 1 [([66, 66], Json.object [("l", Json.int 2)])]) ∧
      (∀ k ∈ e1.r.deliveryKeys,
        e1.r.deliver_id_ ≤ k ∧ k ≤ e1.r.deliver_id_ + tightConstants.kNumBatchInMap) ∧
      (e1.r.delivery_map_.length : Int) ≤ tightConstants.kNumBatchInMap + 1 ∧
      (e1.r.delivery_map_.length : Int) ≤ tightConstants.kNumBatchInMap + e1.r.n_consumer_ :=
  ⟨_, _, rfl, rfl, rfl,
    C14_backpressure_bound threeRowEnv tightConstants
      ⟨threeRowPlanned, [Worker.idle, Worker.idle]⟩ _ backpressureSchedule _
      ⟨rfl, rfl, rfl, rfl, by simp⟩ (by decide) (by decide) (by decide) rfl⟩

/-! ### `Reset` -/

/-- C15 (the code at the failing input). On the three-row dataset opened in block
mode with one worker, the worker loads block 0 and the first `GetNext()` returns the
dataset's first row, `A` with label 1, leaving `row_id_ = 1`. `Reset()` then sets
`task_id_` and `deliver_id_` to 0 and leaves `row_id_` at 1, and the first
`GetNext()` after it returns the second row, `BB` with label 2, not the first. -/
theorem C15_Reset_keeps_row_id :
    ∃ r e e1 r2,
      Open threeRowBlockEnv exampleConstants ShardReader.new "a.mr" 1 ["l"] [] true =
        some (MSRStatus.SUCCESS, r) ∧
      Launch threeRowBlockEnv exampleConstants r false = some (MSRStatus.SUCCESS, e) ∧
      Engine.run threeRowBlockEnv exampleConstants e firstRowSchedule =
        some (e1, [[([65], Json.object [("l", Json.int 1)])]]) ∧
      e1.r.row_id_ = 1 ∧ e1.r.interrupt_ = false ∧
      (Reset e1.r).task_id_ = 0 ∧ (Reset e1.r).deliver_id_ = 0 ∧ (Reset e1.r).row_id_ = 1 ∧
      GetNext exampleConstants (Reset e1.r) =
        some (some [([66, 66], Json.object [("l", Json.int 2)])], r2) :=
  ⟨_, _, _, _, rfl, rfl, rfl, rfl, rfl, rfl, rfl, rfl, rfl⟩

/-! ### Label projection on the raw-page path -/

theorem find_insertMember (k : String) (v : Json) (k1 : String) :
    ∀ members : List (String × Json),
      ((insertMember k v members).find? (fun kv => kv.1 == k1)).map Prod.snd =
        if k1 = k then some v else (members.find? (fun kv => kv.1 == k1)).map Prod.snd := by
  intro members
  induction members with
  | nil =>
    by_cases h : k1 = k
    · subst h
      simp [insertMember]
    · have : ¬ k = k1 := fun hk => h hk.symm
      simp [insertMember, h, this]
  | cons kv rest ih =>
    obtain ⟨k2, v2⟩ := kv
    unfold insertMember
    by_cases h2 : k = k2
    · subst h2
      rw [if_pos rfl]
      by_cases h : k1 = k
      · subst h
        simp
      · have : ¬ k = k1 := fun hk => h hk.symm
        simp [h, this]
    · rw [if_neg h2]
      by_cases hlt : strLt k k2 = true
      · rw [if_pos hlt]
        by_cases h : k1 = k
        · subst h
          simp
        · have : ¬ k = k1 := fun hk => h hk.symm
          simp [h, this]
      · rw [if_neg hlt]
        by_cases h3 : k2 = k1
        · have hne : ¬ k1 = k := fun hk => h2 (hk.symm.trans h3.symm)
          rw [if_neg hne, List.find?_cons_of_pos _ (by simpa using h3),
            List.find?_cons_of_pos _ (by simpa using h3)]
        · rw [List.find?_cons_of_neg _ (by simpa using h3),
            List.find?_cons_of_neg _ (by simpa using h3)]
          exact ih

theorem find_set (j : Json) (k : String) (v : Json) (k1 : String) (hj : j.assignable = true) :
    (j.set k v).find k1 = if k1 = k then some v else j.find k1 := by
  cases j with
  | null =>
    by_cases h : k1 = k
    · subst h
      simp [Json.set, Json.find]
    · have : ¬ k = k1 := fun hk => h hk.symm
      simp [Json.set, Json.find, h, this]
  | object members => exact find_insertMember k v k1 members
  | int _ => cases hj
  | number_float _ => cases hj
  | str _ => cases hj

theorem set_assignable (j : Json) (k : String) (v : Json) (hj : j.assignable = true) :
    (j.set k v).assignable = true := by
  cases j <;> first | rfl | cases hj

theorem find_projectColumns (m : Json) (k1 : String) :
    ∀ (cols : List String) (acc : Json), acc.assignable = true →
      (projectColumns m cols acc).assignable = true ∧
      (projectColumns m cols acc).find k1 =
        if k1 ∈ cols ∧ (m.find k1).isSome then m.find k1 else acc.find k1 := by
  intro cols
  induction cols with
  | nil =>
    intro acc hacc
    simp [projectColumns, hacc]
  | cons c rest ih =>
    intro acc hacc
    unfold projectColumns
    cases hf : m.find c with
    | none =>
      simp only
      obtain ⟨h1, h2⟩ := ih acc hacc
      refine ⟨h1, ?_⟩
      rw [h2]
      by_cases hk : k1 = c
      · subst hk
        simp [hf]
      · simp [hk]
    | some v =>
      simp only
      obtain ⟨h1, h2⟩ := ih (acc.set c v) (set_assignable acc c v hacc)
      refine ⟨h1, ?_⟩
      rw [h2, find_set acc c v k1 hacc]
      by_cases hk : k1 = c
      · subst hk
        simp [hf]
      · simp [hk]

/-- C16 (the code at the failing input). The projection loop of `ConvertLabelToJson`
starts from a null value: for every decoded record `m` and column list, the labels
hold under a key `k` what `m` holds when `k` is a column of the list, and nothing
otherwise. The loop of `GetLabelsFromBinaryFile` starts from a copy of `m`: for every
record that is an object and every column list, the labels hold under every key what
`m` holds, the keys outside the list included. On the example dataset with the column
list `text`, `ConvertLabelToJson` gives the labels with the key `text` alone and
`GetLabelsFromBinaryFile` gives the whole record, with the key `l` as well; with the
empty column list both give the whole record. -/
theorem C16_page_path_labels_not_projected :
    (∀ (m : Json) (cols : List String) (k : String),
      (projectColumns m cols Json.null).find k = if k ∈ cols then m.find k else none) ∧
    (∀ (members : List (String × Json)) (cols : List String) (k : String),
      (projectColumns (Json.object members) cols (Json.object members)).find k =
        (Json.object members).find k) ∧
    ConvertLabelToJson.label exampleEnv examplePlanned ⟨exampleFile, true⟩ ["text"]
        ["0", "0", "9", "1", "0", "19"] =
      some (some (Json.object [("text", Json.str "a")])) ∧
    GetLabelsFromBinaryFile exampleEnv examplePlanned 0 ["text"] [["1", "0", "19"]] =
      some (MSRStatus.SUCCESS, [Json.object [("l", Json.int 1), ("text", Json.str "a")]]) ∧
    ConvertLabelToJson.label exampleEnv examplePlanned ⟨exampleFile, true⟩ []
        ["0", "0", "9", "1", "0", "19"] =
      some (some (Json.object [("l", Json.int 1), ("text", Json.str "a")])) ∧
    GetLabelsFromBinaryFile exampleEnv examplePlanned 0 [] [["1", "0", "19"]] =
      some (MSRStatus.SUCCESS, [Json.object [("l", Json.int 1), ("text", Json.str "a")]]) := by
  refine ⟨?_, ?_, rfl, rfl, rfl, rfl⟩
  · intro m cols k
    rw [(find_projectColumns m k cols Json.null rfl).2]
    by_cases hk : k ∈ cols
    · cases hf : m.find k <;> simp [hk, Json.find]
    · simp [hk, Json.find]
  · intro members cols k
    rw [(find_projectColumns (Json.object members) k cols (Json.object members) rfl).2]
    split <;> rfl

/-! ### Column typing -/

theorem mapFind_append (m : List (String × Nat)) (c k : String) :
    ((mapFind (m ++ [(c, 0)]) k).getD 0) = (mapFind m k).getD 0 := by
  unfold mapFind
  rw [List.find?_append]
  cases h : m.find? (fun kv => kv.1 == k) with
  | some kv => rfl
  | none =>
    simp only [Option.none_or, List.find?_cons, List.find?_nil]
    split <;> rfl

theorem mapIndex_fst (m : List (String × Nat)) (k : String) :
    (mapIndex m k).1 = (mapFind m k).getD 0 := by
  unfold mapIndex
  cases h : mapFind m k <;> rfl

theorem mapIndex_snd_find (m : List (String × Nat)) (c k : String) :
    (mapFind (mapIndex m c).2 k).getD 0 = (mapFind m k).getD 0 := by
  unfold mapIndex
  cases h : mapFind m c with
  | some v => rfl
  | none => exact mapFind_append m c k

theorem GetLabels_fields_find (k : String) :
    ∀ (cols : List (String × Nat)) (fields : String) (ids : List (String × Nat)),
      (mapFind (GetLabels.fields cols fields ids).2 k).getD 0 = (mapFind ids k).getD 0 := by
  intro cols
  induction cols with
  | nil => intro fields ids; rfl
  | cons c rest ih =>
    intro fields ids
    obtain ⟨col, i⟩ := c
    unfold GetLabels.fields
    simp only
    rw [ih, mapIndex_snd_find]

theorem constructJson_withBind (E : Env)
    (bind : String → String → String → Option (List (List (Option String))))
    (r : ShardReader) (row : List String) (first : Nat) :
    ∀ (cols : List (String × Nat)) (acc : Json),
      constructJson (E.withBind bind) r row first cols acc = constructJson E r row first cols acc := by
  intro cols
  induction cols with
  | nil => intro acc; rfl
  | cons c rest ih =>
    intro acc
    obtain ⟨col, j⟩ := c
    unfold constructJson
    split
    · rename_i ty cell h1 h2
      have hc : castCell (E.withBind bind) ty cell = castCell E ty cell := rfl
      rw [hc]
      split
      · exact ih _
      · rfl
    · rfl

theorem GetLabels_convert_withBind (E : Env)
    (bind : String → String → String → Option (List (List (Option String))))
    (r : ShardReader) (cols : List String) :
    ∀ rows : List (List String),
      GetLabels.convert (E.withBind bind) r cols rows = GetLabels.convert E r cols rows := by
  intro rows
  induction rows with
  | nil => rfl
  | cons row rest ih =>
    unfold GetLabels.convert
    rw [ih, constructJson_withBind]

theorem GetLabelsFromBinaryFile_loop_withBind (E : Env)
    (bind : String → String → String → Option (List (List (Option String))))
    (r : ShardReader) (fs : fstream) (cols : List String) :
    ∀ rows : List (List String),
      GetLabelsFromBinaryFile.loop (E.withBind bind) r fs cols rows =
        GetLabelsFromBinaryFile.loop E r fs cols rows := by
  intro rows
  induction rows with
  | nil => rfl
  | cons row rest ih =>
    unfold GetLabelsFromBinaryFile.loop
    rw [ih]
    rfl

theorem GetLabelsFromBinaryFile_withBind (E : Env)
    (bind : String → String → String → Option (List (List (Option String))))
    (r : ShardReader) (shard_id : Int) (cols : List String) (rows : List (List String)) :
    GetLabelsFromBinaryFile (E.withBind bind) r shard_id cols rows =
      GetLabelsFromBinaryFile E r shard_id cols rows := by
  unfold GetLabelsFromBinaryFile
  simp only [GetLabelsFromBinaryFile_loop_withBind]
  rfl

theorem QueryWithCriteria_withBind (E : Env)
    (bind : String → String → String → Option (List (List (Option String))))
    (db sql value : String) (labels : List (List String))
    (h : bind db sql value = E.exec_bind db sql value) :
    QueryWithCriteria (E.withBind bind) db sql value labels =
      QueryWithCriteria E db sql value labels := by
  unfold QueryWithCriteria
  show (match bind db sql value with
    | none => _
    | some rows => _) = _
  rw [h]

theorem GetImageOffset_query (E : Env) (K : Constants) (r : ShardReader) (page_id shard_id : Int)
    (criteria : Criteria) (db sql : String) (ids : List (String × Nat))
    (exec : String → String → Option (List (List (Option String))))
    (hshard : 0 ≤ shard_id) (hdb : r.database_paths_[shard_id.toNat]? = some db)
    (hsql : GetImageOffset.sql r page_id criteria = some (sql, ids))
    (h : exec db sql = E.exec db sql) :
    GetImageOffset (E.withExec exec) K r page_id shard_id criteria =
      GetImageOffset E K r page_id shard_id criteria := by
  unfold GetImageOffset
  rw [if_neg (by omega), hdb, hsql]
  have : sqlite3_exec (E.withExec exec) K db sql = sqlite3_exec E K db sql := by
    unfold sqlite3_exec
    show (match exec db sql with
      | none => _
      | some rows => _) = _
    rw [h]
  simp only [this]

theorem GetImageOffset_sql_text (r : ShardReader) (page_id : Int) (field ty value : String)
    (hfield : field.isEmpty = false) (hty : schemaType r field = some (some ty)) :
    GetImageOffset.sql r page_id (field, value) =
      some (imageOffsetQuery r page_id field ty value, (mapIndex r.column_schema_id_ field).2) := by
  unfold GetImageOffset.sql imageOffsetQuery criteriaColumn
  simp only [hfield, hty, Bool.false_eq_true, not_false_eq_true, if_true]
  by_cases hnum : kNumberFieldTypeSet.contains ty = true
  · simp only [hnum, if_true, String.append_assoc]
  · simp only [hnum, if_false, String.append_assoc, Bool.false_eq_true]

theorem GetLabelsFromPage_query (E : Env) (K : Constants) (r : ShardReader)
    (page_id shard_id : Int) (cols : List String) (field value db : String)
    (bind : String → String → String → Option (List (List (Option String))))
    (hfield : field.isEmpty = false) (hshard : 0 ≤ shard_id)
    (hdb : r.database_paths_[shard_id.toNat]? = some db)
    (h : bind db (boundQuery r (pageSelect page_id) field) value =
      E.exec_bind db (boundQuery r (pageSelect page_id) field) value) :
    GetLabelsFromPage (E.withBind bind) K r page_id shard_id cols (field, value) =
      GetLabelsFromPage E K r page_id shard_id cols (field, value) := by
  unfold boundQuery criteriaColumn pageSelect at h
  simp only [String.append_assoc] at h
  unfold GetLabelsFromPage
  rw [if_neg (by omega), hdb]
  simp only [hfield, Bool.false_eq_true, not_false_eq_true, if_true, String.append_assoc]
  rw [QueryWithCriteria_withBind E bind db _ value [] h]
  simp only [GetLabelsFromBinaryFile_withBind]

theorem QueryWithCriteria_none (E : Env) (db sql value : String) (labels : List (List String))
    (h : E.exec_bind db sql value = none) :
    QueryWithCriteria E db sql value labels = some none := by
  unfold QueryWithCriteria
  rw [h]

theorem GetImageOffset_none (E : Env) (K : Constants) (r : ShardReader) (page_id shard_id : Int)
    (field ty value db : String) (hfield : field.isEmpty = false) (hshard : 0 ≤ shard_id)
    (hdb : r.database_paths_[shard_id.toNat]? = some db)
    (hty : schemaType r field = some (some ty))
    (h : E.exec db (imageOffsetQuery r page_id field ty value) = none) :
    (GetImageOffset E K r page_id shard_id (field, value)).map Prod.fst = some [] := by
  unfold GetImageOffset
  rw [if_neg (by omega), hdb, GetImageOffset_sql_text r page_id field ty value hfield hty]
  have : sqlite3_exec E K db (imageOffsetQuery r page_id field ty value) = some none := by
    unfold sqlite3_exec
    rw [h]
  simp only [this]
  rfl

theorem GetLabelsFromPage_none (E : Env) (K : Constants) (r : ShardReader)
    (page_id shard_id : Int) (cols : List String) (field value db : String)
    (hfield : field.isEmpty = false) (hshard : 0 ≤ shard_id)
    (hdb : r.database_paths_[shard_id.toNat]? = some db)
    (h : E.exec_bind db (boundQuery r (pageSelect page_id) field) value = none) :
    (GetLabelsFromPage E K r page_id shard_id cols (field, value)).map Prod.fst =
      some (MSRStatus.FAILED, []) := by
  unfold boundQuery criteriaColumn pageSelect at h
  simp only [String.append_assoc] at h
  unfold GetLabelsFromPage
  rw [if_neg (by omega), hdb]
  simp only [hfield, Bool.false_eq_true, not_false_eq_true, if_true, String.append_assoc]
  rw [QueryWithCriteria_none E db _ value [] h]
  rfl

theorem GetLabels_query (E : Env) (K : Constants) (r : ShardReader)
    (page_id shard_id : Int) (cols : List String) (field db : String)
    (hfield : field.isEmpty = false) (hshard : 0 ≤ shard_id)
    (hdb : r.database_paths_[shard_id.toNat]? = some db) :
    ∃ select, ∀ (value : String),
      (∀ bind : String → String → String → Option (List (List (Option String))),
        bind db (boundQuery r select field) value =
          E.exec_bind db (boundQuery r select field) value →
        GetLabels (E.withBind bind) K r page_id shard_id cols (field, value) =
          GetLabels E K r page_id shard_id cols (field, value)) ∧
      (E.exec_bind db (boundQuery r select field) value = none →
        (GetLabels E K r page_id shard_id cols (field, value)).map Prod.fst =
          some (MSRStatus.FAILED, [])) := by
  by_cases hindex : r.all_in_index_ = true
  · refine ⟨"SELECT " ++
      (if (GetLabels.fields (enumColumns cols) "" r.column_schema_id_).1.isEmpty then "*"
       else (GetLabels.fields (enumColumns cols) "" r.column_schema_id_).1) ++
      " FROM INDEXES WHERE PAGE_ID_BLOB = " ++ toString page_id, ?_⟩
    intro value
    have hid : (mapIndex (GetLabels.fields (enumColumns cols) "" r.column_schema_id_).2 field).1 =
        (mapIndex r.column_schema_id_ field).1 := by
      rw [mapIndex_fst, mapIndex_fst, GetLabels_fields_find]
    have hlit : (" = " ++ ":criteria" : String) = " = :criteria" := by decide
    refine ⟨?_, ?_⟩
    · intro bind h
      unfold boundQuery criteriaColumn at h
      simp only [String.append_assoc] at h
      unfold GetLabels
      rw [if_pos hindex, if_pos hindex, if_neg (by omega), hdb]
      simp only [hfield, Bool.false_eq_true, not_false_eq_true, if_true, String.append_assoc, hid,
        hlit]
      rw [QueryWithCriteria_withBind E bind db _ value [] h]
      simp only [GetLabels_convert_withBind]
    · intro h
      unfold boundQuery criteriaColumn at h
      simp only [String.append_assoc] at h
      unfold GetLabels
      rw [if_pos hindex, if_neg (by omega), hdb]
      simp only [hfield, Bool.false_eq_true, not_false_eq_true, if_true, String.append_assoc, hid,
        hlit]
      rw [QueryWithCriteria_none E db _ value [] h]
      rfl
  · refine ⟨pageSelect page_id, ?_⟩
    intro value
    refine ⟨?_, ?_⟩
    · intro bind h
      unfold GetLabels
      rw [if_neg hindex, if_neg hindex]
      exact GetLabelsFromPage_query E K r page_id shard_id cols field value db bind hfield hshard
        hdb h
    · intro h
      unfold GetLabels
      rw [if_neg hindex]
      exact GetLabelsFromPage_none E K r page_id shard_id cols field value db hfield hshard hdb h

/-- C18 (amended). Criteria queries, for a criteria `(field, value)` with a non-empty
field whose declared type is `ty`. Each builder filters on the column
`<field>_<schema_id>`. `GetImageOffset` puts the value into the SQL text, bare when
`ty` is a number type and between single quotes otherwise: that text is what
`GetImageOffset.sql` builds, the result is the same under every index that answers
that text alike, and it is empty when that query fails. `GetLabelsFromPage` and
`GetLabels` never put the value into the SQL text, whatever the type: the text is a
select part that does not depend on the value followed by the predicate
`<field>_<schema_id> = :criteria`, the value is bound, the result is the same under
every index that answers that statement with that value alike, and the status is
`FAILED` when that statement fails. -/
theorem C18_criteria_queries (E : Env) (K : Constants) (r : ShardReader)
    (page_id shard_id : Int) (cols : List String) (field ty db : String)
    (hfield : field.isEmpty = false) (hshard : 0 ≤ shard_id)
    (hdb : r.database_paths_[shard_id.toNat]? = some db)
    (hty : schemaType r field = some (some ty)) :
    (∀ value,
      (GetImageOffset.sql r page_id (field, value)).map Prod.fst =
        some (imageOffsetQuery r page_id field ty value) ∧
      (∀ exec : String → String → Option (List (List (Option String))),
        exec db (imageOffsetQuery r page_id field ty value) =
          E.exec db (imageOffsetQuery r page_id field ty value) →
        GetImageOffset (E.withExec exec) K r page_id shard_id (field, value) =
          GetImageOffset E K r page_id shard_id (field, value)) ∧
      (E.exec db (imageOffsetQuery r page_id field ty value) = none →
        (GetImageOffset E K r page_id shard_id (field, value)).map Prod.fst = some [])) ∧
    (∀ value,
      (∀ bind : String → String → String → Option (List (List (Option String))),
        bind db (boundQuery r (pageSelect page_id) field) value =
          E.exec_bind db (boundQuery r (pageSelect page_id) field) value →
        GetLabelsFromPage (E.withBind bind) K r page_id shard_id cols (field, value) =
          GetLabelsFromPage E K r page_id shard_id cols (field, value)) ∧
      (E.exec_bind db (boundQuery r (pageSelect page_id) field) value = none →
        (GetLabelsFromPage E K r page_id shard_id cols (field, value)).map Prod.fst =
          some (MSRStatus.FAILED, []))) ∧
    (∃ select, ∀ value,
      (∀ bind : String → String → String → Option (List (List (Option String))),
        bind db (boundQuery r select field) value =
          E.exec_bind db (boundQuery r select field) value →
        GetLabels (E.withBind bind) K r page_id shard_id cols (field, value) =
          GetLabels E K r page_id shard_id cols (field, value)) ∧
      (E.exec_bind db (boundQuery r select field) value = none →
        (GetLabels E K r page_id shard_id cols (field, value)).map Prod.fst =
          some (MSRStatus.FAILED, []))) := by
  refine ⟨?_, ?_, GetLabels_query E K r page_id shard_id cols field db hfield hshard hdb⟩
  · intro value
    have hsql := GetImageOffset_sql_text r page_id field ty value hfield hty
    refine ⟨by rw [hsql]; rfl, ?_, ?_⟩
    · intro exec h
      exact GetImageOffset_query E K r page_id shard_id (field, value) db _ _ exec hshard hdb
        hsql h
    · exact GetImageOffset_none E K r page_id shard_id field ty value db hfield hshard hdb hty
  · intro value
    exact ⟨fun bind h => GetLabelsFromPage_query E K r page_id shard_id cols field value db bind
        hfield hshard hdb h,
      GetLabelsFromPage_none E K r page_id shard_id cols field value db hfield hshard hdb⟩

theorem C18_criteria_queries_witness :
    (GetImageOffset.sql exampleInit 0 ("l", "1")).map Prod.fst =
        some "SELECT PAGE_OFFSET_BLOB, PAGE_OFFSET_BLOB_END FROM INDEXES WHERE PAGE_ID_BLOB = 0 AND l_0 = 1;" ∧
      (GetImageOffset exampleEnv exampleConstants exampleInit 0 0 ("l", "1")).map Prod.fst =
        some [] ∧
      (GetLabelsFromPage exampleEnv exampleConstants exampleInit 0 0 [] ("l", "1")).map Prod.fst =
        some (MSRStatus.FAILED, []) :=
  ⟨((C18_criteria_queries exampleEnv exampleConstants exampleInit 0 0 [] "l" "int32" "a.mr.db"
      rfl (by decide) rfl rfl).1 "1").1,
   ((C18_criteria_queries exampleEnv exampleConstants exampleInit 0 0 [] "l" "int32" "a.mr.db"
      rfl (by decide) rfl rfl).1 "1").2.2 rfl,
   ((C18_criteria_queries exampleEnv exampleConstants exampleInit 0 0 [] "l" "int32" "a.mr.db"
      rfl (by decide) rfl rfl).2.1 "1").2 rfl⟩

/-- C18 as stated fails on the example dataset. For the string column `text`,
`GetImageOffset` puts the value `a` into the SQL text, between single quotes: it gets
its rows from an index that answers that text alone. For the number column `l`,
`GetLabelsFromPage` does not put the value `1` into the SQL text: it gets its rows
from an index that answers the statement with `l_0 = :criteria` and the bound value
alone. -/
theorem C18_counterexample :
    schemaType exampleInit "text" = some (some "string") ∧
      kNumberFieldTypeSet.contains "string" = false ∧
      (GetImageOffset.sql exampleInit 0 ("text", "a")).map Prod.fst =
        some "SELECT PAGE_OFFSET_BLOB, PAGE_OFFSET_BLOB_END FROM INDEXES WHERE PAGE_ID_BLOB = 0 AND text_0 = \x27a\x27;" ∧
      (GetImageOffset criteriaEnv exampleConstants exampleInit 0 0 ("text", "a")).map Prod.fst =
        some [[8, 9]] ∧
      schemaType exampleInit "l" = some (some "int32") ∧
      kNumberFieldTypeSet.contains "int32" = true ∧
      (GetLabelsFromPage criteriaEnv exampleConstants exampleInit 0 0 [] ("l", "1")).map Prod.fst =
        some (MSRStatus.SUCCESS, [Json.object [("l", Json.int 1), ("text", Json.str "a")]]) :=
  ⟨rfl, rfl, rfl, rfl, rfl, rfl, rfl⟩

/-! ### The worker count -/

theorem Open_streams_n_consumer (E : Env) (K : Constants) (r : ShardReader) (n_consumer : Int)
    (operators : List ShardOperator) (block_reader : Bool) :
    (Open.streams E K r n_consumer operators block_reader).2.n_consumer_ = n_consumer ∧
      (Open.streams E K r n_consumer operators block_reader).2.operators_ = operators := by
  unfold Open.streams
  cases block_reader with
  | true =>
    simp only [if_true]
    split
    · exact ⟨rfl, rfl⟩
    · exact ⟨rfl, rfl⟩
  | false =>
    simp only [Bool.false_eq_true, if_false]
    split
    · exact ⟨rfl, rfl⟩
    · exact ⟨rfl, rfl⟩

theorem Open_n_consumer (E : Env) (K : Constants) (r0 r : ShardReader) (file_path : String)
    (n_consumer : Int) (selected_columns : List String) (operators : List ShardOperator)
    (block_reader : Bool)
    (h : Open E K r0 file_path n_consumer selected_columns operators block_reader =
      some (MSRStatus.SUCCESS, r)) :
    r.n_consumer_ = Open.clamp E K n_consumer ∧ r.operators_ = operators := by
  unfold Open at h
  split at h
  · cases h
  · dsimp only at h
    split at h
    · cases h
    · rename_i r1 _ _
      have hs := Open_streams_n_consumer E K (Open.selectColumns r1 selected_columns)
        (Open.clamp E K n_consumer) operators block_reader
      simp only [Option.some.injEq] at h
      rw [h] at hs
      exact hs
  · rename_i hne _
    simp only [Option.some.injEq, Prod.mk.injEq] at h
    cases h.1

theorem clamp_eq (E : Env) (K : Constants) (n_consumer : Int) :
    Open.clamp E K n_consumer = max (min n_consumer E.GetMaxThreadNum) K.kMinConsumerCount := by
  unfold Open.clamp
  dsimp only
  by_cases h1 : n_consumer > E.GetMaxThreadNum
  · rw [if_pos h1]
    by_cases h2 : E.GetMaxThreadNum < K.kMinConsumerCount
    · rw [if_pos h2]; omega
    · rw [if_neg h2]; omega
  · rw [if_neg h1]
    by_cases h2 : n_consumer < K.kMinConsumerCount
    · rw [if_pos h2]; omega
    · rw [if_neg h2]; omega

theorem CreateTasks_n_consumer (E : Env) (K : Constants) (r r1 : ShardReader)
    (summary : List SummaryEntry) (operators : List ShardOperator)
    (h : CreateTasks E K r summary operators = some (MSRStatus.SUCCESS, r1)) :
    r1.n_consumer_ = r.n_consumer_ := by
  unfold CreateTasks at h
  split at h
  · cases h
  · cases h
  · rename_i r2 hb
    have hf := (build_frame _ _ _ _ _ _ _ hb).same_n_consumer
    split at h
    · cases h
      exact hf
    · cases h

theorem Launch_accepts (E : Env) (K : Constants) (r r1 : ShardReader)
    (hn : 1 ≤ r.n_consumer_ ∧ r.n_consumer_ ≤ K.kMaxConsumerCount)
    (h : CreateTasks E K r (sortRowGroups (ReadRowGroupSummary K r.shard_header_)) r.operators_ =
      some (MSRStatus.SUCCESS, r1)) :
    Launch E K r false =
      some (MSRStatus.SUCCESS, ⟨r1, List.replicate r.n_consumer_.toNat Worker.idle⟩) := by
  have hnc := CreateTasks_n_consumer E K r r1 _ _ h
  unfold Launch
  simp only [h]
  have h1 : ¬ r.n_consumer_ < 0 := by omega
  have h2 : ¬ (r.n_consumer_ ≤ 0 ∨ r.n_consumer_ > K.kMaxConsumerCount) := by omega
  simp only [Bool.false_eq_true, if_false, hnc]
  rw [if_neg h1, if_neg h2]

/-- C19 (amended). Worker-count clamp. After a successful `Open` the stored
`n_consumer_` is `max(min(n_consumer, max_thread_num), kMinConsumerCount)`: it is at
least `kMinConsumerCount`, it is at most `max_thread_num` when
`kMinConsumerCount <= max_thread_num`, and it is the requested value when that lies
in `[kMinConsumerCount, max_thread_num]`. `Open` does not compare it with
`kMaxConsumerCount`: when `1 <= kMinConsumerCount <= max_thread_num <=
kMaxConsumerCount`, it lies in `[1, kMaxConsumerCount]` and a non-simple `Launch`
whose planning succeeds starts that many workers and returns `SUCCESS`. -/
theorem C19_worker_count_clamp (E : Env) (K : Constants) (r0 r : ShardReader)
    (file_path : String) (n_consumer : Int) (selected_columns : List String)
    (operators : List ShardOperator) (block_reader : Bool)
    (hopen : Open E K r0 file_path n_consumer selected_columns operators block_reader =
      some (MSRStatus.SUCCESS, r)) :
    r.n_consumer_ = max (min n_consumer E.GetMaxThreadNum) K.kMinConsumerCount ∧
    K.kMinConsumerCount ≤ r.n_consumer_ ∧
    (K.kMinConsumerCount ≤ E.GetMaxThreadNum → r.n_consumer_ ≤ E.GetMaxThreadNum) ∧
    (K.kMinConsumerCount ≤ n_consumer → n_consumer ≤ E.GetMaxThreadNum →
      r.n_consumer_ = n_consumer) ∧
    (1 ≤ K.kMinConsumerCount → K.kMinConsumerCount ≤ E.GetMaxThreadNum →
      E.GetMaxThreadNum ≤ K.kMaxConsumerCount →
      1 ≤ r.n_consumer_ ∧ r.n_consumer_ ≤ K.kMaxConsumerCount ∧
      ∀ r1,
        CreateTasks E K r (sortRowGroups (ReadRowGroupSummary K r.shard_header_)) r.operators_ =
          some (MSRStatus.SUCCESS, r1) →
        Launch E K r false =
          some (MSRStatus.SUCCESS, ⟨r1, List.replicate r.n_consumer_.toNat Worker.idle⟩)) := by
  have hn := (Open_n_consumer E K r0 r file_path n_consumer selected_columns operators
    block_reader hopen).1
  rw [clamp_eq] at hn
  refine ⟨hn, by omega, fun _ => by omega, fun _ _ => by omega, ?_⟩
  intro h1 h2 h3
  have hr : 1 ≤ r.n_consumer_ ∧ r.n_consumer_ ≤ K.kMaxConsumerCount := by omega
  exact ⟨hr.1, hr.2, fun r1 hc => Launch_accepts E K r r1 hr hc⟩

theorem C19_worker_count_clamp_witness :
    ∃ r e,
      Open threeRowEnv exampleConstants ShardReader.new "a.mr" 7 ["l"] [] false =
        some (MSRStatus.SUCCESS, r) ∧
      r.n_consumer_ = 4 ∧
      Launch threeRowEnv exampleConstants r false =
        some (MSRStatus.SUCCESS, ⟨e, List.replicate 4 Worker.idle⟩) :=
  ⟨_, _, rfl,
    (C19_worker_count_clamp threeRowEnv exampleConstants ShardReader.new _ "a.mr" 7 ["l"] []
      false rfl).1,
    ((C19_worker_count_clamp threeRowEnv exampleConstants ShardReader.new _ "a.mr" 7 ["l"] []
      false rfl).2.2.2.2 (by decide) (by decide) (by decide)).2.2 _ rfl⟩

/-- C19 as stated fails when the machine has more threads than `kMaxConsumerCount`:
with `max_thread_num = 256` and `kMaxConsumerCount = 128`, `Open` with 200 requested
workers succeeds and stores `n_consumer_ = 200`, which is outside
`[1, kMaxConsumerCount]`, and the non-simple `Launch` that follows returns `FAILED`. -/
theorem C19_counterexample :
    ∃ r e,
      Open manyThreadsEnv exampleConstants ShardReader.new "a.mr" 200 ["l"] [] true =
        some (MSRStatus.SUCCESS, r) ∧
      r.n_consumer_ = 200 ∧ manyThreadsEnv.GetMaxThreadNum = 256 ∧
      exampleConstants.kMaxConsumerCount = 128 ∧
      Launch manyThreadsEnv exampleConstants r false = some (MSRStatus.FAILED, e) :=
  ⟨_, _, rfl, rfl, rfl, rfl, rfl⟩

/-! ### Row-task addresses -/

theorem AddressValid_of_lt (a b : Nat) (h : a < b) (hb : b < 2 ^ 64) : AddressValid [a, b] := by
  refine ⟨a, b, rfl, h, ?_⟩
  have h1 : b + 2 ^ 64 - a = (b - a) + 2 ^ 64 := by omega
  rw [h1, Nat.add_mod_right, Nat.mod_eq_of_lt (by omega)]

theorem mem_defaultPlan (n : Nat) (view : Nat → List IndexRow) (task : Task)
    (h : task ∈ defaultPlan n view) : ∃ s < n, ∃ v ∈ view s, task = IndexRow.task s v := by
  unfold defaultPlan at h
  rw [List.mem_flatMap] at h
  obtain ⟨s, hs, ht⟩ := h
  rw [List.mem_map] at ht
  obtain ⟨v, hv, rfl⟩ := ht
  exact ⟨s, List.mem_range.mp hs, v, hv, rfl⟩

theorem GetImageOffset_convert_pairs :
    ∀ (rows : List (List String)) (cells : List (Nat × Nat)),
      List.Forall₂ (fun row ab => (row[0]? >>= stoull) = some ab.1 ∧
        (row[1]? >>= stoull) = some ab.2) rows cells →
      (∀ ab ∈ cells, ab.1 + kInt64Len < 2 ^ 64) →
      GetImageOffset.convert rows = some (cells.map (fun ab => [ab.1 + kInt64Len, ab.2])) := by
  intro rows cells h
  induction h with
  | nil =>
    intro _
    rfl
  | cons hab _ ih =>
    intro hlt
    unfold GetImageOffset.convert
    rw [hab.1, hab.2, ih (fun x hx => hlt x (List.mem_cons_of_mem _ hx))]
    simp only [List.map_cons]
    rw [Nat.mod_eq_of_lt (hlt _ (List.mem_cons_self _ _))]

/-- C20 (amended). Row-task address invariant, for index rows with
`PAGE_OFFSET_BLOB + kInt64Len < PAGE_OFFSET_BLOB_END < 2^64`. When every row the
shards return for the planning query is such a row, every task of default row-mode
planning has the address `[PAGE_OFFSET_BLOB + kInt64Len, PAGE_OFFSET_BLOB_END]` of
its row, with `blob_end > blob_start` and a read length `addr[1] - addr[0]` that does
not wrap in `uint64_t`. And when the page query of `GetImageOffset` returns such
rows, `GetImageOffset` returns, row by row, the pair
`[PAGE_OFFSET_BLOB + kInt64Len, PAGE_OFFSET_BLOB_END]`, each with
`blob_end > blob_start` and a read length that does not wrap. -/
theorem C20_row_task_address (E : Env) (K : Constants) (r : ShardReader)
    (summary : List SummaryEntry) (view : Nat → List IndexRow)
    (hrow : r.block_reader_ = false) (hempty : r.tasks_ = ⟨[], []⟩)
    (hcap : r.shard_count_ ≤ K.kMaxShardCount) (hK : K.kMaxShardCount < 2 ^ 31)
    (hreads : DefaultPlanReads E K r view) :
    ((∀ s < r.shard_count_.toNat, ∀ v ∈ view s,
        v.PAGE_OFFSET_BLOB + kInt64Len < v.PAGE_OFFSET_BLOB_END ∧
        v.PAGE_OFFSET_BLOB_END < 2 ^ 64) →
      ∃ r1, CreateTasks E K r summary [] = some (MSRStatus.SUCCESS, r1) ∧
        r1.tasks_.task_list_ = defaultPlan r.shard_count_.toNat view ∧
        ∀ task ∈ r1.tasks_.task_list_,
          (∃ s < r.shard_count_.toNat, ∃ v ∈ view s,
            task.2.1 = [v.PAGE_OFFSET_BLOB + kInt64Len, v.PAGE_OFFSET_BLOB_END]) ∧
          AddressValid task.2.1) ∧
    (∀ (E2 : Env) (r2 : ShardReader) (page_id shard_id : Int) (criteria : Criteria)
        (db sql : String) (ids : List (String × Nat)) (rows : List (List String))
        (cells : List (Nat × Nat)),
      0 ≤ shard_id → r2.database_paths_[shard_id.toNat]? = some db →
      GetImageOffset.sql r2 page_id criteria = some (sql, ids) →
      sqlite3_exec E2 K db sql = some (some rows) →
      List.Forall₂ (fun row ab => (row[0]? >>= stoull) = some ab.1 ∧
        (row[1]? >>= stoull) = some ab.2) rows cells →
      (∀ ab ∈ cells, ab.1 + kInt64Len < ab.2 ∧ ab.2 < 2 ^ 64) →
      (GetImageOffset E2 K r2 page_id shard_id criteria).map Prod.fst =
          some (cells.map (fun ab => [ab.1 + kInt64Len, ab.2])) ∧
        ∀ ab ∈ cells, AddressValid [ab.1 + kInt64Len, ab.2]) := by
  refine ⟨?_, ?_⟩
  · intro hvalid
    obtain ⟨r0, _, htasks, hct⟩ := CreateTasks_row_default E K r summary view hrow hcap hK hreads
    have hlist : (CreateTasks.finish r0).tasks_.task_list_ =
        defaultPlan r.shard_count_.toNat view := by
      rw [(finish_tasks r0).1, htasks, hempty]
      rfl
    refine ⟨_, hct, hlist, ?_⟩
    intro task htask
    rw [hlist] at htask
    obtain ⟨s, hs, v, hv, rfl⟩ := mem_defaultPlan _ _ _ htask
    obtain ⟨h1, h2⟩ := hvalid s hs v hv
    exact ⟨⟨s, hs, v, hv, rfl⟩, AddressValid_of_lt _ _ h1 h2⟩
  · intro E2 r2 page_id shard_id criteria db sql ids rows cells hshard hdb hsql hexec hrows hcells
    refine ⟨?_, fun ab hab => AddressValid_of_lt _ _ (hcells ab hab).1 (hcells ab hab).2⟩
    unfold GetImageOffset
    rw [if_neg (by omega), hdb, hsql]
    dsimp only
    rw [hexec]
    dsimp only
    rw [GetImageOffset_convert_pairs rows cells hrows
      (fun ab hab => by have := hcells ab hab; omega)]
    rfl

theorem C20_row_task_address_witness :
    (∃ r1, CreateTasks planEnv exampleConstants planReader [] [] = some (MSRStatus.SUCCESS, r1) ∧
      r1.tasks_.task_list_ = defaultPlan planReader.shard_count_.toNat planView ∧
      ∀ task ∈ r1.tasks_.task_list_,
        (∃ s < planReader.shard_count_.toNat, ∃ v ∈ planView s,
          task.2.1 = [v.PAGE_OFFSET_BLOB + kInt64Len, v.PAGE_OFFSET_BLOB_END]) ∧
        AddressValid task.2.1) ∧
    ((GetImageOffset threeRowBlockEnv exampleConstants threeRowPlanned 0 0 ("", "")).map Prod.fst =
        some ([(0, 9), (9, 19), (19, 30)].map (fun ab => [ab.1 + kInt64Len, ab.2])) ∧
      ∀ ab ∈ [(0, 9), (9, 19), (19, 30)], AddressValid [ab.1 + kInt64Len, ab.2]) :=
  ⟨(C20_row_task_address planEnv exampleConstants planReader [] planView rfl rfl (by decide)
      (by decide) planReads).1 (by
        intro s hs v hv
        have hs2 : s < 2 := hs
        interval_cases s
        · simp only [planView, if_true, List.mem_cons, List.mem_singleton, List.not_mem_nil,
            or_false] at hv
          rcases hv with rfl | rfl <;> decide
        · simp only [planView, Nat.succ_ne_zero, if_false, List.mem_cons, List.mem_singleton,
            List.not_mem_nil, or_false] at hv
          rcases hv with rfl | rfl <;> decide),
   (C20_row_task_address planEnv exampleConstants planReader [] planView rfl rfl (by decide)
      (by decide) planReads).2 threeRowBlockEnv threeRowPlanned 0 0 ("", "") "a.mr.db"
      "SELECT PAGE_OFFSET_BLOB, PAGE_OFFSET_BLOB_END FROM INDEXES WHERE PAGE_ID_BLOB = 0;"
      [("l", 0)] [["0", "9"], ["9", "19"], ["19", "30"]] [(0, 9), (9, 19), (19, 30)]
      (by decide) rfl (by decide) rfl
      (List.Forall₂.cons ⟨rfl, rfl⟩ (List.Forall₂.cons ⟨rfl, rfl⟩
        (List.Forall₂.cons ⟨rfl, rfl⟩ List.Forall₂.nil)))
      (by decide)⟩

/-- C20 as stated fails on an index row with `PAGE_OFFSET_BLOB = 0` and
`PAGE_OFFSET_BLOB_END = 4`: row-mode planning stores the task address `[8, 4]` and
`GetImageOffset` returns the pair `[8, 4]`, where `blob_end > blob_start` does not
hold and the read length `4 - 8` wraps to `2^64 - 4` in `uint64_t`. -/
theorem C20_counterexample :
    ∃ r e offsets,
      Open shortBlobEnv exampleConstants ShardReader.new "a.mr" 1 ["l"] [] false =
        some (MSRStatus.SUCCESS, r) ∧
      Launch shortBlobEnv exampleConstants r true = some (MSRStatus.SUCCESS, e) ∧
      e.r.tasks_.task_list_ = [((0, 0), [8, 4], Json.object [("l", Json.int 1)])] ∧
      GetImageOffset shortBlobEnv exampleConstants r 0 0 ("", "") = some ([[8, 4]], offsets) ∧
      ¬ (4 > 8) ∧ (4 + 2 ^ 64 - 8) % 2 ^ 64 = 2 ^ 64 - 4 ∧ ¬ AddressValid [8, 4] :=
  ⟨_, _, _, rfl, rfl, rfl, rfl, by decide, by decide, by
    rintro ⟨s, e, h, hlt, _⟩
    simp only [List.cons.injEq, and_true] at h
    omega⟩

/-! ### `SelectCallback` -/

/-- C21 (amended). Row conversion by `SelectCallback`, called with the cells
`p_fields` (`num_fields` of them) on the rows `records`. When
`num_fields <= kMaxFieldCount`, or when no cell is NULL, the callback returns with
exactly one row appended, which has `num_fields` fields: cell by cell the string of
the cell, and the empty string for a NULL cell. The field count is not capped: the
appended row has `num_fields` fields also when that is more than `kMaxFieldCount`.
The callback returns (has defined behaviour) exactly when
`0 < num_fields <= kMaxFieldCount` or no cell is NULL. -/
theorem C21_SelectCallback_appends_row (K : Constants) (records : List (List String))
    (p_fields : List (Option String)) :
    (((p_fields.length : Int) ≤ K.kMaxFieldCount ∨ p_fields.all Option.isSome = true) →
      SelectCallback K records p_fields =
        some (records ++ [p_fields.map (fun c => c.getD "")])) ∧
    (∀ rows, SelectCallback K records p_fields = some rows →
      ∃ row, rows = records ++ [row] ∧ row.length = p_fields.length ∧
        row = p_fields.map (fun c => c.getD "")) ∧
    ((SelectCallback K records p_fields).isSome = true ↔
      ((0 < (p_fields.length : Int) ∧ (p_fields.length : Int) ≤ K.kMaxFieldCount) ∨
        p_fields.all Option.isSome = true)) := by
  have hmap : (p_fields.map (fun c => some (c.getD ""))).map (fun c : Option String => c.getD "") =
      p_fields.map (fun c => c.getD "") := by
    rw [List.map_map]
    rfl
  have hall : (p_fields.map (fun c => some (c.getD ""))).all Option.isSome = true := by
    simp
  have hcases : SelectCallback K records p_fields =
      if (0 < (p_fields.length : Int) ∧ (p_fields.length : Int) ≤ K.kMaxFieldCount) ∨
          p_fields.all Option.isSome = true then
        some (records ++ [p_fields.map (fun c => c.getD "")])
      else none := by
    unfold SelectCallback
    dsimp only
    by_cases hg : 0 < (p_fields.length : Int) ∧ (p_fields.length : Int) ≤ K.kMaxFieldCount
    · rw [if_pos hg, if_pos hall, hmap, if_pos (Or.inl hg)]
    · rw [if_neg hg]
      by_cases ha : p_fields.all Option.isSome = true
      · rw [if_pos ha, if_pos (Or.inr ha)]
      · rw [if_neg ha, if_neg (by tauto)]
  refine ⟨?_, ?_, ?_⟩
  · intro h
    rw [hcases, if_pos]
    rcases h with h | h
    · by_cases h0 : 0 < (p_fields.length : Int)
      · exact Or.inl ⟨h0, h⟩
      · right
        have : p_fields = [] := by
          cases p_fields with
          | nil => rfl
          | cons a l => simp at h0
        rw [this]
        rfl
    · exact Or.inr h
  · intro rows h
    rw [hcases] at h
    split at h
    · cases h
      exact ⟨_, rfl, by simp, rfl⟩
    · cases h
  · rw [hcases]
    split <;> simp_all

theorem C21_SelectCallback_appends_row_witness :
    SelectCallback exampleConstants [["a"]] [some "1", none, some "x"] =
      some [["a"], ["1", "", "x"]] :=
  (C21_SelectCallback_appends_row exampleConstants [["a"]] [some "1", none, some "x"]).1
    (Or.inl (by decide))

/-- C21 as stated fails: with `kMaxFieldCount = 100`, a callback with 101 cells, none
of them NULL, appends a row of 101 fields. -/
theorem C21_counterexample :
    exampleConstants.kMaxFieldCount = 100 ∧
      (SelectCallback exampleConstants [] (List.replicate 101 (some "x"))).map
        (fun rows => rows.map List.length) = some [101] :=
  ⟨rfl, by decide⟩

/-! ### Category planning -/

theorem category_rowLoop_eq (shard_id group_id : Int) (offsets : List (List Nat))
    (labels : List Json) :
    ∀ (m k : Nat) (tasks : ShardTask), k + m = offsets.length → offsets.length ≤ labels.length →
      CreateTasksByCategory.rowLoop shard_id group_id offsets labels (List.range' k m) tasks =
        some ⟨tasks.task_list_ ++
          (List.zip (offsets.drop k) (labels.drop k)).map
            (fun row => ((shard_id, group_id), row.1, row.2)), tasks.permutation_⟩ := by
  intro m
  induction m with
  | zero =>
    intro k tasks hk _
    have : offsets.drop k = [] := List.drop_eq_nil_of_le (by omega)
    simp [List.range', CreateTasksByCategory.rowLoop, this]
  | succ m ih =>
    intro k tasks hk hlen
    have hko : k < offsets.length := by omega
    have hkl : k < labels.length := by omega
    rw [List.range'_succ]
    unfold CreateTasksByCategory.rowLoop
    rw [List.getElem?_eq_getElem hko, List.getElem?_eq_getElem hkl]
    simp only
    rw [ih (k + 1) _ (by omega) hlen, List.drop_eq_getElem_cons hko,
      List.drop_eq_getElem_cons hkl]
    simp only [ShardTask.InsertTask, List.zip_cons_cons, List.map_cons, List.append_assoc,
      List.singleton_append]

theorem category_rowLoop_rowTasks (rg : SummaryEntry) (res : RowsOf) (tasks : ShardTask)
    (hlen : res.1.length ≤ res.2.length) :
    CreateTasksByCategory.rowLoop rg.1 rg.2.1 res.1 res.2 (List.range res.1.length) tasks =
      some ⟨tasks.task_list_ ++ rowTasks rg res, tasks.permutation_⟩ := by
  rw [List.range_eq_range', category_rowLoop_eq rg.1 rg.2.1 res.1 res.2 res.1.length 0 tasks
    (by omega) hlen]
  rfl

theorem groupLoop_returns (E : Env) (K : Constants) (criteria : Criteria)
    (columns : List String) :
    ∀ (summary : List SummaryEntry) (r r1 : ShardReader) (results : List RowsOf)
      (tasks : ShardTask),
      GroupCallsReturn E K criteria columns summary r results r1 → LabelsCover results →
      CreateTasksByCategory.groupLoop E K criteria columns summary r tasks =
        some (some ⟨tasks.task_list_ ++ categoryTasks summary results, tasks.permutation_⟩,
          r1) := by
  intro summary
  induction summary with
  | nil =>
    intro r r1 results tasks h _
    obtain ⟨rfl, rfl⟩ := h
    simp [CreateTasksByCategory.groupLoop, categoryTasks]
  | cons rg rest ih =>
    intro r r1 results tasks h hcover
    obtain ⟨res, more, file, len, off, r2, rfl, hcall, hrest⟩ := h
    have hlen : res.1.length ≤ res.2.length := hcover res (List.mem_cons_self _ _)
    unfold CreateTasksByCategory.groupLoop
    simp only [hcall, category_rowLoop_rowTasks rg res tasks hlen]
    rw [ih r2 r1 more _ hrest (fun x hx => hcover x (List.mem_cons_of_mem _ hx))]
    simp [categoryTasks]

theorem groupLoop_fails (E : Env) (K : Constants) (criteria : Criteria)
    (columns : List String) (rg : SummaryEntry) (post : List SummaryEntry) :
    ∀ (pre : List SummaryEntry) (r r2 r3 : ShardReader) (results : List RowsOf)
      (tasks : ShardTask) (brief : ROW_GROUP_BRIEF),
      GroupCallsReturn E K criteria columns pre r results r2 → LabelsCover results →
      ReadRowGroupCriteria E K r2 rg.2.1 rg.1 criteria columns = some (brief, r3) →
      brief.1 ≠ MSRStatus.SUCCESS →
      CreateTasksByCategory.groupLoop E K criteria columns (pre ++ rg :: post) r tasks =
        some (none, r3) := by
  intro pre
  induction pre with
  | nil =>
    intro r r2 r3 results tasks brief h _ hcall hfail
    obtain ⟨_, rfl⟩ := h
    rw [List.nil_append]
    unfold CreateTasksByCategory.groupLoop
    simp only [hcall]
    obtain ⟨st, rest⟩ := brief
    cases st with
    | SUCCESS => exact absurd rfl hfail
    | FAILED => rfl
    | ILLEGAL_COLUMN_LIST => rfl
  | cons s pre ih =>
    intro r r2 r3 results tasks brief h hcover hcall hfail
    obtain ⟨res, more, file, len, off, r1, rfl, hc, hrest⟩ := h
    have hlen : res.1.length ≤ res.2.length := hcover res (List.mem_cons_self _ _)
    rw [List.cons_append]
    unfold CreateTasksByCategory.groupLoop
    simp only [hc, category_rowLoop_rowTasks s res tasks hlen]
    exact ih r1 r2 r3 more _ brief hrest (fun x hx => hcover x (List.mem_cons_of_mem _ hx))
      hcall hfail

theorem categoryLoop_returns (E : Env) (K : Constants) (summary : List SummaryEntry)
    (columns : List String) :
    ∀ (categories : List Criteria) (r r1 : ShardReader) (results : List (List RowsOf)),
      CategoryCallsReturn E K summary columns categories r results r1 →
      (∀ res ∈ results, LabelsCover res) →
      CreateTasksByCategory.categoryLoop E K summary columns categories r =
        some (some (results.map (fun res => ⟨categoryTasks summary res, []⟩)), r1) := by
  intro categories
  induction categories with
  | nil =>
    intro r r1 results h _
    obtain ⟨rfl, rfl⟩ := h
    rfl
  | cons c rest ih =>
    intro r r1 results h hcover
    obtain ⟨res, more, r2, rfl, hg, hrest⟩ := h
    unfold CreateTasksByCategory.categoryLoop
    rw [groupLoop_returns E K c columns summary r r2 res default hg
      (hcover res (List.mem_cons_self _ _))]
    simp only
    rw [ih r2 r1 more hrest (fun x hx => hcover x (List.mem_cons_of_mem _ hx))]
    rfl

theorem categoryLoop_fails (E : Env) (K : Constants) (summary : List SummaryEntry)
    (columns : List String) (c : Criteria) (post : List Criteria) :
    ∀ (pre : List Criteria) (r r2 r3 : ShardReader) (results : List (List RowsOf)),
      CategoryCallsReturn E K summary columns pre r results r2 →
      (∀ res ∈ results, LabelsCover res) →
      CreateTasksByCategory.groupLoop E K c columns summary r2 default = some (none, r3) →
      CreateTasksByCategory.categoryLoop E K summary columns (pre ++ c :: post) r =
        some (none, r3) := by
  intro pre
  induction pre with
  | nil =>
    intro r r2 r3 results h _ hg
    obtain ⟨_, rfl⟩ := h
    rw [List.nil_append]
    unfold CreateTasksByCategory.categoryLoop
    rw [hg]
  | cons c1 pre ih =>
    intro r r2 r3 results h hcover hg
    obtain ⟨res, more, r1, rfl, hg1, hrest⟩ := h
    rw [List.cons_append]
    unfold CreateTasksByCategory.categoryLoop
    rw [groupLoop_returns E K c1 columns summary r r1 res default hg1
      (hcover res (List.mem_cons_self _ _))]
    simp only
    rw [ih r1 r2 r3 more hrest (fun x hx => hcover x (List.mem_cons_of_mem _ hx)) hg]

theorem find_skip (post : List ShardOperator) (hlast : ∀ o ∈ post, o.isCategory = false) :
    ∀ (k : Nat) (acc : Int),
      (List.zip post (List.range' k post.length)).foldl
        (fun category_operator oi => if oi.1.isCategory then (oi.2 : Int) else category_operator)
        acc = acc := by
  induction post with
  | nil => intro k acc; rfl
  | cons o rest ih =>
    intro k acc
    have ho : o.isCategory = false := hlast o (List.mem_cons_self _ _)
    simp only [List.length_cons, List.range'_succ, List.zip_cons_cons, List.foldl_cons, ho,
      Bool.false_eq_true, if_false]
    exact ih (fun x hx => hlast x (List.mem_cons_of_mem _ hx)) _ _

theorem find_last (op : ShardOperator) (post : List ShardOperator)
    (hop : op.isCategory = true) (hlast : ∀ o ∈ post, o.isCategory = false) :
    ∀ (pre : List ShardOperator) (k : Nat) (acc : Int),
      (List.zip (pre ++ op :: post) (List.range' k (pre ++ op :: post).length)).foldl
        (fun category_operator oi => if oi.1.isCategory then (oi.2 : Int) else category_operator)
        acc = ((k + pre.length : Nat) : Int) := by
  intro pre
  induction pre with
  | nil =>
    intro k acc
    simp only [List.nil_append, List.length_cons, List.range'_succ, List.zip_cons_cons,
      List.foldl_cons, hop, if_true, List.length_nil, Nat.add_zero]
    exact find_skip post hlast _ _
  | cons p pre ih =>
    intro k acc
    simp only [List.cons_append, List.length_cons, List.range'_succ, List.zip_cons_cons,
      List.foldl_cons]
    rw [ih (k + 1)]
    congr 1
    omega

theorem find_eq_length (pre : List ShardOperator) (op : ShardOperator)
    (post : List ShardOperator) (hop : op.isCategory = true)
    (hlast : ∀ o ∈ post, o.isCategory = false) :
    CreateTasksByCategory.find (pre ++ op :: post) = (pre.length : Int) := by
  unfold CreateTasksByCategory.find
  rw [List.range_eq_range', find_last op post hop hlast pre 0 (-1), Nat.zero_add]

theorem CategoryCallsReturn_length (E : Env) (K : Constants) (summary : List SummaryEntry)
    (columns : List String) :
    ∀ (categories : List Criteria) (r r1 : ShardReader) (results : List (List RowsOf)),
      CategoryCallsReturn E K summary columns categories r results r1 →
      results.length = categories.length := by
  intro categories
  induction categories with
  | nil =>
    intro r r1 results h
    rw [h.1]
    rfl
  | cons c rest ih =>
    intro r r1 results h
    obtain ⟨res, more, r2, rfl, _, hrest⟩ := h
    simp [ih r2 r1 more hrest]

theorem CreateTasksByCategory_at (E : Env) (K : Constants) (r : ShardReader)
    (summary : List SummaryEntry) (pre : List ShardOperator) (op : ShardOperator)
    (post : List ShardOperator) (categories : List Criteria)
    (hop : op.kind = OperatorKind.category categories)
    (hlast : ∀ o ∈ post, o.isCategory = false) :
    CreateTasksByCategory E K r summary (pre ++ op :: post) =
      match CreateTasksByCategory.categoryLoop E K summary (GetAllColumns r) categories
          (CheckIfColumnInIndex r (GetAllColumns r)) with
      | none => none
      | some (none, r2) => some (-2, r2)
      | some (some categoryTasks, r2) =>
        some ((pre.length : Int), { r2 with tasks_ := E.Combine categoryTasks }) := by
  have hcat : op.isCategory = true := by
    unfold ShardOperator.isCategory
    rw [hop]
  unfold CreateTasksByCategory
  simp only [find_eq_length pre op post hcat hlast]
  rw [if_neg (by omega)]
  simp only [Int.toNat_ofNat, List.getElem?_append_right (le_refl _), Nat.sub_self,
    List.getElem?_cons_zero, Option.map_some', hop]

/-- C22 (amended). Category planning, when the operator list holds a category
operator with the categories `categories` and no category operator after it. When
every call `ReadRowGroupCriteria(group, shard, c_i, columns)` returns `SUCCESS` with
at least as many labels as offsets (the code does not compare the two),
`CreateTasksByCategory` returns the index of that operator and sets `tasks_` to
`Combine` of one sublist per category, sublist `i` holding, for each summary entry
`(shard, group)` in summary order and each row the call returned in returned order,
the task `((shard, group), offsets of the row, labels of the row)`. When a call
returns another status, after calls that all succeeded, `CreateTasksByCategory`
returns `-2` and, in row mode, `CreateTasks` returns `FAILED`. -/
theorem C22_category_planning (E : Env) (K : Constants) (r : ShardReader)
    (summary : List SummaryEntry) (pre : List ShardOperator) (op : ShardOperator)
    (post : List ShardOperator) (categories : List Criteria)
    (hop : op.kind = OperatorKind.category categories)
    (hlast : ∀ o ∈ post, o.isCategory = false) :
    (∀ results r1,
      CategoryCallsReturn E K summary (GetAllColumns r) categories
        (CheckIfColumnInIndex r (GetAllColumns r)) results r1 →
      (∀ res ∈ results, LabelsCover res) →
      results.length = categories.length ∧
      CreateTasksByCategory E K r summary (pre ++ op :: post) =
        some ((pre.length : Int),
          { r1 with tasks_ :=
              E.Combine (results.map (fun res => ⟨categoryTasks summary res, []⟩)) })) ∧
    (∀ cpre c cpost spre rg spost results r2 res r3 brief r4,
      categories = cpre ++ c :: cpost → summary = spre ++ rg :: spost →
      CategoryCallsReturn E K summary (GetAllColumns r) cpre
        (CheckIfColumnInIndex r (GetAllColumns r)) results r2 →
      (∀ res1 ∈ results, LabelsCover res1) →
      GroupCallsReturn E K c (GetAllColumns r) spre r2 res r3 → LabelsCover res →
      ReadRowGroupCriteria E K r3 rg.2.1 rg.1 c (GetAllColumns r) = some (brief, r4) →
      brief.1 ≠ MSRStatus.SUCCESS →
      CreateTasksByCategory E K r summary (pre ++ op :: post) = some (-2, r4) ∧
      (r.block_reader_ = false →
        CreateTasks E K r summary (pre ++ op :: post) = some (MSRStatus.FAILED, r4))) := by
  have hat := CreateTasksByCategory_at E K r summary pre op post categories hop hlast
  refine ⟨?_, ?_⟩
  · intro results r1 hcalls hcover
    refine ⟨CategoryCallsReturn_length E K summary _ categories _ r1 results hcalls, ?_⟩
    rw [hat, categoryLoop_returns E K summary _ categories _ r1 results hcalls hcover]
  · intro cpre c cpost spre rg spost results r2 res r3 brief r4 hc hs hcalls hcover hgroup
      hcover1 hcall hfail
    have hg := groupLoop_fails E K c (GetAllColumns r) rg spost spre r2 r3 r4 res default brief
      hgroup hcover1 hcall hfail
    rw [← hs] at hg
    have hl := categoryLoop_fails E K summary (GetAllColumns r) c cpost cpre _ r2 r4 results
      hcalls hcover hg
    rw [← hc] at hl
    have hby : CreateTasksByCategory E K r summary (pre ++ op :: post) = some (-2, r4) := by
      rw [hat, hl]
    refine ⟨hby, ?_⟩
    intro hrow
    unfold CreateTasks CreateTasks.build
    rw [if_neg (by rw [hrow]; simp), hby]
    rfl

theorem C22_category_planning_witness :
    (CreateTasksByCategory categoryEnv exampleConstants categoryReader [(0, 0, 0, 3)]
        [shuffleReverse, categoryOperator ["2"]]).map (fun res => (res.1, res.2.tasks_.task_list_)) =
      some (1, [((0, 0), [17, 19], Json.object [("l", Json.int 2)])]) :=
  congrArg (Option.map (fun res => (res.1, res.2.tasks_.task_list_)))
    ((C22_category_planning categoryEnv exampleConstants categoryReader [(0, 0, 0, 3)]
      [shuffleReverse] (categoryOperator ["2"]) [] [("l", "2")] rfl
      (by intro o ho; cases ho)).1 [[([[17, 19]], [Json.object [("l", Json.int 2)]])]] _
      ⟨_, _, _, rfl, ⟨_, _, "a.mr", 30, 8, _, rfl, rfl, rfl, rfl⟩, rfl, rfl⟩
      (by
        intro res hres
        simp only [List.mem_singleton] at hres
        subst hres
        intro x hx
        simp only [List.mem_singleton] at hx
        subst hx
        decide)).2

/-- C22 as stated fails on the three-row dataset with the category value `1 OR 1=1`
on the number column `l`: `ReadRowGroupCriteria` returns `SUCCESS` with three offsets
and no label, fewer labels than offsets, and row-mode planning with that category
reads a label past the end of the vector (no defined result). -/
theorem C22_counterexample :
    ∃ brief r1,
      ReadRowGroupCriteria categoryEnv exampleConstants
          (CheckIfColumnInIndex categoryReader ["l"]) 0 0 ("l", "1 OR 1=1") ["l"] =
        some (brief, r1) ∧
      brief.1 = MSRStatus.SUCCESS ∧ brief.2.2.2.2.1.length = 3 ∧ brief.2.2.2.2.2.length = 0 ∧
      CreateTasks categoryEnv exampleConstants categoryReader [(0, 0, 0, 3)]
        [categoryOperator ["1 OR 1=1"]] = none :=
  ⟨_, _, rfl, rfl, rfl, rfl, rfl⟩

/-! ### The order of the row-group summary -/

theorem ResortRowGroups_iff (a b : SummaryEntry) : ResortRowGroups a b = true ↔ keyLt a b := by
  unfold ResortRowGroups keyLt
  simp only [Bool.or_eq_true, Bool.and_eq_true, decide_eq_true_eq]

theorem ResortRowGroups_false_iff (a b : SummaryEntry) :
    ResortRowGroups b a = false ↔ keyLe a b := by
  rw [← Bool.not_eq_true, ResortRowGroups_iff]
  unfold keyLt keyLe
  omega

theorem sortInsert_perm (a : SummaryEntry) :
    ∀ l : List SummaryEntry, (sortInsert a l).Perm (a :: l) := by
  intro l
  induction l with
  | nil => exact List.Perm.refl _
  | cons b rest ih =>
    unfold sortInsert
    split
    · exact (List.Perm.cons b ih).trans (List.Perm.swap a b rest)
    · exact List.Perm.refl _

theorem sortInsert_sorted (a : SummaryEntry) :
    ∀ l : List SummaryEntry, l.Pairwise keyLe → (sortInsert a l).Pairwise keyLe := by
  intro l
  induction l with
  | nil =>
    intro _
    exact List.pairwise_singleton _ _
  | cons b rest ih =>
    intro h
    obtain ⟨hb, hrest⟩ := List.pairwise_cons.mp h
    unfold sortInsert
    split
    · rename_i hcond
      have hba : keyLe b a := by
        simp only [Bool.or_eq_true, Bool.not_eq_true', ResortRowGroups_iff,
          ← Bool.not_eq_true] at hcond
        unfold keyLt at hcond
        unfold keyLe
        omega
      refine List.pairwise_cons.mpr ⟨?_, ih hrest⟩
      intro x hx
      rcases List.mem_cons.mp ((sortInsert_perm a rest).subset hx) with rfl | hx
      · exact hba
      · exact hb x hx
    · rename_i hcond
      have hab : keyLt a b := by
        simp only [Bool.or_eq_true, Bool.not_eq_true', ResortRowGroups_iff,
          ← Bool.not_eq_true] at hcond
        unfold keyLt at hcond ⊢
        omega
      refine List.pairwise_cons.mpr ⟨?_, h⟩
      intro x hx
      rcases List.mem_cons.mp hx with rfl | hx
      · unfold keyLt at hab
        unfold keyLe
        omega
      · have := hb x hx
        unfold keyLt at hab
        unfold keyLe at this ⊢
        omega

theorem sortRowGroups_spec (l : List SummaryEntry) :
    (sortRowGroups l).Perm l ∧ (sortRowGroups l).Pairwise keyLe := by
  unfold sortRowGroups
  have h : ∀ (l acc : List SummaryEntry), acc.Pairwise keyLe →
      (l.foldl (fun sorted a => sortInsert a sorted) acc).Perm (l.reverse ++ acc) ∧
      (l.foldl (fun sorted a => sortInsert a sorted) acc).Pairwise keyLe := by
    intro l
    induction l with
    | nil =>
      intro acc hacc
      exact ⟨List.Perm.refl _, hacc⟩
    | cons a rest ih =>
      intro acc hacc
      obtain ⟨h1, h2⟩ := ih (sortInsert a acc) (sortInsert_sorted a acc hacc)
      refine ⟨?_, h2⟩
      rw [List.foldl_cons, List.reverse_cons, List.append_assoc]
      exact h1.trans (List.Perm.append_left _ (sortInsert_perm a acc))
  obtain ⟨h1, h2⟩ := h l [] List.Pairwise.nil
  rw [List.append_nil] at h1
  exact ⟨h1.trans (List.reverse_perm l), h2⟩

theorem Launch_of_CreateTasks (E : Env) (K : Constants) (r : ShardReader) :
    (∀ r1, CreateTasks E K r (sortRowGroups (ReadRowGroupSummary K r.shard_header_))
        r.operators_ = some (MSRStatus.SUCCESS, r1) →
      Launch E K r true = some (MSRStatus.SUCCESS, ⟨r1, []⟩)) ∧
    (∀ st r1, CreateTasks E K r (sortRowGroups (ReadRowGroupSummary K r.shard_header_))
        r.operators_ = some (st, r1) → st ≠ MSRStatus.SUCCESS →
      ∀ isSimpleReader, Launch E K r isSimpleReader =
        some (MSRStatus.FAILED, ⟨{ r1 with interrupt_ := true }, []⟩)) := by
  refine ⟨?_, ?_⟩
  · intro r1 h
    unfold Launch
    simp only [h, if_true]
  · intro st r1 h hst isSimpleReader
    cases st with
    | SUCCESS => exact absurd rfl hst
    | FAILED =>
      unfold Launch
      simp only [h]
    | ILLEGAL_COLUMN_LIST =>
      unfold Launch
      simp only [h]

/-- C23. Planning determinism. The comparator `ResortRowGroups` is a strict weak
ordering: irreflexive, asymmetric, transitive, with transitive incomparability; it is
the strict lexicographic order on `(group_id, shard_id)`. The summary `Launch` hands
to `CreateTasks` (the sorted one: `Launch` returns what `CreateTasks` on it gives) is
a permutation of the output of `ReadRowGroupSummary` in which every adjacent pair,
and every earlier and later pair, is in non-decreasing `(group_id, shard_id)` order. -/
theorem C23_summary_sorted_by_group_and_shard (E : Env) (K : Constants) (r : ShardReader) :
    (∀ a, ResortRowGroups a a = false) ∧
    (∀ a b, ResortRowGroups a b = true → ResortRowGroups b a = false) ∧
    (∀ a b c, ResortRowGroups a b = true → ResortRowGroups b c = true →
      ResortRowGroups a c = true) ∧
    (∀ a b c, ResortRowGroups a b = false → ResortRowGroups b a = false →
      ResortRowGroups b c = false → ResortRowGroups c b = false →
      ResortRowGroups a c = false ∧ ResortRowGroups c a = false) ∧
    (∀ a b, ResortRowGroups a b = true ↔ keyLt a b) ∧
    (∃ summary : List SummaryEntry,
      summary.Perm (ReadRowGroupSummary K r.shard_header_) ∧
      summary.Chain' keyLe ∧ summary.Pairwise keyLe ∧
      (∀ r1, CreateTasks E K r summary r.operators_ = some (MSRStatus.SUCCESS, r1) →
        Launch E K r true = some (MSRStatus.SUCCESS, ⟨r1, []⟩)) ∧
      (∀ st r1, CreateTasks E K r summary r.operators_ = some (st, r1) →
        st ≠ MSRStatus.SUCCESS →
        ∀ isSimpleReader, Launch E K r isSimpleReader =
          some (MSRStatus.FAILED, ⟨{ r1 with interrupt_ := true }, []⟩))) := by
  refine ⟨?_, ?_, ?_, ?_, ResortRowGroups_iff, ?_⟩
  · intro a
    rw [← Bool.not_eq_true, ResortRowGroups_iff]
    unfold keyLt
    omega
  · intro a b hab
    rw [ResortRowGroups_iff] at hab
    rw [← Bool.not_eq_true, ResortRowGroups_iff]
    unfold keyLt at hab ⊢
    omega
  · intro a b c hab hbc
    rw [ResortRowGroups_iff] at hab hbc ⊢
    unfold keyLt at hab hbc ⊢
    omega
  · intro a b c h1 h2 h3 h4
    rw [← Bool.not_eq_true, ResortRowGroups_iff] at h1 h2 h3 h4 ⊢
    rw [← Bool.not_eq_true, ResortRowGroups_iff]
    unfold keyLt at h1 h2 h3 h4 ⊢
    omega
  · obtain ⟨hperm, hsorted⟩ := sortRowGroups_spec (ReadRowGroupSummary K r.shard_header_)
    exact ⟨_, hperm, List.Pairwise.chain' hsorted, hsorted, (Launch_of_CreateTasks E K r).1,
      (Launch_of_CreateTasks E K r).2⟩

theorem C23_summary_sorted_by_group_and_shard_witness :
    ResortRowGroups (0, 1, 0, 3) (1, 0, 0, 2) = false ∧
      sortRowGroups [(0, 1, 0, 3), (1, 0, 0, 2), (0, 0, 0, 4)] =
        [(0, 0, 0, 4), (1, 0, 0, 2), (0, 1, 0, 3)] :=
  ⟨(C23_summary_sorted_by_group_and_shard exampleEnv exampleConstants exampleInit).2.1
      (1, 0, 0, 2) (0, 1, 0, 3) (by decide),
   by decide⟩

/-! ### Ring slots of block mode -/

theorem ReadBlob_counters (r r1 : ShardReader) (shard_id : Int) (page_offset : Nat)
    (page_length : Int) (buf_id : Nat) (st : MSRStatus)
    (h : ReadBlob r shard_id page_offset page_length buf_id = some (st, r1)) :
    r1.task_id_ = r.task_id_ ∧ r1.deliver_id_ = r.deliver_id_ ∧ r1.row_id_ = r.row_id_ ∧
      r1.block_reader_ = r.block_reader_ ∧ r1.delivery_block_set_ = r.delivery_block_set_ := by
  unfold ReadBlob at h
  split at h
  · dsimp only at h
    split at h
    · cases h; exact ⟨rfl, rfl, rfl, rfl, rfl⟩
    · split at h
      · cases h
      · split at h
        · cases h; exact ⟨rfl, rfl, rfl, rfl, rfl⟩
        · cases h; exact ⟨rfl, rfl, rfl, rfl, rfl⟩
  · cases h

theorem PlanFrame.same_counters {r r1 : ShardReader} (h : PlanFrame r r1) :
    r1.task_id_ = r.task_id_ ∧ r1.deliver_id_ = r.deliver_id_ ∧ r1.row_id_ = r.row_id_ ∧
      r1.block_reader_ = r.block_reader_ ∧ r1.delivery_block_set_ = r.delivery_block_set_ := by
  obtain ⟨_, _, _, rfl⟩ := h
  exact ⟨rfl, rfl, rfl, rfl, rfl⟩

theorem ConsumerByBlock_cases (E : Env) (K : Constants) (e e1 : Engine) (w : Nat)
    (h : ConsumerByBlock.step E K e w = some e1) :
    e1 = e ∨ ∃ old s r2, e.workers[w]? = some old ∧ e1 = e.setWorker w s r2 ∧
      r2.deliver_id_ = e.r.deliver_id_ ∧ r2.row_id_ = e.r.row_id_ ∧
      r2.block_reader_ = e.r.block_reader_ ∧ BlockEffect K e old s r2 := by
  unfold ConsumerByBlock.step at h
  split at h
  · -- idle
    rename_i hidle
    dsimp only at h
    right
    split at h
    · cases h
      exact ⟨_, _, _, hidle, rfl, rfl, rfl, rfl,
        BlockEffect.fetch rfl rfl rfl (by intro t ht; cases ht) rfl⟩
    · split at h
      · cases h
      · split at h
        · cases h
        · rename_i hb
          cases h
          obtain ⟨h1, h2, h3, h4, h5⟩ := (ReadRowGroupBrief_frame _ _ _ _ _ _ _ _ hb).same_counters
          exact ⟨_, _, _, hidle, rfl, h2, h3, h4,
            BlockEffect.fetch rfl h1 h5 (by intro t ht; cases ht; rfl) rfl⟩
        · rename_i hb
          cases h
          obtain ⟨h1, h2, h3, h4, h5⟩ := (ReadRowGroupBrief_frame _ _ _ _ _ _ _ _ hb).same_counters
          exact ⟨_, _, _, hidle, rfl, h2, h3, h4,
            BlockEffect.fetch rfl h1 h5 (by intro t ht; cases ht) rfl⟩
  · -- parked
    rename_i hparked
    split at h
    · cases h
      right
      exact ⟨_, _, _, hparked, rfl, rfl, rfl, rfl,
        BlockEffect.move rfl rfl (by intro t ht; cases ht) (by intro t ht; cases ht)⟩
    · split at h
      · cases h
        right
        exact ⟨_, _, _, hparked, rfl, rfl, rfl, rfl,
          BlockEffect.move rfl rfl (by intro t ht; cases ht) (by intro t ht; cases ht)⟩
      · cases h
        left
        rfl
  · -- ready
    rename_i task_id brief shard_id hready
    split at h
    · cases h
      right
      exact ⟨_, _, _, hready, rfl, rfl, rfl, rfl,
        BlockEffect.move rfl rfl (by intro t ht; cases ht) (by intro t ht; cases ht)⟩
    · split at h
      · rename_i hwin
        cases h
        right
        exact ⟨_, _, _, hready, rfl, rfl, rfl, rfl,
          BlockEffect.move rfl rfl (by intro t ht; exact ht)
            (by intro t ht; cases ht; exact Or.inr hwin)⟩
      · cases h
        left
        rfl
  · -- claimed
    rename_i task_id brief shard_id hclaimed
    dsimp only at h
    split at h
    · cases h
    · split at h
      · cases h
      · rename_i hb
        cases h
        obtain ⟨h1, h2, h3, h4, h5⟩ := ReadBlob_counters _ _ _ _ _ _ _ hb
        right
        exact ⟨_, _, _, hclaimed, rfl, h2, h3, h4,
          BlockEffect.move h1 h5 (by intro t ht; cases ht; rfl)
            (by intro t ht; cases ht; exact Or.inl rfl)⟩
      · rename_i hb
        cases h
        obtain ⟨h1, h2, h3, h4, h5⟩ := ReadBlob_counters _ _ _ _ _ _ _ hb
        right
        exact ⟨_, _, _, hclaimed, rfl, h2, h3, h4,
          BlockEffect.move h1 h5 (by intro t ht; cases ht) (by intro t ht; cases ht)⟩
  · -- loaded
    rename_i task_id hloaded
    cases h
    right
    refine ⟨_, _, _, hloaded, rfl, rfl, rfl, rfl,
      BlockEffect.handover task_id rfl rfl rfl ?_⟩
    intro x
    show x ∈ (if e.r.delivery_block_set_.contains task_id then e.r.delivery_block_set_
      else task_id :: e.r.delivery_block_set_) ↔ _
    split
    · rename_i hc
      have hmem : task_id ∈ e.r.delivery_block_set_ := by simpa using hc
      constructor
      · intro hx; exact Or.inr hx
      · rintro (rfl | hx)
        · exact hmem
        · exact hx
    · exact List.mem_cons
  · cases h
    left
    rfl

theorem claims_setWorker (e : Engine) (w : Nat) (old s : Worker) (r2 : ShardReader)
    (hold : e.workers[w]? = some old) (t : Int) (h : (e.setWorker w s r2).claims t) :
    s.claimedTask = some t ∨
      (∃ (w1 : Nat) (s1 : Worker), w1 ≠ w ∧ e.workers[w1]? = some s1 ∧ s1.claimedTask = some t) ∨
      t ∈ r2.delivery_block_set_ := by
  rcases h with ⟨w1, s1, hw1, hs1⟩ | hset
  · rw [setWorker_get e w old s r2 hold] at hw1
    by_cases hw : w = w1
    · rw [if_pos hw] at hw1
      cases hw1
      exact Or.inl hs1
    · rw [if_neg hw] at hw1
      exact Or.inr (Or.inl ⟨w1, s1, fun h => hw h.symm, hw1, hs1⟩)
  · exact Or.inr (Or.inr hset)

theorem claimedTask_blockTask (s : Worker) (t : Int) (h : s.claimedTask = some t) :
    s.blockTask = some t := by
  cases s <;> first | exact h | cases h

theorem BlockInv_work (E : Env) (K : Constants) (e e1 : Engine) (w : Nat)
    (hinv : BlockInv K e) (hstep : ConsumerByBlock.step E K e w = some e1) : BlockInv K e1 := by
  rcases ConsumerByBlock_cases E K e e1 w hstep with rfl | ⟨old, s, r2, hold, rfl, hd, hrow, hb, eff⟩
  · exact hinv
  have hget := setWorker_get e w old s r2 hold
  cases eff with
  | fetch hidle htask hset hnew hclaim =>
    refine ⟨hb.trans hinv.block, ?_, ?_, ?_, ?_, ?_, ?_⟩
    · show r2.deliver_id_ ≤ r2.task_id_
      rw [hd, htask]
      have := hinv.order
      omega
    · intro t ht
      show t < r2.deliver_id_ + K.kNumPageInBuffer
      rw [hd]
      rcases claims_setWorker e w old s r2 hold t ht with h1 | ⟨w1, s1, _, hw1, hs1⟩ | h1
      · rw [hclaim] at h1
        cases h1
      · exact hinv.window t (Or.inl ⟨w1, s1, hw1, hs1⟩)
      · rw [hset] at h1
        exact hinv.window t (Or.inr h1)
    · intro w1 s1 t hw1 hs1
      show r2.deliver_id_ ≤ t ∧ t < r2.task_id_ ∧ t ∉ r2.delivery_block_set_
      rw [hd, htask, hset]
      rw [hget] at hw1
      by_cases hw : w = w1
      · rw [if_pos hw] at hw1
        cases hw1
        have := hnew t hs1
        subst this
        refine ⟨hinv.order, by omega, ?_⟩
        intro hmem
        have := (hinv.inset _ hmem).2
        omega
      · rw [if_neg hw] at hw1
        have := hinv.held w1 s1 t hw1 hs1
        exact ⟨this.1, by omega, this.2.2⟩
    · intro t ht
      show r2.deliver_id_ ≤ t ∧ t < r2.task_id_
      rw [hd, htask]
      have : t ∈ e.r.delivery_block_set_ := by
        rw [← hset]
        exact ht
      have := hinv.inset t this
      omega
    · intro w1 w2 s1 s2 t h1 h2 hs1 hs2
      rw [hget] at h1 h2
      by_cases hw1 : w = w1
      · by_cases hw2 : w = w2
        · rw [← hw1, ← hw2]
        · rw [if_pos hw1] at h1
          rw [if_neg hw2] at h2
          cases h1
          have ht := hnew t hs1
          have := (hinv.held w2 s2 t h2 hs2).2.1
          omega
      · by_cases hw2 : w = w2
        · rw [if_neg hw1] at h1
          rw [if_pos hw2] at h2
          cases h2
          have ht := hnew t hs2
          have := (hinv.held w1 s1 t h1 hs1).2.1
          omega
        · rw [if_neg hw1] at h1
          rw [if_neg hw2] at h2
          exact hinv.alone w1 w2 s1 s2 t h1 h2 hs1 hs2
    · intro hr
      show r2.deliver_id_ ∈ r2.delivery_block_set_
      rw [hd, hset]
      exact hinv.rowid (by rw [← hrow]; exact hr)
  | move htask hset hkeep hclaim =>
    refine ⟨hb.trans hinv.block, ?_, ?_, ?_, ?_, ?_, ?_⟩
    · show r2.deliver_id_ ≤ r2.task_id_
      rw [hd, htask]
      exact hinv.order
    · intro t ht
      show t < r2.deliver_id_ + K.kNumPageInBuffer
      rw [hd]
      rcases claims_setWorker e w old s r2 hold t ht with h1 | ⟨w1, s1, _, hw1, hs1⟩ | h1
      · rcases hclaim t h1 with h2 | h2
        · exact hinv.window t (Or.inl ⟨w, old, hold, h2⟩)
        · exact h2
      · exact hinv.window t (Or.inl ⟨w1, s1, hw1, hs1⟩)
      · rw [hset] at h1
        exact hinv.window t (Or.inr h1)
    · intro w1 s1 t hw1 hs1
      show r2.deliver_id_ ≤ t ∧ t < r2.task_id_ ∧ t ∉ r2.delivery_block_set_
      rw [hd, htask, hset]
      rw [hget] at hw1
      by_cases hw : w = w1
      · rw [if_pos hw] at hw1
        cases hw1
        exact hinv.held w old t hold (hkeep t hs1)
      · rw [if_neg hw] at hw1
        exact hinv.held w1 s1 t hw1 hs1
    · intro t ht
      show r2.deliver_id_ ≤ t ∧ t < r2.task_id_
      rw [hd, htask]
      exact hinv.inset t (by rw [← hset]; exact ht)
    · intro w1 w2 s1 s2 t h1 h2 hs1 hs2
      rw [hget] at h1 h2
      by_cases hw1 : w = w1
      · by_cases hw2 : w = w2
        · rw [← hw1, ← hw2]
        · rw [if_pos hw1] at h1
          rw [if_neg hw2] at h2
          cases h1
          rw [← hw1]
          exact hinv.alone w w2 old s2 t hold h2 (hkeep t hs1) hs2
      · by_cases hw2 : w = w2
        · rw [if_neg hw1] at h1
          rw [if_pos hw2] at h2
          cases h2
          rw [← hw2]
          exact hinv.alone w1 w s1 old t h1 hold hs1 (hkeep t hs2)
        · rw [if_neg hw1] at h1
          rw [if_neg hw2] at h2
          exact hinv.alone w1 w2 s1 s2 t h1 h2 hs1 hs2
    · intro hr
      show r2.deliver_id_ ∈ r2.delivery_block_set_
      rw [hd, hset]
      exact hinv.rowid (by rw [← hrow]; exact hr)
  | handover t0 hloaded hs htask hset =>
    subst hloaded hs
    have h0 := hinv.held w (Worker.loaded t0) t0 hold rfl
    refine ⟨hb.trans hinv.block, ?_, ?_, ?_, ?_, ?_, ?_⟩
    · show r2.deliver_id_ ≤ r2.task_id_
      rw [hd, htask]
      exact hinv.order
    · intro t ht
      show t < r2.deliver_id_ + K.kNumPageInBuffer
      rw [hd]
      rcases claims_setWorker e w _ _ r2 hold t ht with h1 | ⟨w1, s1, _, hw1, hs1⟩ | h1
      · cases h1
      · exact hinv.window t (Or.inl ⟨w1, s1, hw1, hs1⟩)
      · rcases (hset t).mp h1 with rfl | h2
        · exact hinv.window _ (Or.inl ⟨w, _, hold, rfl⟩)
        · exact hinv.window t (Or.inr h2)
    · intro w1 s1 t hw1 hs1
      show r2.deliver_id_ ≤ t ∧ t < r2.task_id_ ∧ t ∉ r2.delivery_block_set_
      rw [hd, htask]
      rw [hget] at hw1
      by_cases hw : w = w1
      · rw [if_pos hw] at hw1
        cases hw1
        cases hs1
      · rw [if_neg hw] at hw1
        have h1 := hinv.held w1 s1 t hw1 hs1
        refine ⟨h1.1, h1.2.1, ?_⟩
        intro hmem
        rcases (hset t).mp hmem with rfl | h2
        · exact hw (hinv.alone w w1 _ s1 _ hold hw1 rfl hs1)
        · exact h1.2.2 h2
    · intro t ht
      show r2.deliver_id_ ≤ t ∧ t < r2.task_id_
      rw [hd, htask]
      rcases (hset t).mp ht with rfl | h2
      · exact ⟨h0.1, h0.2.1⟩
      · exact hinv.inset t h2
    · intro w1 w2 s1 s2 t h1 h2 hs1 hs2
      rw [hget] at h1 h2
      by_cases hw1 : w = w1
      · rw [if_pos hw1] at h1
        cases h1
        cases hs1
      · by_cases hw2 : w = w2
        · rw [if_pos hw2] at h2
          cases h2
          cases hs2
        · rw [if_neg hw1] at h1
          rw [if_neg hw2] at h2
          exact hinv.alone w1 w2 s1 s2 t h1 h2 hs1 hs2
    · intro hr
      show r2.deliver_id_ ∈ r2.delivery_block_set_
      rw [hd]
      exact (hset _).mpr (Or.inr (hinv.rowid (by rw [← hrow]; exact hr)))

theorem GetRowFromBuffer_counters (r r1 : ShardReader) (buf_id : Nat) (rowId : Int) (res : Batch)
    (h : GetRowFromBuffer r buf_id rowId = some (res, r1)) :
    r1.task_id_ = r.task_id_ ∧ r1.deliver_id_ = r.deliver_id_ ∧ r1.row_id_ = r.row_id_ ∧
      r1.block_reader_ = r.block_reader_ ∧ r1.delivery_block_set_ = r.delivery_block_set_ := by
  unfold GetRowFromBuffer at h
  split at h
  · cases h
  · split at h
    · split at h
      · split at h
        · split at h
          · cases h
            exact ⟨rfl, rfl, rfl, rfl, rfl⟩
          · cases h
        · cases h
      · cases h
    · cases h

theorem GetBlockNext_cases (K : Constants) (r r1 : ShardReader) (out : Returned)
    (h : GetBlockNext K r = some (out, r1)) :
    r1.task_id_ = r.task_id_ ∧ r1.block_reader_ = r.block_reader_ ∧
      ((r1.deliver_id_ = r.deliver_id_ ∧ r1.delivery_block_set_ = r.delivery_block_set_ ∧
          (r1.row_id_ ≠ 0 → r.row_id_ ≠ 0 ∨ r.deliver_id_ ∈ r.delivery_block_set_)) ∨
        (r1.deliver_id_ = r.deliver_id_ + 1 ∧
          r1.delivery_block_set_ = r.delivery_block_set_.filter (fun t => t ≠ r.deliver_id_) ∧
          r1.row_id_ = 0 ∧ (r.row_id_ ≠ 0 ∨ r.deliver_id_ ∈ r.delivery_block_set_))) := by
  unfold GetBlockNext at h
  split at h
  · cases h
    exact ⟨rfl, rfl, Or.inl ⟨rfl, rfl, fun h => Or.inl h⟩⟩
  split at h
  · cases h
    exact ⟨rfl, rfl, Or.inl ⟨rfl, rfl, fun h => Or.inl h⟩⟩
  split at h
  · cases h
    exact ⟨rfl, rfl, Or.inl ⟨rfl, rfl, fun h => Or.inl h⟩⟩
  rename_i _ _ hwait
  have hready : r.row_id_ ≠ 0 ∨ r.deliver_id_ ∈ r.delivery_block_set_ := by
    by_cases h0 : r.row_id_ = 0
    · right
      by_contra hn
      apply hwait
      refine ⟨h0, ?_⟩
      intro hc
      exact hn (by simpa using hc)
    · exact Or.inl h0
  dsimp only at h
  split at h
  · cases h
  rename_i res r2 hrow
  obtain ⟨ht, hd, hr, hb, hs⟩ := GetRowFromBuffer_counters _ _ _ _ _ hrow
  split at h
  · split at h
    · cases h
      refine ⟨ht, hb, Or.inr ⟨?_, ?_, rfl, hready⟩⟩
      · show r2.deliver_id_ + 1 = r.deliver_id_ + 1
        rw [hd]
      · show r2.delivery_block_set_.filter (fun t => t ≠ r2.deliver_id_) = _
        rw [hs, hd]
    · cases h
      exact ⟨ht, hb, Or.inl ⟨hd, hs, fun _ => hready⟩⟩
  · cases h

theorem BlockInv_getNext (K : Constants) (e : Engine) (r1 : ShardReader) (out : Returned)
    (hinv : BlockInv K e) (h : GetNext K e.r = some (out, r1)) :
    BlockInv K { e with r := r1 } ∧ e.r.deliver_id_ ≤ r1.deliver_id_ := by
  unfold GetNext at h
  split at h
  · cases h
    exact ⟨hinv, le_refl _⟩
  rw [if_pos hinv.block] at h
  obtain ⟨ht, hb, hcase⟩ := GetBlockNext_cases K e.r r1 out h
  rcases hcase with ⟨hd, hs, hrow⟩ | ⟨hd, hs, hrow, hready⟩
  · refine ⟨⟨hb.trans hinv.block, ?_, ?_, ?_, ?_, ?_, ?_⟩, by rw [hd]⟩
    · show r1.deliver_id_ ≤ r1.task_id_
      rw [hd, ht]
      exact hinv.order
    · intro t hc
      show t < r1.deliver_id_ + K.kNumPageInBuffer
      rw [hd]
      apply hinv.window
      rcases hc with hc | hc
      · exact Or.inl hc
      · exact Or.inr (by rw [← hs]; exact hc)
    · intro w s t hw hst
      show r1.deliver_id_ ≤ t ∧ t < r1.task_id_ ∧ t ∉ r1.delivery_block_set_
      rw [hd, ht, hs]
      exact hinv.held w s t hw hst
    · intro t hmem
      show r1.deliver_id_ ≤ t ∧ t < r1.task_id_
      rw [hd, ht]
      exact hinv.inset t (by rw [← hs]; exact hmem)
    · exact hinv.alone
    · intro hr
      show r1.deliver_id_ ∈ r1.delivery_block_set_
      rw [hd, hs]
      rcases hrow hr with h0 | h0
      · exact hinv.rowid h0
      · exact h0
  · have hin : e.r.deliver_id_ ∈ e.r.delivery_block_set_ := by
      rcases hready with h0 | h0
      · exact hinv.rowid h0
      · exact h0
    have hsub : ∀ t, t ∈ r1.delivery_block_set_ →
        t ∈ e.r.delivery_block_set_ ∧ t ≠ e.r.deliver_id_ := by
      intro t hmem
      rw [hs] at hmem
      simpa using hmem
    refine ⟨⟨hb.trans hinv.block, ?_, ?_, ?_, ?_, ?_, ?_⟩, by rw [hd]; omega⟩
    · show r1.deliver_id_ ≤ r1.task_id_
      rw [hd, ht]
      have := (hinv.inset _ hin).2
      omega
    · intro t hc
      show t < r1.deliver_id_ + K.kNumPageInBuffer
      rw [hd]
      have : t < e.r.deliver_id_ + K.kNumPageInBuffer := by
        apply hinv.window
        rcases hc with hc | hc
        · exact Or.inl hc
        · exact Or.inr (hsub t hc).1
      omega
    · intro w s t hw hst
      show r1.deliver_id_ ≤ t ∧ t < r1.task_id_ ∧ t ∉ r1.delivery_block_set_
      rw [hd, ht]
      have h1 := hinv.held w s t hw hst
      have hne : t ≠ e.r.deliver_id_ := fun heq => h1.2.2 (heq ▸ hin)
      exact ⟨by omega, h1.2.1, fun hmem => h1.2.2 (hsub t hmem).1⟩
    · intro t hmem
      show r1.deliver_id_ ≤ t ∧ t < r1.task_id_
      rw [hd, ht]
      have h1 := hinv.inset t (hsub t hmem).1
      have := (hsub t hmem).2
      omega
    · exact hinv.alone
    · intro hr
      exact absurd hrow hr

theorem BlockInv_step (E : Env) (K : Constants) (e e1 : Engine) (a : Action) (out : Returned)
    (hinv : BlockInv K e) (ha : a.isReset = false)
    (hstep : Engine.step E K e a = some (e1, out)) :
    BlockInv K e1 ∧ e.r.deliver_id_ ≤ e1.r.deliver_id_ := by
  cases a with
  | work w =>
    simp only [Engine.step, hinv.block, if_true, Option.map_eq_some'] at hstep
    obtain ⟨e2, hw, he⟩ := hstep
    cases he
    refine ⟨BlockInv_work E K e e1 w hinv hw, ?_⟩
    rcases ConsumerByBlock_cases E K e e1 w hw with rfl | ⟨old, s, r2, _, rfl, hd, _⟩
    · exact le_refl _
    · show e.r.deliver_id_ ≤ r2.deliver_id_
      rw [hd]
  | getNext =>
    simp only [Engine.step, Option.map_eq_some'] at hstep
    obtain ⟨res, hg, he⟩ := hstep
    obtain ⟨out1, r1⟩ := res
    cases he
    exact BlockInv_getNext K e r1 out1 hinv hg
  | reset => cases ha
  | finish =>
    simp only [Engine.step] at hstep
    cases hstep
    exact ⟨⟨hinv.block, hinv.order, hinv.window, hinv.held, hinv.inset, hinv.alone, hinv.rowid⟩,
      le_refl _⟩

theorem BlockInv_run (E : Env) (K : Constants) (acts : List Action) :
    ∀ (e e1 : Engine) (outs : List Batch), BlockInv K e → (∀ a ∈ acts, a.isReset = false) →
      Engine.run E K e acts = some (e1, outs) →
      BlockInv K e1 ∧ e.r.deliver_id_ ≤ e1.r.deliver_id_ := by
  induction acts with
  | nil =>
    intro e e1 outs hinv _ hrun
    simp only [Engine.run] at hrun
    cases hrun
    exact ⟨hinv, le_refl _⟩
  | cons a rest ih =>
    intro e e1 outs hinv ha hrun
    unfold Engine.run at hrun
    split at hrun
    · cases hrun
    · rename_i e2 out hs
      split at hrun
      · cases hrun
      · rename_i e3 outs3 hr
        cases hrun
        have h2 := BlockInv_step E K e e2 a out hinv (ha a (List.mem_cons_self _ _)) hs
        have h3 := ih e2 _ outs3 h2.1 (fun b hb => ha b (List.mem_cons_of_mem _ hb)) hr
        exact ⟨h3.1, le_trans h2.2 h3.2⟩

theorem BlockInv_start (K : Constants) (e : Engine)
    (hstart : e.blockStart) : BlockInv K e := by
  obtain ⟨hblock, ht, hd, hrow, hset, hw⟩ := hstart
  have hidle : ∀ (w : Nat) s t, e.workers[w]? = some s → s.blockTask ≠ some t := by
    intro w s t h hs
    have := hw _ (List.getElem?_mem h)
    subst this
    cases hs
  refine ⟨hblock, by rw [ht, hd], ?_, ?_, ?_, ?_, ?_⟩
  · intro t hc
    rcases hc with ⟨w, s, hs, hcl⟩ | hc
    · exact absurd (claimedTask_blockTask s t hcl) (hidle w s t hs)
    · rw [hset] at hc
      cases hc
  · intro w s t hs hb
    exact absurd hb (hidle w s t hs)
  · intro t hmem
    rw [hset] at hmem
    cases hmem
  · intro w1 w2 s1 s2 t h1 _ hb
    exact absurd hb (hidle w1 s1 t h1)
  · intro hr
    exact absurd hrow hr

theorem run_append_split (E : Env) (K : Constants) (pre post : List Action) :
    ∀ (e em e1 : Engine) (o1 outs : List Batch), Engine.run E K e pre = some (em, o1) →
      Engine.run E K e (pre ++ post) = some (e1, outs) →
      ∃ o2, Engine.run E K em post = some (e1, o2) := by
  induction pre with
  | nil =>
    intro e em e1 o1 outs hpre hrun
    simp only [Engine.run] at hpre
    cases hpre
    exact ⟨outs, hrun⟩
  | cons a rest ih =>
    intro e em e1 o1 outs hpre hrun
    rw [List.cons_append] at hrun
    unfold Engine.run at hpre hrun
    split at hpre
    · cases hpre
    · rename_i e2 out hs
      rw [hs] at hrun
      dsimp only at hrun
      split at hpre
      · cases hpre
      · rename_i e3 o3 hr
        cases hpre
        split at hrun
        · cases hrun
        · rename_i e4 o4 hr2
          cases hrun
          exact ih e2 _ _ o3 o4 hr hr2

theorem slot_ne_of_window (K : Constants) (d t1 t2 : Int) (hK : 0 < K.kNumPageInBuffer)
    (h1 : d ≤ t1 ∧ t1 < d + K.kNumPageInBuffer) (h2 : d ≤ t2 ∧ t2 < d + K.kNumPageInBuffer)
    (hne : t1 ≠ t2) : slotOf K t1 ≠ slotOf K t2 := by
  intro h
  unfold slotOf at h
  have n1 := Int.emod_nonneg t1 (ne_of_gt hK)
  have n2 := Int.emod_nonneg t2 (ne_of_gt hK)
  have heq : t1 % K.kNumPageInBuffer = t2 % K.kNumPageInBuffer := by omega
  have hdvd : K.kNumPageInBuffer ∣ t1 - t2 :=
    Int.dvd_of_emod_eq_zero (Int.emod_eq_emod_iff_emod_sub_eq_zero.mp heq)
  have h0 : t1 - t2 = 0 :=
    Int.eq_zero_of_abs_lt_dvd hdvd (abs_lt.mpr ⟨by omega, by omega⟩)
  omega

theorem hasClaimed_window (E : Env) (K : Constants) (e e1 : Engine) (acts : List Action)
    (outs : List Batch) (t : Int) (hstart : e.blockStart)
    (hnoreset : ∀ a ∈ acts, a.isReset = false)
    (hrun : Engine.run E K e acts = some (e1, outs)) (h : e.hasClaimed E K acts t) :
    t < e1.r.deliver_id_ + K.kNumPageInBuffer := by
  obtain ⟨pre, post, em, o1, w, s, hacts, hpre, hs, hcl⟩ := h
  subst hacts
  have hm := BlockInv_run E K pre e em o1 (BlockInv_start K e hstart)
    (fun a ha => hnoreset a (List.mem_append_left _ ha)) hpre
  obtain ⟨o2, hpost⟩ := run_append_split E K pre post e em e1 o1 outs hpre hrun
  have h1 := BlockInv_run E K post em e1 o2 hm.1
    (fun a ha => hnoreset a (List.mem_append_right _ ha)) hpost
  have := hm.1.window t (Or.inl ⟨w, s, hs, hcl⟩)
  omega

/-- C24. Block-mode ring-slot exclusivity. In the block-mode engine started from
the initial state (counters 0, empty `delivery_block_set_`, every worker idle) with
`kNumPageInBuffer > 0`, in every state reached under any schedule without `Reset`:
every task a worker holds past the wait on `cv_delivery_`, and every task in
`delivery_block_set_`, lies in `[deliver_id_, deliver_id_ + kNumPageInBuffer)`; any
two distinct tasks that have claimed a slot at some point of the schedule and that
`deliver_id_` has not passed have different slot indices; and a task is held by one
worker only. -/
theorem C24_ring_slot_exclusive (E : Env) (K : Constants) (e e1 : Engine)
    (acts : List Action) (outs : List Batch) (hstart : e.blockStart)
    (hK : 0 < K.kNumPageInBuffer) (hnoreset : ∀ a ∈ acts, a.isReset = false)
    (hrun : Engine.run E K e acts = some (e1, outs)) :
    (∀ t, e1.claims t →
      e1.r.deliver_id_ ≤ t ∧ t < e1.r.deliver_id_ + K.kNumPageInBuffer) ∧
    (∀ t1 t2, e.hasClaimed E K acts t1 → e.hasClaimed E K acts t2 → t1 ≠ t2 →
      e1.r.deliver_id_ ≤ t1 → e1.r.deliver_id_ ≤ t2 → slotOf K t1 ≠ slotOf K t2) ∧
    (∀ (w1 w2 : Nat) s1 s2 t, e1.workers[w1]? = some s1 → e1.workers[w2]? = some s2 →
      s1.blockTask = some t → s2.blockTask = some t → w1 = w2) := by
  have hinv := (BlockInv_run E K acts e e1 outs (BlockInv_start K e hstart) hnoreset hrun).1
  refine ⟨?_, ?_, hinv.alone⟩
  · intro t hc
    refine ⟨?_, hinv.window t hc⟩
    rcases hc with ⟨w, s, hs, hcl⟩ | hc
    · exact (hinv.held w s t hs (claimedTask_blockTask s t hcl)).1
    · exact (hinv.inset t hc).1
  · intro t1 t2 hc1 hc2 hne hd1 hd2
    exact slot_ne_of_window K e1.r.deliver_id_ t1 t2 hK
      ⟨hd1, hasClaimed_window E K e e1 acts outs t1 hstart hnoreset hrun hc1⟩
      ⟨hd2, hasClaimed_window E K e e1 acts outs t2 hstart hnoreset hrun hc2⟩ hne

theorem C24_ring_slot_exclusive_witness :
    ∃ r e e1 outs,
      Open threeRowBlockEnv exampleConstants ShardReader.new "a.mr" 1 ["l"] [] true =
        some (MSRStatus.SUCCESS, r) ∧
      Launch threeRowBlockEnv exampleConstants r false = some (MSRStatus.SUCCESS, e) ∧
      Engine.run threeRowBlockEnv exampleConstants e loadBlockSchedule = some (e1, outs) ∧
      e1.workers[0]? = some (Worker.loaded 0) ∧
      (∀ t, e1.claims t →
        e1.r.deliver_id_ ≤ t ∧ t < e1.r.deliver_id_ + exampleConstants.kNumPageInBuffer) ∧
      (∀ t1 t2, e.hasClaimed threeRowBlockEnv exampleConstants loadBlockSchedule t1 →
        e.hasClaimed threeRowBlockEnv exampleConstants loadBlockSchedule t2 → t1 ≠ t2 →
        e1.r.deliver_id_ ≤ t1 → e1.r.deliver_id_ ≤ t2 →
        slotOf exampleConstants t1 ≠ slotOf exampleConstants t2) ∧
      (∀ (w1 w2 : Nat) s1 s2 t, e1.workers[w1]? = some s1 → e1.workers[w2]? = some s2 →
        s1.blockTask = some t → s2.blockTask = some t → w1 = w2) :=
  ⟨_, _, _, _, rfl, rfl, rfl, rfl,
    C24_ring_slot_exclusive threeRowBlockEnv exampleConstants _ _ loadBlockSchedule _
      ⟨rfl, rfl, rfl, rfl, rfl, fun w hw => by
        cases hw with
        | head => rfl
        | tail _ h => cases h⟩
      (by decide) (by decide) rfl⟩

/-! ### The all-in-index flag -/

theorem mapAssign_keys (m : List (String × Nat)) (k : String) (v : Nat) (x : String) :
    x ∈ (mapAssign m k v).map Prod.fst ↔ x ∈ m.map Prod.fst ∨ x = k := by
  unfold mapAssign
  split
  · rename_i hany
    have hmap : (m.map (fun kv => if kv.1 == k then (k, v) else kv)).map Prod.fst =
        m.map Prod.fst := by
      rw [List.map_map]
      apply List.map_congr_left
      intro kv _
      by_cases hk : kv.1 = k
      · simp [hk]
      · simp [hk]
    rw [hmap]
    constructor
    · exact Or.inl
    · rintro (h | rfl)
      · exact h
      · simp only [List.any_eq_true, beq_iff_eq] at hany
        obtain ⟨kv, hkv, rfl⟩ := hany
        exact List.mem_map_of_mem _ hkv
  · simp

theorem foldl_mapAssign_keys (fields : List (Nat × String)) :
    ∀ (m : List (String × Nat)) (x : String),
      x ∈ (fields.foldl (fun m field => mapAssign m field.2 field.1) m).map Prod.fst ↔
        x ∈ m.map Prod.fst ∨ x ∈ fields.map Prod.snd := by
  induction fields with
  | nil => intro m x; simp
  | cons f rest ih =>
    intro m x
    rw [List.foldl_cons, ih, mapAssign_keys]
    simp only [List.map_cons, List.mem_cons]
    tauto

theorem mapFind_isNone (m : List (String × Nat)) (c : String) :
    (mapFind m c).isNone = true ↔ c ∉ m.map Prod.fst := by
  unfold mapFind
  simp only [Option.isNone_map', Option.isNone_iff_eq_none, List.find?_eq_none, beq_iff_eq,
    List.mem_map, not_exists, not_and]

/-- C25 (amended). The all-in-index flag is only ever cleared. For a reader whose
`column_schema_id_` holds no key other than indexed fields of the header (as the
empty map of a new reader does), after `CheckIfColumnInIndex(columns)` the flag
`all_in_index_` is true if and only if it was true before the call, `columns` is
non-empty and every column in it is an indexed field of the header; and the keys of
`column_schema_id_` are still indexed fields. -/
theorem C25_flag_is_clear_only (r : ShardReader) (columns : List String)
    (hkeys : ∀ k ∈ r.schemaKeys, k ∈ r.shard_header_.indexedColumns) :
    ((CheckIfColumnInIndex r columns).all_in_index_ = true ↔
      r.all_in_index_ = true ∧ columns ≠ [] ∧
        ∀ c ∈ columns, c ∈ r.shard_header_.indexedColumns) ∧
    (∀ k ∈ (CheckIfColumnInIndex r columns).schemaKeys,
      k ∈ (CheckIfColumnInIndex r columns).shard_header_.indexedColumns) := by
  have hfold := foldl_mapAssign_keys r.shard_header_.fields r.column_schema_id_
  unfold ShardReader.schemaKeys ShardHeader.indexedColumns at *
  unfold CheckIfColumnInIndex
  split
  · rename_i hempty
    refine ⟨?_, hkeys⟩
    constructor
    · intro h
      cases h
    · rintro ⟨_, hne, _⟩
      exact absurd (List.isEmpty_iff.mp hempty) hne
  · rename_i hempty
    have hne : columns ≠ [] := fun h => hempty (List.isEmpty_iff.mpr h)
    have hres : ∀ k, k ∈ (r.shard_header_.fields.foldl
        (fun m field => mapAssign m field.2 field.1) r.column_schema_id_).map Prod.fst →
        k ∈ r.shard_header_.fields.map Prod.snd := by
      intro k hk
      rcases (hfold k).mp hk with h | h
      · exact hkeys k h
      · exact h
    dsimp only
    split
    · rename_i hany
      refine ⟨?_, hres⟩
      constructor
      · intro h
        cases h
      · rintro ⟨_, _, hall⟩
        exfalso
        simp only [List.any_eq_true] at hany
        obtain ⟨c, hc, hnone⟩ := hany
        exact (mapFind_isNone _ c).mp hnone ((hfold c).mpr (Or.inr (hall c hc)))
    · rename_i hany
      refine ⟨?_, hres⟩
      constructor
      · intro h
        refine ⟨h, hne, ?_⟩
        intro c hc
        by_contra hn
        apply hany
        simp only [List.any_eq_true]
        refine ⟨c, hc, (mapFind_isNone _ c).mpr ?_⟩
        intro hk
        exact hn (hres c hk)
      · rintro ⟨h, _, _⟩
        exact h

theorem C25_flag_is_clear_only_witness :
    (∀ k ∈ exampleInit.schemaKeys, k ∈ exampleInit.shard_header_.indexedColumns) ∧
    ((CheckIfColumnInIndex exampleInit ["l"]).all_in_index_ = true ↔
      exampleInit.all_in_index_ = true ∧ ["l"] ≠ [] ∧
        ∀ c ∈ ["l"], c ∈ exampleInit.shard_header_.indexedColumns) ∧
    (∀ k ∈ (CheckIfColumnInIndex exampleInit ["l"]).schemaKeys,
      k ∈ (CheckIfColumnInIndex exampleInit ["l"]).shard_header_.indexedColumns) :=
  ⟨by decide, C25_flag_is_clear_only exampleInit ["l"] (by decide)⟩

/-- C25 (counterexample). The reader of the example (indexed field `l`, new reader:
flag true, empty map) first plans with the column `text`, which is not indexed, and
then with the column list `["l"]`: that list is non-empty and every column in it is
an indexed field of the header, yet `all_in_index_` is false after the second call. -/
theorem C25_counterexample :
    exampleInit.all_in_index_ = true ∧
    exampleInit.shard_header_.indexedColumns = ["l"] ∧
    (CheckIfColumnInIndex exampleInit ["text"]).all_in_index_ = false ∧
    (CheckIfColumnInIndex (CheckIfColumnInIndex exampleInit ["text"]) ["l"]).all_in_index_ =
      false ∧
    ¬ ((CheckIfColumnInIndex (CheckIfColumnInIndex exampleInit ["text"]) ["l"]).all_in_index_ =
        true ↔
      ["l"] ≠ [] ∧ ∀ c ∈ ["l"],
        c ∈ (CheckIfColumnInIndex exampleInit ["text"]).shard_header_.indexedColumns) := by
  refine ⟨rfl, rfl, by decide, by decide, ?_⟩
  intro h
  have h1 : (CheckIfColumnInIndex (CheckIfColumnInIndex exampleInit ["text"]) ["l"]).all_in_index_ =
      true := h.mpr ⟨by decide, by decide⟩
  revert h1
  decide

/-! ### `OpenPy` -/

/-- C26 (the code at the failing inputs). On a dataset with the blob fields `data`
and `mask`, `OpenPy` with the columns `data, mask, nope` erases position 0 and then
position 1 of the already shortened copy, so it validates the list `[mask]` instead
of `[nope]` and returns SUCCESS although `nope` is no column of the schema (`Open`
on the same input returns ILLEGAL_COLUMN_LIST). With the columns `l, data, mask` the
second erase position is 2, the length of the copy `[l, mask]`: no valid index. -/
theorem C26_OpenPy_erase_positions :
    ∃ r1, Init twoBlobEnv exampleConstants ShardReader.new "a.mr" = some (MSRStatus.SUCCESS, r1) ∧
      get_blob_fields r1 = ["data", "mask"] ∧
      OpenPy.eraseLoop ["data", "mask", "nope"] (get_blob_fields r1) ["data", "mask", "nope"] =
        some ["mask"] ∧
      withoutBlobFields (get_blob_fields r1) ["data", "mask", "nope"] = ["nope"] ∧
      CheckColumnList r1 ["mask"] = MSRStatus.SUCCESS ∧
      CheckColumnList r1 ["nope"] = MSRStatus.FAILED ∧
      (OpenPy twoBlobEnv exampleConstants ShardReader.new "a.mr" 1 ["data", "mask", "nope"] []).map
        Prod.fst = some MSRStatus.SUCCESS ∧
      (Open twoBlobEnv exampleConstants ShardReader.new "a.mr" 1 ["data", "mask", "nope"] []
        false).map Prod.fst = some MSRStatus.ILLEGAL_COLUMN_LIST ∧
      OpenPy.eraseLoop ["l", "data", "mask"] ["mask"] ["l", "mask"] = none ∧
      OpenPy.eraseLoop ["l", "data", "mask"] (get_blob_fields r1) ["l", "data", "mask"] = none ∧
      withoutBlobFields (get_blob_fields r1) ["l", "data", "mask"] = ["l"] ∧
      (OpenPy twoBlobEnv exampleConstants ShardReader.new "a.mr" 1 ["l", "data", "mask"] []).isNone =
        true :=
  ⟨_, rfl, rfl, by decide, by decide, by decide, by decide, by decide, by decide, by decide,
    by decide, by decide, by decide⟩

end mindrecord
